import Mathlib

/-!
# Verification of the cccg interactive scene/input model

Shallow embedding of the cccg prototype (src/cccg/app.py, src/cccg/game_objects.py).
Float arithmetic (pygame.Vector2, Python floats) is embedded into `ℚ`; pixel rects
are integer rectangles as in pygame; Python `round` (banker's rounding) is `pyRound`
and Python `int()` truncation is `pyInt`.  Randomness (`random.randrange`) is
supplied through an oracle queue carried in the state.  Rendering-only data
(surfaces, shadow trails, fonts) is not part of the model.
-/

/-- Python `round` on a rational: round half to even (banker's rounding). -/
def pyRound (q : ℚ) : Int :=
  let f : Int := ⌊q⌋
  let r : ℚ := q - f
  if r < 1/2 then f
  else if 1/2 < r then f + 1
  else if f % 2 = 0 then f else f + 1

/-- Python `int()` on a rational: truncation toward zero. -/
def pyInt (q : ℚ) : Int :=
  if q < 0 then ⌈q⌉ else ⌊q⌋

/-- A pygame `Rect`: integer top-left and size. -/
structure Rect where
  x : Int
  y : Int
  w : Int
  h : Int
  deriving DecidableEq, Repr

/-- pygame `Rect.colliderect`: true when the rects overlap with positive area. -/
def Rect.colliderect (a b : Rect) : Bool :=
  a.x < b.x + b.w && b.x < a.x + a.w && a.y < b.y + b.h && b.y < a.y + a.h

/-- pygame `Rect.collidepoint` for an integer point: right/bottom edges exclusive. -/
def Rect.collidepointI (r : Rect) (p : Int × Int) : Bool :=
  r.x ≤ p.1 && p.1 < r.x + r.w && r.y ≤ p.2 && p.2 < r.y + r.h

/-- pygame `Rect.collidepoint` for a float point: pygame truncates the
coordinates to integers before testing. -/
def Rect.collidepointQ (r : Rect) (p : ℚ × ℚ) : Bool :=
  r.collidepointI (pyInt p.1, pyInt p.2)

/-- `CardSprite.CARD_SIZE`. -/
def cardSizeW : Int := 90

def cardSizeH : Int := 132

/-- `CardGameApp.GRID_CELL_SIZE`. -/
def gridCellSize : Int := 48

/-- `CardSprite.GRID_SPAN` (also `DeckSprite.GRID_SPAN` and `Amarre.GRID_SPAN`). -/
def cardSpanX : Int := 2

def cardSpanY : Int := 3

/-- `CardGameApp.drag_scale`. -/
def dragScale : ℚ := 13/10

/-- `CardGameApp.double_click_threshold_ms`. -/
def doubleClickThresholdMs : Nat := 400

/-- `CardGameApp.min_zoom`. -/
def minZoom : ℚ := 1/4

/-- `CardGameApp.max_zoom`. -/
def maxZoom : ℚ := 4

/-- `GameObject.set_scale` on a sprite's (scale, rect) state given the base image
size: clamp to ≥ 0.01; no-op within 1e-3 of the current scale; at scale ≈ 1 the
base image is restored; otherwise the base is smooth-scaled to rounded pixel
sizes (≥ 1 per axis).  The top-left stays anchored. -/
def setScaleRect (curScale : ℚ) (baseW baseH : Int) (r : Rect) (s : ℚ) : ℚ × Rect :=
  let s2 := max s (1/100)
  if |s2 - curScale| < 1/1000 then (curScale, r)
  else if |s2 - 1| < 1/1000 then (s2, { r with w := baseW, h := baseH })
  else
    (s2, { r with w := max 1 (pyRound (baseW * s2)), h := max 1 (pyRound (baseH * s2)) })

/-- A `CardSprite`'s mutable state.  `cid` is the Python object identity;
`rect` mirrors `self.rect` (with `self.position` always kept equal to
`self.rect.topleft` by the source).  The base image is always 90×132. -/
structure CardObj where
  cid : Nat
  label : String
  rect : Rect
  scale : ℚ
  inHand : Bool
  handHovered : Bool
  amarre : Option Nat
  handScreenRect : Option Rect
  deriving DecidableEq, Repr

/-- A `DeckSprite`'s mutable state; its base image is 90 wide and
`132 + max(count, 1)` tall (`_create_deck_surface`). -/
structure DeckObj where
  rect : Rect
  cards : List String
  scale : ℚ
  deriving DecidableEq, Repr

/-- An `Amarre`'s mutable state; `aid` is the Python object identity. -/
structure AmarreObj where
  aid : Nat
  cards : List Nat
  rect : Rect
  scale : ℚ
  deriving DecidableEq, Repr

/-- A reference into the scene's z-ordered object list.  The app owns a single
deck object, so the deck needs no id. -/
inductive ObjRef where
  | card (cid : Nat)
  | deck
  deriving DecidableEq, Repr

/-- `CardGameApp.dragged_object`: a scene object or an amarre. -/
inductive DragRef where
  | obj (o : ObjRef)
  | amarre (aid : Nat)
  deriving DecidableEq, Repr

/-- The state owned by `CardGameApp` (plus the ambient input device state the
source queries on demand: mouse position, modifier keys, clock, and the
randomness oracle).  `deckSpriteSet` models `self.deck_sprite is not None`
(the app only ever creates one deck object, kept in `deckObj` even after it
leaves the scene). -/
structure AppState where
  cardStore : List CardObj
  deckObj : DeckObj
  deckSpriteSet : Bool
  objects : List ObjRef
  amarreHeap : List AmarreObj
  amarres : List Nat
  handCards : List Nat
  draggedObject : Option DragRef
  dragOffset : ℚ × ℚ
  dragStartPosition : Option (ℚ × ℚ)
  cameraCenter : ℚ × ℚ
  zoom : ℚ
  panActive : Bool
  panLastPos : Int × Int
  lastClickedObject : Option ObjRef
  lastClickTime : Nat
  now : Nat
  mousePos : Int × Int
  ctrlHeld : Bool
  screenW : Int
  screenH : Int
  randQueue : List Nat
  deriving DecidableEq, Repr

/-- Look up a card object by identity. -/
def getCard (s : AppState) (cid : Nat) : Option CardObj :=
  s.cardStore.find? (fun c => c.cid == cid)

/-- Look up an amarre object by identity. -/
def getAmarre (s : AppState) (aid : Nat) : Option AmarreObj :=
  s.amarreHeap.find? (fun g => g.aid == aid)

/-- Mutate the card object with identity `cid` (no-op when absent). -/
def updateCard (s : AppState) (cid : Nat) (f : CardObj → CardObj) : AppState :=
  { s with cardStore := s.cardStore.map fun c => if c.cid = cid then f c else c }

/-- Mutate the amarre object with identity `aid` (no-op when absent). -/
def updateAmarre (s : AppState) (aid : Nat) (f : AmarreObj → AmarreObj) : AppState :=
  { s with amarreHeap := s.amarreHeap.map fun g => if g.aid = aid then f g else g }

/-- The pixel rect of a scene object. -/
def objRect (s : AppState) : ObjRef → Option Rect
  | .card cid => (getCard s cid).map (·.rect)
  | .deck => some s.deckObj.rect

/-- `CardGameApp._world_to_screen`. -/
def worldToScreen (s : AppState) (p : ℚ × ℚ) : ℚ × ℚ :=
  let cx : ℚ := (s.screenW : ℚ) / 2
  let cy : ℚ := (s.screenH : ℚ) / 2
  (cx + (p.1 - s.cameraCenter.1) * s.zoom, cy + (p.2 - s.cameraCenter.2) * s.zoom)

/-- `CardGameApp._screen_to_world`: the division is skipped when zoom = 0. -/
def screenToWorld (s : AppState) (p : ℚ × ℚ) : ℚ × ℚ :=
  let cx : ℚ := (s.screenW : ℚ) / 2
  let cy : ℚ := (s.screenH : ℚ) / 2
  let ox : ℚ := p.1 - cx
  let oy : ℚ := p.2 - cy
  let ox := if s.zoom ≠ 0 then ox / s.zoom else ox
  let oy := if s.zoom ≠ 0 then oy / s.zoom else oy
  (s.cameraCenter.1 + ox, s.cameraCenter.2 + oy)

/-- One axis of `CardGameApp._snap_object_to_grid`: margin to center the span
block over the sprite, round the block origin to the nearest cell (Python
`round`), and truncate the final float position (Python `int`). -/
def snapAxis (pos size span : Int) : Int :=
  let margin : ℚ := max 0 (((span * gridCellSize - size : Int) : ℚ) / 2)
  let k : Int := pyRound (((pos : ℚ) - margin) / (gridCellSize : ℚ))
  pyInt ((k : ℚ) * (gridCellSize : ℚ) + margin)

/-- `CardGameApp._snap_object_to_grid` on an object's rect (the size is kept,
only the top-left moves). -/
def snapRect (r : Rect) (span : Int × Int) : Rect :=
  { r with x := snapAxis r.x r.w span.1, y := snapAxis r.y r.h span.2 }

/-- One axis of `CardGameApp._get_object_grid_cell`. -/
def gridCellAxis (pos size span : Int) : Int :=
  let margin : ℚ := max 0 (((span * gridCellSize - size : Int) : ℚ) / 2)
  pyRound (((pos : ℚ) - margin) / (gridCellSize : ℚ))

/-- Base-image height of the deck for a given card count
(`DeckSprite._create_deck_surface`: 132 plus `max(thickness, scale)` with
render scale 1). -/
def deckBaseH (count : Nat) : Int := cardSizeH + (max count 1 : Nat)

/-- `DeckSprite._refresh_image`: rebuild the image for the current count and
keep the top-left. -/
def deckRefreshRect (r : Rect) (count : Nat) : Rect :=
  { r with w := cardSizeW, h := deckBaseH count }

/-- `DeckSprite.draw_card`: pop from the end of the stored sequence; `none`
when empty. -/
def deckDrawCard (d : DeckObj) : Option String × DeckObj :=
  match d.cards.getLast? with
  | none => (none, d)
  | some card =>
    let rest := d.cards.dropLast
    (some card, { d with cards := rest, rect := deckRefreshRect d.rect rest.length })

/-- `DeckSprite.shuffle_in_card`: append when empty, otherwise insert at the
oracle-chosen index in `[0, len]` (`randrange(len(self.cards) + 1)`). -/
def deckShuffleIn (d : DeckObj) (label : String) (r : Nat) : DeckObj :=
  let cs :=
    if d.cards.isEmpty then d.cards ++ [label]
    else d.cards.insertIdx (r % (d.cards.length + 1)) label
  { d with cards := cs, rect := deckRefreshRect d.rect cs.length }

/-- `GameObject.set_scale` applied to a card in the store. -/
def setCardScaleOp (s : AppState) (cid : Nat) (q : ℚ) : AppState :=
  updateCard s cid fun c =>
    let sr := setScaleRect c.scale cardSizeW cardSizeH c.rect q
    { c with scale := sr.1, rect := sr.2 }

/-- `GameObject.set_scale` applied to the deck. -/
def setDeckScaleOp (s : AppState) (q : ℚ) : AppState :=
  let d := s.deckObj
  let sr := setScaleRect d.scale cardSizeW (deckBaseH d.cards.length) d.rect q
  { s with deckObj := { d with scale := sr.1, rect := sr.2 } }

/-- `CardGameApp._snap_object_to_grid` applied to a card in the store. -/
def snapCardOp (s : AppState) (cid : Nat) : AppState :=
  updateCard s cid fun c => { c with rect := snapRect c.rect (cardSpanX, cardSpanY) }

/-- `CardGameApp._snap_object_to_grid` applied to the deck. -/
def snapDeckOp (s : AppState) : AppState :=
  { s with deckObj := { s.deckObj with rect := snapRect s.deckObj.rect (cardSpanX, cardSpanY) } }

/-- A fresh Python object identity for a new card. -/
def freshCid (s : AppState) : Nat := (s.cardStore.map (·.cid)).foldr max 0 + 1

/-- A fresh Python object identity for a new amarre. -/
def freshAid (s : AppState) : Nat := (s.amarreHeap.map (·.aid)).foldr max 0 + 1

/-- The fixed probe order of `CardGameApp._find_free_card_position`:
right, left, up, down, upper-right, lower-right, upper-left, lower-left. -/
def freeSlotOffsets : List (Int × Int) :=
  [(cardSpanX, 0), (-cardSpanX, 0), (0, -cardSpanY), (0, cardSpanY),
   (cardSpanX, -cardSpanY), (cardSpanX, cardSpanY),
   (-cardSpanX, -cardSpanY), (-cardSpanX, cardSpanY)]

/-- Candidate pixel rect for one probe offset of
`CardGameApp._find_free_card_position`. -/
def freeSlotCandidateRect (deckCell : Int × Int) (off : Int × Int) : Rect :=
  let cellX := deckCell.1 + off.1
  let cellY := deckCell.2 + off.2
  let marginX : ℚ := max 0 (((cardSpanX * gridCellSize - cardSizeW : Int) : ℚ) / 2)
  let marginY : ℚ := max 0 (((cardSpanY * gridCellSize - cardSizeH : Int) : ℚ) / 2)
  { x := pyRound (((cellX * gridCellSize : Int) : ℚ) + marginX),
    y := pyRound (((cellY * gridCellSize : Int) : ℚ) + marginY),
    w := cardSizeW, h := cardSizeH }

/-- `CardGameApp._get_object_grid_cell` of the deck. -/
def deckGridCell (s : AppState) : Int × Int :=
  (gridCellAxis s.deckObj.rect.x s.deckObj.rect.w cardSpanX,
   gridCellAxis s.deckObj.rect.y s.deckObj.rect.h cardSpanY)

/-- Collision scan of `CardGameApp._find_free_card_position`: any tracked
scene object other than the anchor deck and the ignore set whose rect
intersects the candidate. -/
def slotCollides (s : AppState) (ignore : List ObjRef) (r : Rect) : Bool :=
  s.objects.any fun o =>
    if o = ObjRef.deck then false
    else if o ∈ ignore then false
    else
      match objRect s o with
      | some ro => r.colliderect ro
      | none => false

/-- `CardGameApp._find_free_card_position`. -/
def findFreeCardPosition (s : AppState) (ignore : List ObjRef) : Option (Int × Int) :=
  freeSlotOffsets.findSome? fun off =>
    let r := freeSlotCandidateRect (deckGridCell s) off
    if slotCollides s ignore r then none else some (r.x, r.y)

/-- `Amarre._update_from_primary`: mirror the first (anchor) card's rect and
move every member to that top-left. -/
def updateFromPrimaryOp (s : AppState) (aid : Nat) : AppState :=
  match getAmarre s aid with
  | none => s
  | some g =>
    match g.cards.head? with
    | none => s
    | some primary =>
      match getCard s primary with
      | none => s
      | some pc =>
        let s := updateAmarre s aid fun g2 => { g2 with rect := pc.rect }
        g.cards.foldl
          (fun t m =>
            updateCard t m fun c =>
              { c with rect := { c.rect with x := pc.rect.x, y := pc.rect.y } })
          s

/-- `Amarre.remove_card`: detach a member, auto-dissolving the group when it
would drop below two members; returns `true` exactly when the group emptied. -/
def amarreRemoveCard (s : AppState) (aid cid : Nat) : AppState × Bool :=
  match getAmarre s aid with
  | none => (s, false)
  | some g =>
    if cid ∈ g.cards then
      let s := updateAmarre s aid fun g2 => { g2 with cards := g2.cards.erase cid }
      let s := updateCard s cid fun c => { c with amarre := none }
      let s := setCardScaleOp s cid 1
      match getAmarre s aid with
      | none => (s, false)
      | some g2 =>
        match g2.cards with
        | [] => (s, true)
        | [r] =>
          let s := updateCard s r fun c => { c with amarre := none }
          let s := setCardScaleOp s r 1
          let s := updateAmarre s aid fun g3 => { g3 with cards := [] }
          (s, true)
        | _ => (updateFromPrimaryOp s aid, false)
    else (s, false)

/-- `CardGameApp._remove_amarre`: drop the group from tracking and detach any
remaining members (iterating over a snapshot of the member list). -/
def removeAmarreOp (s : AppState) (aid : Nat) : AppState :=
  let s := { s with amarres := s.amarres.erase aid }
  match getAmarre s aid with
  | none => s
  | some g => g.cards.foldl (fun t m => (amarreRemoveCard t aid m).1) s

/-- `CardGameApp._detach_card_from_amarre`. -/
def detachCardFromAmarre (s : AppState) (cid : Nat) : AppState :=
  match getCard s cid with
  | none => s
  | some c =>
    match c.amarre with
    | none => s
    | some aid =>
      let sr := amarreRemoveCard s aid cid
      if sr.2 then removeAmarreOp sr.1 aid else sr.1

/-- The tail of `Amarre.add_card` once the card is free of other groups: seed
the group's rect/scale from the first member, align the card onto the group
and append it. -/
def amarreAddCardTail (s : AppState) (aid cid : Nat) : AppState :=
  match getAmarre s aid, getCard s cid with
  | some g, some c2 =>
    let s :=
      if g.cards.isEmpty then
        updateAmarre s aid fun g2 => { g2 with rect := c2.rect, scale := c2.scale }
      else s
    let s := updateCard s cid fun c3 =>
      { c3 with amarre := some aid, inHand := false, handScreenRect := none }
    match getAmarre s aid with
    | none => s
    | some g2 =>
      let s := setCardScaleOp s cid g2.scale
      let s := updateCard s cid fun c3 =>
        { c3 with rect := { c3.rect with x := g2.rect.x, y := g2.rect.y } }
      let s := updateAmarre s aid fun g3 => { g3 with cards := g3.cards ++ [cid] }
      updateFromPrimaryOp s aid
  | _, _ => s

/-- `Amarre.add_card`: steal the card from any previous group, then seed,
align and append it. -/
def amarreAddCard (s : AppState) (aid cid : Nat) : AppState :=
  match getCard s cid with
  | none => s
  | some c =>
    if c.amarre = some aid then s
    else
      let s :=
        match c.amarre with
        | some other => (amarreRemoveCard s other cid).1
        | none => s
      amarreAddCardTail s aid cid

/-- `Amarre.move_to`. -/
def amarreMoveTo (s : AppState) (aid : Nat) (pos : Int × Int) : AppState :=
  match getAmarre s aid with
  | none => s
  | some g =>
    let s := updateAmarre s aid fun g2 =>
      { g2 with rect := { g2.rect with x := pos.1, y := pos.2 } }
    g.cards.foldl
      (fun t m =>
        updateCard t m fun c => { c with rect := { c.rect with x := pos.1, y := pos.2 } })
      s

/-- `Amarre.set_scale`. -/
def amarreSetScale (s : AppState) (aid : Nat) (q : ℚ) : AppState :=
  match getAmarre s aid with
  | none => s
  | some g =>
    let s := updateAmarre s aid fun g2 => { g2 with scale := q }
    let s := g.cards.foldl (fun t m => setCardScaleOp t m q) s
    updateFromPrimaryOp s aid

/-- `Amarre.bring_to_front`. -/
def amarreBringToFront (s : AppState) (aid : Nat) : AppState :=
  match getAmarre s aid with
  | none => s
  | some g =>
    g.cards.foldl
      (fun t m =>
        if ObjRef.card m ∈ t.objects then
          { t with objects := t.objects.erase (ObjRef.card m) ++ [ObjRef.card m] }
        else t)
      s

/-- `HandZone.HAND_SCALE`. -/
def handScaleC : ℚ := 3/2

/-- `HandZone.HOVER_SCALE_MULTIPLIER`. -/
def hoverScaleMultiplier : ℚ := 3/2

/-- `HandZone` margin: `screen_width * LEFT_RIGHT_MARGIN_RATIO`. -/
def handMargin (s : AppState) : ℚ := (s.screenW : ℚ) * (8/100)

/-- `HandZone` available width: `max(0, screen_width - 2 * margin)`. -/
def handAvailable (s : AppState) : ℚ := max 0 ((s.screenW : ℚ) - 2 * handMargin s)

/-- `HandZone` bottom margin: `screen_height * BOTTOM_MARGIN_RATIO` (ratio 0). -/
def handBottomMargin (s : AppState) : ℚ := (s.screenH : ℚ) * 0

/-- `HandZone` arc height: `screen_height * ARC_HEIGHT_RATIO`. -/
def handArcHeight (s : AppState) : ℚ := (s.screenH : ℚ) * (15/100)

/-- `HandZone` hover lift: `screen_height * HOVER_LIFT_RATIO`. -/
def handHoverLift (s : AppState) : ℚ := (s.screenH : ℚ) * (20/100)

/-- `HandZone.update` center of the `i`-th of `count` hand cards. -/
def handCenter (s : AppState) (count i : Nat) : ℚ :=
  if count = 1 then (s.screenW : ℚ) / 2
  else handMargin s + (handAvailable s / ((count : ℚ) - 1)) * (i : ℚ)

/-- `HandZone.update` normalized position in `[-1, 1]` of the `i`-th card. -/
def handNormalized (count i : Nat) : ℚ :=
  if count ≤ 1 then 0 else ((i : ℚ) / ((count : ℚ) - 1)) * 2 - 1

/-- `HandZone.update` parabolic arc lift of the `i`-th card. -/
def handOffset (s : AppState) (count i : Nat) : ℚ :=
  handArcHeight s * (1 - handNormalized count i ^ 2)

/-- `HandZone._compute_hand_rect`: screen-space rect for a hand card of base
size 90×132 at the given scale, hung below the screen bottom by
`HANG_DEPTH_RATIO` and raised by `lift`. -/
def computeHandRect (screenH : Int) (centerX scale bottomMargin lift : ℚ) : Rect :=
  let w : ℚ := (cardSizeW : ℚ) * scale
  let h : ℚ := (cardSizeH : ℚ) * scale
  let bottom : ℚ := (screenH : ℚ) + h * (2/5) - bottomMargin - lift
  let top : ℚ := bottom - h
  let left : ℚ := centerX - w / 2
  { x := pyRound left, y := pyRound top, w := pyRound w, h := pyRound h }

/-- The base (drawn-size) rect tested second in `HandZone.update`'s hover scan. -/
def handBaseRect (s : AppState) (count i : Nat) : Rect :=
  computeHandRect s.screenH (handCenter s count i) handScaleC (handBottomMargin s)
    (handOffset s count i)

/-- The enlarged (hover-size) hit rect tested first in `HandZone.update`'s
hover scan. -/
def handHoverRect (s : AppState) (count i : Nat) : Rect :=
  computeHandRect s.screenH (handCenter s count i) (handScaleC * hoverScaleMultiplier)
    (handBottomMargin s) (max (handOffset s count i) (handHoverLift s))

/-- The hover scan of `HandZone.update`: the loop breaks at the first
enlarged-rect hit but keeps overwriting the index on base-rect hits. -/
def handHoverLoop (s : AppState) (count : Nat) :
    List Nat → Nat → Option Nat → Option Nat
  | [], _, acc => acc
  | _ :: rest, i, acc =>
    if (handHoverRect s count i).collidepointI s.mousePos then some i
    else
      handHoverLoop s count rest (i + 1)
        (if (handBaseRect s count i).collidepointI s.mousePos then some i else acc)

/-- The hovered index computed by `HandZone.update` (only when nothing is
being dragged). -/
def handHoveredIndex (s : AppState) : Option Nat :=
  if s.draggedObject = none then handHoverLoop s s.handCards.length s.handCards 0 none
  else none

/-- `HandZone.update`'s conditional rescale of a hand card: `set_scale` only
when the target differs from the current scale by more than 1e-3. -/
def maybeRescale (s : AppState) (cid : Nat) (q : ℚ) : AppState :=
  match getCard s cid with
  | some c => if 1/1000 < |c.scale - q| then setCardScaleOp s cid q else s
  | none => s

/-- Move a scene object to the end (top) of the z-order if present
(`objects.remove` followed by `objects.append`). -/
def raiseObj (s : AppState) (r : ObjRef) : AppState :=
  if r ∈ s.objects then { s with objects := s.objects.erase r ++ [r] } else s

/-- One iteration of the layout loop of `HandZone.update` for the `i`-th hand
card `cid`. -/
def handLayoutStep (count : Nat) (hovered : Option Nat) (t : AppState)
    (ic : Nat × Nat) : AppState :=
  if t.draggedObject = some (.obj (.card ic.2)) then t
  else
    let i := ic.1
    let cid := ic.2
    let offset := handOffset t count i
    let isHov : Bool := hovered = some i
    let targetScale : ℚ := handScaleC * (if isHov then hoverScaleMultiplier else 1)
    let lift : ℚ := if isHov then max offset (handHoverLift t) else offset
    let tsr := computeHandRect t.screenH (handCenter t count i) targetScale
      (handBottomMargin t) lift
    let t := updateCard t cid fun c => { c with handScreenRect := some tsr }
    let tw := screenToWorld t ((tsr.x : ℚ), (tsr.y : ℚ))
    let t := maybeRescale t cid targetScale
    let t := updateCard t cid fun c =>
      { c with rect := { c.rect with x := pyRound tw.1, y := pyRound tw.2 },
               inHand := true, handHovered := isHov }
    if isHov && (t.objects.isEmpty || t.objects.getLast? != some (.card cid)) then
      raiseObj t (.card cid)
    else t

/-- `HandZone.update`: arrange the hand cards along the arc, applying hover
scaling/lift and raising the hovered card in the z-order. -/
def handZoneUpdate (s : AppState) : AppState :=
  if s.handCards.isEmpty then s
  else
    let hovered := handHoveredIndex s
    s.handCards.enum.foldl (handLayoutStep s.handCards.length hovered) s

/-- `HandZone.remove_card`. -/
def handZoneRemoveCard (s : AppState) (cid : Nat) : AppState :=
  if cid ∈ s.handCards then
    let s := { s with handCards := s.handCards.erase cid }
    let s := updateCard s cid fun c =>
      { c with inHand := false, handHovered := false, handScreenRect := none }
    if s.handCards.isEmpty then s else handZoneUpdate s
  else s

/-- `HandZone.add_card`. -/
def handZoneAddCard (s : AppState) (cid : Nat) : AppState :=
  if cid ∈ s.handCards then s
  else
    let s := detachCardFromAmarre s cid
    let s := updateCard s cid fun c =>
      { c with inHand := true, handHovered := false, handScreenRect := none }
    let s := { s with handCards := s.handCards ++ [cid] }
    let s :=
      if ObjRef.card cid ∈ s.objects then
        { s with objects := s.objects.erase (ObjRef.card cid) ++ [ObjRef.card cid] }
      else s
    handZoneUpdate s

/-- `HandZone.handle_drop`: accept a (group-free) card when the pointer is in
the bottom zone band or the card's screen rect bottom crosses the screen
bottom. -/
def handZoneHandleDrop (s : AppState) (cid : Nat) (pointerScreen : ℚ × ℚ) :
    AppState × Bool :=
  match getCard s cid with
  | none => (s, false)
  | some c =>
    if c.amarre ≠ none then (s, false)
    else
      let zoneTop : ℚ := (s.screenH : ℚ) * (1 - 25/100)
      if zoneTop ≤ pointerScreen.2 then (handZoneAddCard s cid, true)
      else
        let tl := worldToScreen s ((c.rect.x : ℚ), (c.rect.y : ℚ))
        let cr : Rect := { x := pyRound tl.1, y := pyRound tl.2, w := c.rect.w, h := c.rect.h }
        if ((s.screenH : ℚ) - handBottomMargin s) ≤ ((cr.y + cr.h : Int) : ℚ) then
          (handZoneAddCard s cid, true)
        else (s, false)

/-- `CardGameApp._find_top_object`: top-most (last in z-order) object whose
rect contains the pointer. -/
def findTopObject (s : AppState) (p : ℚ × ℚ) : Option ObjRef :=
  s.objects.reverse.find? fun o =>
    match objRect s o with
    | some r => r.collidepointQ p
    | none => false

/-- `CardGameApp._record_pointer_click`. -/
def recordPointerClick (s : AppState) (clicked : Option ObjRef) : AppState :=
  let clicked :=
    match clicked with
    | some o => if o ∈ s.objects then some o else none
    | none => none
  { s with lastClickedObject := clicked, lastClickTime := s.now }

/-- `CardGameApp._reset_click_tracker`. -/
def resetClickTracker (s : AppState) : AppState :=
  { s with lastClickedObject := none, lastClickTime := 0 }

/-- `CardGameApp._remove_deck`. -/
def removeDeckOp (s : AppState) : AppState :=
  let s := { s with objects := s.objects.erase ObjRef.deck }
  let s := { s with deckSpriteSet := false }
  if s.lastClickedObject = some ObjRef.deck then resetClickTracker s else s

/-- `CardSprite.__init__`: a fresh world card at scale 1. -/
def newCardObj (cid : Nat) (label : String) (pos : Int × Int) : CardObj :=
  { cid := cid, label := label,
    rect := { x := pos.1, y := pos.2, w := cardSizeW, h := cardSizeH },
    scale := 1, inHand := false, handHovered := false, amarre := none,
    handScreenRect := none }

/-- `CardGameApp._spawn_card_from_deck`: find space first, then draw; deck
exhaustion removes the deck from the scene. -/
def spawnCardFromDeck (s : AppState) : Option Nat × AppState :=
  match findFreeCardPosition s [] with
  | none => (none, s)
  | some pos =>
    match deckDrawCard s.deckObj with
    | (none, d) => (none, removeDeckOp { s with deckObj := d })
    | (some label, d) =>
      let cid := freshCid s
      let c := newCardObj cid label pos
      let c := { c with rect := snapRect c.rect (cardSpanX, cardSpanY) }
      let s := { s with deckObj := d,
                        cardStore := s.cardStore ++ [c],
                        objects := s.objects ++ [ObjRef.card cid] }
      let s := if d.cards.isEmpty then removeDeckOp s else s
      (some cid, s)

/-- `CardGameApp._drag_object` (shadow-trail sampling is rendering-only and
not modelled). -/
def dragObjectOp (s : AppState) (pointer : ℚ × ℚ) : AppState :=
  match s.draggedObject with
  | none => s
  | some dref =>
    let np : ℚ × ℚ := (pointer.1 - s.dragOffset.1, pointer.2 - s.dragOffset.2)
    let tl : Int × Int := (pyInt np.1, pyInt np.2)
    match dref with
    | .amarre aid => amarreMoveTo s aid tl
    | .obj (.card cid) =>
      updateCard s cid fun c => { c with rect := { c.rect with x := tl.1, y := tl.2 } }
    | .obj .deck =>
      { s with deckObj :=
        { s.deckObj with rect := { s.deckObj.rect with x := tl.1, y := tl.2 } } }

/-- `_handle_control_draw`: `self.drag_start_position = Vector2(topleft)` of
the new card. -/
def setDragStartFromCardRect (s : AppState) (cid : Nat) : AppState :=
  match getCard s cid with
  | some c => { s with dragStartPosition := some ((c.rect.x : ℚ), (c.rect.y : ℚ)) }
  | none => s

/-- `_handle_control_draw`: `self.drag_offset = Vector2(w / 2, h / 2)` of the
new card's (lift-scaled) rect. -/
def setDragOffsetHalfRect (s : AppState) (cid : Nat) : AppState :=
  match getCard s cid with
  | some c => { s with dragOffset := ((c.rect.w : ℚ) / 2, (c.rect.h : ℚ) / 2) }
  | none => s

/-- `CardGameApp._handle_control_draw`: draw and start dragging a fresh card
when the clicked entity is the tracked deck and control is held. -/
def handleControlDraw (s : AppState) (pointer : ℚ × ℚ) (clicked : Option ObjRef) :
    AppState × Bool :=
  match clicked with
  | none => (s, false)
  | some (.card _) => (s, false)
  | some .deck =>
    if ¬ s.deckSpriteSet then (s, false)
    else if ¬ s.ctrlHeld then (s, false)
    else
      match spawnCardFromDeck s with
      | (none, s2) => (s2, false)
      | (some cid, s2) =>
        let s2 := { s2 with draggedObject := some (.obj (.card cid)) }
        let s2 := setDragStartFromCardRect s2 cid
        let s2 := setCardScaleOp s2 cid dragScale
        let s2 := setDragOffsetHalfRect s2 cid
        (dragObjectOp s2 pointer, true)

/-- `_begin_drag`: `self.drag_start_position = Vector2(candidate.rect.topleft)`
and `self.drag_offset = pointer - Vector2(candidate.rect.topleft)`. -/
def setDragStartFromRect (s : AppState) (pointer : ℚ × ℚ) (cand : ObjRef) : AppState :=
  match objRect s cand with
  | some r =>
    { s with dragStartPosition := some ((r.x : ℚ), (r.y : ℚ)),
             dragOffset := (pointer.1 - r.x, pointer.2 - r.y) }
  | none => s

/-- `_begin_drag`: the second `self.drag_offset = pointer - topleft` after the
lift scale. -/
def setDragOffsetFromRect (s : AppState) (pointer : ℚ × ℚ) (cand : ObjRef) : AppState :=
  match objRect s cand with
  | some r => { s with dragOffset := (pointer.1 - r.x, pointer.2 - r.y) }
  | none => s

/-- `self.objects.append(self.objects.pop(index))`. -/
def popAppendObject (s : AppState) (i : Nat) : AppState :=
  match s.objects[i]? with
  | some o => { s with objects := s.objects.eraseIdx i ++ [o] }
  | none => s

/-- `candidate.set_scale(...)` for either kind of scene object. -/
def setObjScale (s : AppState) (cand : ObjRef) (q : ℚ) : AppState :=
  match cand with
  | .card cid => setCardScaleOp s cid q
  | .deck => setDeckScaleOp s q

/-- The shared tail of `CardGameApp._begin_drag` for a hit candidate: record
drag state, raise to front, apply the lift scale and follow the pointer. -/
def beginDragGeneric (s : AppState) (pointer : ℚ × ℚ) (cand : ObjRef) (i : Nat) :
    AppState × Bool :=
  let s := { s with draggedObject := some (.obj cand) }
  let s := setDragStartFromRect s pointer cand
  let s := popAppendObject s i
  let s := setObjScale s cand dragScale
  let s := setDragOffsetFromRect s pointer cand
  (dragObjectOp s pointer, true)

/-- `_begin_drag` on a grouped card: record the group's drag start/offset. -/
def setDragStartFromAmarre (s : AppState) (pointer : ℚ × ℚ) (aid : Nat) : AppState :=
  match getAmarre s aid with
  | some g =>
    { s with dragStartPosition := some ((g.rect.x : ℚ), (g.rect.y : ℚ)),
             dragOffset := (pointer.1 - g.rect.x, pointer.2 - g.rect.y) }
  | none => s

/-- `_begin_drag` on a grouped card: the second offset assignment after the
lift scale. -/
def setDragOffsetFromAmarre (s : AppState) (pointer : ℚ × ℚ) (aid : Nat) : AppState :=
  match getAmarre s aid with
  | some g => { s with dragOffset := (pointer.1 - g.rect.x, pointer.2 - g.rect.y) }
  | none => s

/-- Candidate processing of `CardGameApp._begin_drag`: grouped cards drag the
whole amarre unless control is held, in which case the card is detached
first; hand membership is released before a plain card drag. -/
def beginDragHit (s : AppState) (pointer : ℚ × ℚ) (cand : ObjRef) (i : Nat) :
    AppState × Bool :=
  match cand with
  | .card cid =>
    match getCard s cid with
    | none => beginDragGeneric s pointer cand i
    | some c =>
      match c.amarre with
      | some aid =>
        if ¬ s.ctrlHeld then
          let s := { s with draggedObject := some (.amarre aid) }
          let s := setDragStartFromAmarre s pointer aid
          let s := amarreBringToFront s aid
          let s := amarreSetScale s aid dragScale
          let s := setDragOffsetFromAmarre s pointer aid
          (dragObjectOp s pointer, true)
        else
          let sr := amarreRemoveCard s aid cid
          let s := if sr.2 then removeAmarreOp sr.1 aid else sr.1
          let s := handZoneRemoveCard s cid
          beginDragGeneric s pointer cand i
      | none =>
        let s := handZoneRemoveCard s cid
        beginDragGeneric s pointer cand i
  | .deck => beginDragGeneric s pointer cand i

/-- The top-down hit-test loop of `CardGameApp._begin_drag` (`i` is one past
the index still to be examined). -/
def beginDragLoop (pointer : ℚ × ℚ) : AppState → Nat → AppState × Bool
  | s, 0 => (s, false)
  | s, i + 1 =>
    match s.objects[i]? with
    | none => (s, false)
    | some cand =>
      let hit :=
        match objRect s cand with
        | some r => r.collidepointQ pointer
        | none => false
      if hit then beginDragHit s pointer cand i
      else beginDragLoop pointer s i

/-- `CardGameApp._begin_drag`. -/
def beginDrag (s : AppState) (pointer : ℚ × ℚ) : AppState × Bool :=
  beginDragLoop pointer s s.objects.length

/-- `CardGameApp._begin_pan`. -/
def beginPan (s : AppState) (pos : Int × Int) : AppState :=
  { s with panActive := true, panLastPos := pos }

/-- The left-button-down branch of `CardGameApp.handle_events`: control-draw
first, otherwise record the click and attempt a drag, falling back to camera
panning. -/
def handleMouseDown (s : AppState) (pos : Int × Int) : AppState :=
  let pw := screenToWorld s ((pos.1 : ℚ), (pos.2 : ℚ))
  let clicked := findTopObject s pw
  let cd := handleControlDraw s pw clicked
  if cd.2 then cd.1
  else
    let s2 := recordPointerClick cd.1 clicked
    let bd := beginDrag s2 pw
    if bd.2 then bd.1 else beginPan bd.1 pos

/-- `CardGameApp._handle_card_drop`: keep dropped cards off the deck by
relocating to a free slot, or revert to the pre-drag position when none is
free. -/
def handleCardDrop (s : AppState) (cid : Nat) : AppState :=
  if ¬ s.deckSpriteSet ∨ ObjRef.deck ∉ s.objects then s
  else
    match getCard s cid with
    | none => s
    | some c =>
      if ¬ c.rect.colliderect s.deckObj.rect then s
      else
        match findFreeCardPosition s [ObjRef.card cid] with
        | none =>
          match s.dragStartPosition with
          | none => s
          | some p =>
            let s := updateCard s cid fun c2 =>
              { c2 with rect := { c2.rect with x := pyRound p.1, y := pyRound p.2 } }
            snapCardOp s cid
        | some pos =>
          let s := updateCard s cid fun c2 =>
            { c2 with rect := { c2.rect with x := pos.1, y := pos.2 } }
          snapCardOp s cid

/-- One step of `CardGameApp._handle_deck_drop` over the snapshot of the
object list; also accumulates the removed card ids. -/
def handleDeckDropStep (t : AppState × List Nat) (o : ObjRef) : AppState × List Nat :=
  match o with
  | .deck => t
  | .card cid =>
    match getCard t.1 cid with
    | none => t
    | some c =>
      if c.rect.colliderect t.1.deckObj.rect then
        let s := t.1
        let s :=
          if s.deckObj.cards.isEmpty then
            { s with deckObj := deckShuffleIn s.deckObj c.label 0 }
          else
            { s with deckObj := deckShuffleIn s.deckObj c.label (s.randQueue.headD 0),
                     randQueue := s.randQueue.tail }
        let s := detachCardFromAmarre s cid
        let s := { s with objects := s.objects.erase (ObjRef.card cid) }
        let s := handZoneRemoveCard s cid
        let s := if s.lastClickedObject = some (ObjRef.card cid) then resetClickTracker s else s
        (s, t.2 ++ [cid])
      else t

/-- `CardGameApp._handle_deck_drop` together with the list of swept card ids. -/
def handleDeckDropAux (s : AppState) : AppState × List Nat :=
  s.objects.foldl handleDeckDropStep (s, [])

/-- `CardGameApp._handle_deck_drop`. -/
def handleDeckDrop (s : AppState) : AppState :=
  let sr := handleDeckDropAux s
  if ¬ sr.2.isEmpty && ¬ sr.1.deckSpriteSet then { sr.1 with deckSpriteSet := true }
  else sr.1

/-- `CardGameApp._find_card_collision_partner`. -/
def findCardCollisionPartner (s : AppState) (cid : Nat) : Option Nat :=
  match getCard s cid with
  | none => none
  | some c =>
    s.objects.reverse.findSome? fun o =>
      match o with
      | .deck => none
      | .card cand =>
        if cand = cid then none
        else
          match getCard s cand with
          | none => none
          | some cc =>
            if cc.inHand then none
            else if c.rect.colliderect cc.rect then some cand else none

/-- The common tail of `CardGameApp._join_cards_into_amarre`: ensure the
surviving group is tracked, re-anchor it on its first member, reset the
scale and raise it. -/
def joinTail (s : AppState) (aid : Nat) (primary : Nat) : AppState :=
  let s := if aid ∈ s.amarres then s else { s with amarres := s.amarres ++ [aid] }
  let anchor : Int × Int :=
    match getAmarre s aid with
    | some g =>
      match g.cards.head? with
      | some c0 =>
        match getCard s c0 with
        | some cc => (cc.rect.x, cc.rect.y)
        | none => (0, 0)
      | none =>
        match getCard s primary with
        | some pc => (pc.rect.x, pc.rect.y)
        | none => (0, 0)
    | none => (0, 0)
  let s := amarreMoveTo s aid anchor
  let s := amarreSetScale s aid 1
  amarreBringToFront s aid

/-- `CardGameApp._join_cards_into_amarre`: create, absorb into, or union
groups when two overlapping cards meet on a drop. -/
def joinCardsIntoAmarre (s : AppState) (primary other : Nat) : AppState :=
  match getCard s primary, getCard s other with
  | some pc, some oc =>
    if pc.inHand || oc.inHand then s
    else
      match oc.amarre, pc.amarre with
      | none, none =>
        let aid := freshAid s
        let s := { s with amarreHeap := s.amarreHeap ++
          [{ aid := aid, cards := [],
             rect := { x := 0, y := 0, w := cardSizeW, h := cardSizeH }, scale := 1 }] }
        let s := amarreAddCard s aid other
        let s := amarreAddCard s aid primary
        let s := { s with amarres := s.amarres ++ [aid] }
        joinTail s aid primary
      | none, some pg =>
        let s := amarreAddCard s pg other
        joinTail s pg primary
      | some tg, none =>
        let s := amarreAddCard s tg primary
        joinTail s tg primary
      | some tg, some pg =>
        if tg = pg then
          match getAmarre s tg with
          | some g => amarreMoveTo s tg (g.rect.x, g.rect.y)
          | none => s
        else
          let s :=
            match getAmarre s pg with
            | some g => g.cards.foldl (fun t m => amarreAddCard t tg m) s
            | none => s
          let s := removeAmarreOp s pg
          joinTail s tg primary
  | _, _ => s

/-- `CardGameApp._evaluate_amarres_after_drop`. -/
def evaluateAmarresAfterDrop (s : AppState) (cids : List Nat) : AppState :=
  let s := cids.foldl
    (fun t cid =>
      if ObjRef.card cid ∉ t.objects then t
      else
        match getCard t cid with
        | none => t
        | some c =>
          if c.inHand then t
          else
            match findCardCollisionPartner t cid with
            | none => t
            | some partner => joinCardsIntoAmarre t cid partner)
    s
  cids.foldl
    (fun t cid =>
      match getCard t cid with
      | none => t
      | some c =>
        match c.amarre with
        | none => t
        | some aid =>
          match getAmarre t aid with
          | none => t
          | some g => if g.cards.length < 2 then removeAmarreOp t aid else t)
    s

/-- The amarre-affecting operations of C1: a merge pass after a card drop,
a modifier-click detach, and an explicit dissolve. -/
inductive AmOp where
  | merge (cids : List Nat)
  | detach (cid : Nat)
  | dissolve (aid : Nat)
  deriving DecidableEq, Repr

/-- Apply one amarre operation. -/
def applyAmOp (s : AppState) : AmOp → AppState
  | .merge cids => evaluateAmarresAfterDrop s cids
  | .detach cid => detachCardFromAmarre s cid
  | .dissolve aid => removeAmarreOp s aid

/-- Apply a sequence of amarre operations. -/
def applyAmOps (s : AppState) (ops : List AmOp) : AppState :=
  ops.foldl applyAmOp s

/-- A minimal app state used to build the concrete scenes below. -/
def baseState : AppState :=
  { cardStore := [],
    deckObj := { rect := { x := 3, y := 0, w := 90, h := 133 }, cards := ["A♠"], scale := 1 },
    deckSpriteSet := true, objects := [ObjRef.deck], amarreHeap := [], amarres := [],
    handCards := [], draggedObject := none, dragOffset := (0, 0), dragStartPosition := none,
    cameraCenter := (0, 0), zoom := 1, panActive := false, panLastPos := (0, 0),
    lastClickedObject := none, lastClickTime := 0, now := 0, mousePos := (0, 0),
    ctrlHeld := false, screenW := 800, screenH := 600, randQueue := [] }

/-- Projection: a card's group back-reference (present only when the card
exists in the store). -/
def refOf (s : AppState) (cid : Nat) : Option (Option Nat) :=
  (getCard s cid).map (·.amarre)

/-- Projection: a group's member list (present only when the group exists in
the heap). -/
def memsOf (s : AppState) (aid : Nat) : Option (List Nat) :=
  (getAmarre s aid).map (·.cards)

/-- Structural well-formedness of the card/group stores: unique identities,
back-references and member lists mutually consistent, member lists without
duplicates, and tracked group ids resolving in the heap.  This holds for the
app's initial scene (no groups) and is preserved by the operations. -/
def storeWF (s : AppState) : Prop :=
  (s.cardStore.map (·.cid)).Nodup ∧
  (s.amarreHeap.map (·.aid)).Nodup ∧
  (∀ cid a, refOf s cid = some (some a) →
    ∃ ms, memsOf s a = some ms ∧ cid ∈ ms) ∧
  (∀ a ms, memsOf s a = some ms → ∀ cid ∈ ms, refOf s cid = some (some a)) ∧
  (∀ a ms, memsOf s a = some ms → ms.Nodup) ∧
  (∀ a ∈ s.amarres, memsOf s a ≠ none) ∧
  s.amarres.Nodup

/-- C1's first clause: every tracked amarre has at least two member cards. -/
def amarreSizeInv (s : AppState) : Prop :=
  ∀ a ∈ s.amarres, ∀ g, getAmarre s a = some g → 2 ≤ g.cards.length

/-- C1's second clause: every card's non-empty group reference points to a
tracked amarre. -/
def amarreRefInv (s : AppState) : Prop :=
  ∀ c ∈ s.cardStore, ∀ a, c.amarre = some a → a ∈ s.amarres

/-- The size clause stated through the lookup maps. -/
def sizeInvF (s : AppState) : Prop :=
  ∀ a ∈ s.amarres, ∀ ms, memsOf s a = some ms → 2 ≤ ms.length

/-- The reference clause stated through the lookup maps. -/
def refInvF (s : AppState) : Prop :=
  ∀ cid a, refOf s cid = some (some a) → a ∈ s.amarres

/-- The full inductive invariant for C1. -/
def amarreInv (s : AppState) : Prop :=
  storeWF s ∧ sizeInvF s ∧ refInvF s

/-- The size clause restricted to tracked groups other than `x` (used while a
union transiently empties the absorbed group before untracking it). -/
def sizeInvFExcept (s : AppState) (x : Nat) : Prop :=
  ∀ a ∈ s.amarres, a ≠ x → ∀ ms, memsOf s a = some ms → 2 ≤ ms.length

/-- The entity hit by a left-button press, as `handle_events` computes it. -/
def mouseDownClicked (s : AppState) (pos : Int × Int) : Option ObjRef :=
  findTopObject s (screenToWorld s ((pos.1 : ℚ), (pos.2 : ℚ)))

/-- C2's "treated as a draw gesture": the left-button press takes the
control-draw path of `handle_events` instead of recording a click and
attempting a drag. -/
def treatedAsDraw (s : AppState) (pos : Int × Int) : Bool :=
  (handleControlDraw s (screenToWorld s ((pos.1 : ℚ), (pos.2 : ℚ)))
    (mouseDownClicked s pos)).2

/-- The trigger condition claimed by C2: the press hits the deck, a modifier
key is held, and it repeats a previous click on the same deck within the
400 ms double-click threshold. -/
def claimedDrawTrigger (s : AppState) (pos : Int × Int) : Bool :=
  (mouseDownClicked s pos == some ObjRef.deck) &&
  s.ctrlHeld &&
  (s.lastClickedObject == some ObjRef.deck) &&
  decide (s.now - s.lastClickTime ≤ doubleClickThresholdMs)

/-- The drag target and remaining deck labels, used in the C2 development. -/
def drawProj (s : AppState) : Option DragRef × List String :=
  (s.draggedObject, s.deckObj.cards)

/-- The hover selection claimed by C7: the first index whose enlarged or base
rect contains the pointer, the enlarged test taking priority. -/
def claimedHoverIndex (s : AppState) : Option Nat :=
  (List.range s.handCards.length).find? fun i =>
    (handHoverRect s s.handCards.length i).collidepointI s.mousePos ||
    (handBaseRect s s.handCards.length i).collidepointI s.mousePos

/-- First index whose enlarged hover rect contains the pointer. -/
def firstHoverMatch (s : AppState) : Option Nat :=
  (List.range s.handCards.length).find? fun i =>
    (handHoverRect s s.handCards.length i).collidepointI s.mousePos

/-- Last index whose base (drawn-size) rect contains the pointer. -/
def lastBaseMatch (s : AppState) : Option Nat :=
  ((List.range s.handCards.length).filter fun i =>
    (handBaseRect s s.handCards.length i).collidepointI s.mousePos).getLast?
/-- A hand card for the C7 scene. -/
def c7Card (cid : Nat) : CardObj :=
  { cid := cid, label := "X", rect := { x := 0, y := 0, w := 135, h := 198 }, scale := 3/2,
    inHand := true, handHovered := false, amarre := none, handScreenRect := none }

/-- C7 scene: a 150×600 window with two hand cards and the pointer at
(75, 630): inside both cards' base rects and neither enlarged rect. -/
def c7State : AppState :=
  { baseState with
    screenW := 150, screenH := 600, mousePos := (75, 630),
    cardStore := [c7Card 1, c7Card 2], handCards := [1, 2],
    objects := [ObjRef.card 1, ObjRef.card 2] }

/-- C2 scene: control held, no previous click recorded, deck hit. -/
def c2State : AppState := { baseState with ctrlHeld := true }

/-- A table card for the C10 scene. -/
def c10Card (cid : Nat) (y : Int) : CardObj :=
  { cid := cid, label := "B", rect := { x := 0, y := y, w := 90, h := 132 }, scale := 1,
    inHand := false, handHovered := false, amarre := none, handScreenRect := none }

/-- C10 scene: a one-card deck dropped on card 1; card 2 sits exactly one
pixel below the deck's bottom edge (no overlap at drop time). -/
def c10State : AppState :=
  { baseState with
    deckObj := { rect := { x := 0, y := 0, w := 90, h := 133 }, cards := ["X"], scale := 1 },
    cardStore := [c10Card 1 0, c10Card 2 133],
    objects := [ObjRef.deck, ObjRef.card 1, ObjRef.card 2], randQueue := [0] }

/-- A blocking card for the C4 scene. -/
def c4Blocker (cid : Nat) (x y : Int) : CardObj :=
  { cid := cid, label := "B", rect := { x := x, y := y, w := 90, h := 132 }, scale := 1,
    inHand := false, handHovered := false, amarre := none, handScreenRect := none }

/-- C4 scene: card 1 dropped on the deck with all 8 neighbor slots occupied
by blockers; the pre-drag position was the snapped point (195, 6). -/
def c4State : AppState :=
  { baseState with
    cardStore := [c4Blocker 1 3 6, c4Blocker 10 99 6, c4Blocker 11 (-93) 6,
      c4Blocker 12 3 (-138), c4Blocker 13 3 150, c4Blocker 14 99 (-138),
      c4Blocker 15 99 150, c4Blocker 16 (-93) (-138), c4Blocker 17 (-93) 150],
    objects := [ObjRef.deck, ObjRef.card 10, ObjRef.card 11, ObjRef.card 12,
      ObjRef.card 13, ObjRef.card 14, ObjRef.card 15, ObjRef.card 16, ObjRef.card 17,
      ObjRef.card 1],
    dragStartPosition := some (195, 6) }

/-- A grouped card for the C1 scene. -/
def c1Card (cid : Nat) : CardObj :=
  { cid := cid, label := "C", rect := { x := 0, y := 0, w := 90, h := 132 }, scale := 1,
    inHand := false, handHovered := false, amarre := some 7, handScreenRect := none }

/-- The tracked group of the C1 scene. -/
def c1Amarre : AmarreObj :=
  { aid := 7, cards := [1, 2], rect := { x := 0, y := 0, w := 90, h := 132 }, scale := 1 }

/-- C1 scene: two overlapping cards sharing tracked amarre 7. -/
def c1State : AppState :=
  { baseState with
    cardStore := [c1Card 1, c1Card 2],
    amarreHeap := [c1Amarre],
    amarres := [7],
    objects := [ObjRef.card 1, ObjRef.card 2, ObjRef.deck] }

/-- A concrete operation sequence for C1: pull card 1 out, then re-merge
after a drop. -/
def c1Ops : List AmOp := [AmOp.detach 1, AmOp.merge [1, 2]]

/-- The press-independent bookkeeping fields used in the C2 development:
click timestamp, clock, and number of card objects. -/
def clickProj (s : AppState) : Nat × Nat × Nat :=
  (s.lastClickTime, s.now, s.cardStore.length)

/-- The scale/rect mutation `GameObject.set_scale` performs on a card. -/
def rescaled (c : CardObj) (q : ℚ) : CardObj :=
  let sr := setScaleRect c.scale cardSizeW cardSizeH c.rect q
  { c with scale := sr.1, rect := sr.2 }

/-- The fields of the app state that `HandZone.update`'s layout loop never
touches and reads: the screen size and the dragged object. -/
def layoutEnv (t : AppState) : Int × Int × Option DragRef :=
  (t.screenW, t.screenH, t.draggedObject)

/-- The invariant of the `_handle_deck_drop` sweep (with an empty hand, no
groups, and an unscaled deck): the card store and hand are untouched, the deck
rect is the refreshed rect for the current count, the deck has grown by one
card per swept id, and the scene objects are the original ones minus the swept
cards. -/
def deckDropInv (s : AppState) (t : AppState × List Nat) : Prop :=
  t.1.cardStore = s.cardStore ∧
  t.1.handCards = s.handCards ∧
  t.1.deckObj.rect = deckRefreshRect s.deckObj.rect t.1.deckObj.cards.length ∧
  t.1.deckObj.cards.length = s.deckObj.cards.length + t.2.length ∧
  t.1.objects = s.objects.filter (fun o => !((t.2.map ObjRef.card).contains o))

/-- The identity-to-reference pairs of the card store (the part of the store
the amarre invariant depends on). -/
def cardPairs (s : AppState) : List (Nat × Option Nat) :=
  s.cardStore.map fun c => (c.cid, c.amarre)

/-- The identity-to-member-list pairs of the amarre heap. -/
def heapPairs (s : AppState) : List (Nat × List Nat) :=
  s.amarreHeap.map fun g => (g.aid, g.cards)

/-- The projection of the app state the amarre invariant reads: card
back-references, group member lists, and the tracked id list. -/
def invProj (s : AppState) : List (Nat × Option Nat) × List (Nat × List Nat) × List Nat :=
  (cardPairs s, heapPairs s, s.amarres)

/-- The identity-to-label pairs of the card store: card identities and labels
are never changed by the deck-drop sweep machinery. -/
def cardIdent (s : AppState) : List (Nat × String) :=
  s.cardStore.map fun c => (c.cid, c.label)

/-- The stored label of a card id (empty for a dangling id). -/
def labelOf (s : AppState) (cid : Nat) : String :=
  ((getCard s cid).map (·.label)).getD ""

/-- The state components `_detach_card_from_amarre` never touches: the deck,
the randomness queue, the hand list, the z-order, and card identities/labels. -/
def detachFrame (s : AppState) :
    DeckObj × List Nat × List Nat × List ObjRef × List (Nat × String) :=
  (s.deckObj, s.randQueue, s.handCards, s.objects, cardIdent s)

/-- The state components the hand-zone layout machinery never touches: the
deck, the randomness queue, card identities/labels/group references, and the
group structures. -/
def layoutFrame (s : AppState) :
    DeckObj × List Nat × List (Nat × String × Option Nat) × List (Nat × List Nat) × List Nat :=
  (s.deckObj, s.randQueue, s.cardStore.map fun c => (c.cid, c.label, c.amarre),
   heapPairs s, s.amarres)

/-- The invariant of the general `_handle_deck_drop` sweep: the state stays
well-formed, card identities/labels are stable, the deck rect is the refreshed
rect for its current count, the deck holds the original cards plus one
inserted label per swept id, the scene objects are exactly the original ones
minus the swept cards (as a duplicate-free set), and every swept card is a
scene card that is out of the hand and detached from any group. -/
def deckDropInvG (s : AppState) (t : AppState × List Nat) : Prop :=
  amarreInv t.1 ∧
  cardIdent t.1 = cardIdent s ∧
  t.1.deckObj.rect = deckRefreshRect s.deckObj.rect t.1.deckObj.cards.length ∧
  t.1.deckObj.cards.length = s.deckObj.cards.length + t.2.length ∧
  t.1.deckObj.cards.Perm (s.deckObj.cards ++ t.2.map (labelOf s)) ∧
  t.1.objects.Nodup ∧
  (∀ o, o ∈ t.1.objects ↔ (o ∈ s.objects ∧ ∀ cid ∈ t.2, o ≠ ObjRef.card cid)) ∧
  (∀ cid ∈ t.2, ObjRef.card cid ∈ s.objects) ∧
  (∀ cid ∈ t.2, cid ∉ t.1.handCards ∧ refOf t.1 cid = some none) ∧
  t.1.handCards.Nodup

-- ===================== theorems =====================

/-- C3: for every world point and every camera state whose zoom lies within
the configured `[min_zoom, max_zoom]` bounds (hence is nonzero), converting
to screen coordinates and back is the identity (exactly, over `ℚ`). -/
theorem camera_roundtrip (s : AppState) (hmin : minZoom ≤ s.zoom) (hmax : s.zoom ≤ maxZoom)
    (p : ℚ × ℚ) : screenToWorld s (worldToScreen s p) = p := by
  have hz : s.zoom ≠ 0 := by
    intro h
    rw [h] at hmin
    norm_num [minZoom] at hmin
  obtain ⟨p1, p2⟩ := p
  simp only [screenToWorld, worldToScreen, ne_eq, hz, not_false_eq_true, if_true,
    Prod.mk.injEq]
  constructor <;> field_simp

/-- Witness for C3 at a concrete camera state and point. -/
theorem camera_roundtrip_witness :
    minZoom ≤ baseState.zoom ∧ baseState.zoom ≤ maxZoom ∧
      screenToWorld baseState (worldToScreen baseState (7, -5)) = (7, -5) :=
  ⟨by norm_num [minZoom, baseState], by norm_num [maxZoom, baseState],
    camera_roundtrip baseState (by norm_num [minZoom, baseState])
      (by norm_num [maxZoom, baseState]) (7, -5)⟩

/-- C9: when zoom is 0, `_screen_to_world` skips the division (identity on
the offset), so it totals to camera center plus (point − screen center), and
no division by zero is reached. -/
theorem screen_to_world_zero_zoom (s : AppState) (h : s.zoom = 0) (p : ℚ × ℚ) :
    screenToWorld s p =
      (s.cameraCenter.1 + (p.1 - (s.screenW : ℚ) / 2),
       s.cameraCenter.2 + (p.2 - (s.screenH : ℚ) / 2)) := by
  simp [screenToWorld, h]

/-- Witness for C9 at a concrete zero-zoom state and point. -/
theorem screen_to_world_zero_zoom_witness :
    ({ baseState with zoom := 0 } : AppState).zoom = 0 ∧
      screenToWorld { baseState with zoom := 0 } (13, 50) =
        ((0 : ℚ) + (13 - (800 : ℚ) / 2), (0 : ℚ) + (50 - (600 : ℚ) / 2)) :=
  ⟨rfl, screen_to_world_zero_zoom { baseState with zoom := 0 } rfl (13, 50)⟩

theorem pyInt_intCast (n : Int) : pyInt (n : ℚ) = n := by
  unfold pyInt
  split
  · exact Int.ceil_intCast n
  · exact Int.floor_intCast n

theorem pyRound_intCast (n : Int) : pyRound (n : ℚ) = n := by
  simp only [pyRound, Int.floor_intCast]
  norm_num

theorem pyRound_add_of_lt_half (k : Int) (r : ℚ) (h0 : 0 ≤ r) (h1 : r < 1/2) :
    pyRound ((k : ℚ) + r) = k := by
  have hf : ⌊(k : ℚ) + r⌋ = k := by
    rw [add_comm, Int.floor_add_int,
      Int.floor_eq_zero_iff.2 (Set.mem_Ico.2 ⟨h0, by linarith⟩), zero_add]
  simp only [pyRound, hf]
  have hr : (k : ℚ) + r - (k : Int) = r := by push_cast; ring
  rw [hr, if_pos h1]

theorem pyRound_add_of_half_lt (k : Int) (r : ℚ) (h0 : 1/2 < r) (h1 : r < 1) :
    pyRound ((k : ℚ) + r) = k + 1 := by
  have hf : ⌊(k : ℚ) + r⌋ = k := by
    rw [add_comm, Int.floor_add_int,
      Int.floor_eq_zero_iff.2 (Set.mem_Ico.2 ⟨by linarith, h1⟩), zero_add]
  simp only [pyRound, hf]
  have hr : (k : ℚ) + r - (k : Int) = r := by push_cast; ring
  rw [hr, if_neg (by linarith), if_pos h0]

/-- Core of grid-snap idempotence: truncating a cell origin plus a
nonnegative margin and re-deriving the cell index gives the same index
back. -/
theorem snap_roundtrip_aux (k : Int) (m : ℚ) (hm : 0 ≤ m) :
    pyRound ((((pyInt ((k : ℚ) * 48 + m)) : ℚ) - m) / 48) = k := by
  set F : ℚ := Int.fract m with hF
  set j : Int := ⌊m⌋ with hj
  have hfr0 : 0 ≤ F := Int.fract_nonneg m
  have hfr1 : F < 1 := Int.fract_lt_one m
  have hmsplit : m = (j : ℚ) + F := by
    rw [hj, hF]
    exact (Int.floor_add_fract m).symm
  by_cases hz : F = 0
  · -- integral margin: everything is exact
    have hmint : m = (j : ℚ) := by rw [hmsplit, hz, add_zero]
    have h1 : (k : ℚ) * 48 + m = ((k * 48 + j : Int) : ℚ) := by rw [hmint]; push_cast; ring
    rw [h1, pyInt_intCast]
    have h2 : (((k * 48 + j : Int) : ℚ) - m) / 48 = ((k : Int) : ℚ) := by
      rw [hmint]
      push_cast
      ring
    rw [h2]
    exact pyRound_intCast k
  · have hzpos : 0 < F := lt_of_le_of_ne hfr0 (Ne.symm hz)
    by_cases hneg : (k : ℚ) * 48 + m < 0
    · -- truncation rounds a negative value up: the ceiling
      have hceil : pyInt ((k : ℚ) * 48 + m) = k * 48 + (j + 1) := by
        unfold pyInt
        rw [if_pos hneg]
        have h3 : (k : ℚ) * 48 + m = m + ((k * 48 : Int) : ℚ) := by push_cast; ring
        rw [h3, Int.ceil_add_int]
        have hceilm : ⌈m⌉ = j + 1 := by
          rw [Int.ceil_eq_iff]
          constructor
          · push_cast
            have hle : (j : ℚ) ≤ m := by rw [hj]; exact Int.floor_le m
            have hne : (j : ℚ) ≠ m := by
              intro he
              apply hz
              rw [hmsplit] at he
              linarith
            have : (j : ℚ) < m := lt_of_le_of_ne hle hne
            linarith
          · push_cast
            have h4 := Int.lt_floor_add_one m
            rw [← hj] at h4
            linarith
        rw [hceilm]
        ring
      rw [hceil]
      have harg : (((k * 48 + (j + 1) : Int) : ℚ) - m) / 48 = (k : ℚ) + (1 - F) / 48 := by
        rw [hmsplit]
        push_cast
        ring
      rw [harg]
      exact pyRound_add_of_lt_half k _ (by linarith) (by linarith)
    · -- truncation is the floor for nonnegative values
      push_neg at hneg
      have hfloor : pyInt ((k : ℚ) * 48 + m) = k * 48 + j := by
        unfold pyInt
        rw [if_neg (by linarith)]
        have h3 : (k : ℚ) * 48 + m = m + ((k * 48 : Int) : ℚ) := by push_cast; ring
        rw [h3, Int.floor_add_int, ← hj]
        ring
      rw [hfloor]
      have harg : (((k * 48 + j : Int) : ℚ) - m) / 48 = ((k - 1 : Int) : ℚ) + (1 - F / 48) := by
        rw [hmsplit]
        push_cast
        ring
      rw [harg]
      have h5 := pyRound_add_of_half_lt (k - 1) (1 - F / 48) (by linarith) (by linarith)
      rw [h5]
      ring

theorem snapAxis_idempotent (pos size span : Int) :
    snapAxis (snapAxis pos size span) size span = snapAxis pos size span := by
  have hcell : ((gridCellSize : Int) : ℚ) = 48 := by norm_num [gridCellSize]
  simp only [snapAxis, hcell]
  exact congrArg
    (fun k : Int => pyInt ((k : ℚ) * 48 + max 0 (((span * gridCellSize - size : Int) : ℚ) / 2)))
    (snap_roundtrip_aux _ _ (le_max_left 0 _))

/-- C8: grid snapping is idempotent: for any rect top-left, rect size, and
grid span, snapping an already-snapped object leaves its position (and size)
unchanged. -/
theorem snap_idempotent (r : Rect) (span : Int × Int) :
    snapRect (snapRect r span) span = snapRect r span := by
  simp [snapRect, snapAxis_idempotent]

theorem find?_key_map_update {α : Type} (key : α → Nat) (l : List α) (k k2 : Nat)
    (f : α → α) (hf : ∀ a, key (f a) = key a) :
    (l.map fun a => if key a = k then f a else a).find? (fun a => key a == k2) =
      if k2 = k then (l.find? (fun a => key a == k2)).map f
      else l.find? (fun a => key a == k2) := by
  induction l with
  | nil => simp
  | cons a t ih =>
    simp only [List.map_cons, List.find?_cons]
    by_cases ha : key a = k
    · rw [if_pos ha]
      by_cases h2 : k2 = k
      · subst h2
        simp [hf, ha]
      · have e1 : (key (f a) == k2) = false := by
          rw [hf, ha]
          simp
          omega
        have e2 : (key a == k2) = false := by
          rw [ha]
          simp
          omega
        simp only [e1, e2, cond_false, if_neg h2]
        rw [ih, if_neg h2]
    · rw [if_neg ha]
      by_cases hp : key a = k2
      · have h2 : k2 ≠ k := fun he => ha (hp.trans he)
        simp only [hp, beq_self_eq_true, cond_true, if_neg h2]
      · have e2 : (key a == k2) = false := by simp; omega
        simp only [e2, cond_false]
        rw [ih]

theorem getCard_updateCard (s : AppState) (cid cid2 : Nat) (f : CardObj → CardObj)
    (hf : ∀ c, (f c).cid = c.cid) :
    getCard (updateCard s cid f) cid2 =
      if cid2 = cid then (getCard s cid2).map f else getCard s cid2 := by
  simp only [getCard, updateCard]
  exact find?_key_map_update (·.cid) s.cardStore cid cid2 f hf

theorem getCard_updateCard_self (s : AppState) (cid : Nat) (f : CardObj → CardObj)
    (hf : ∀ c, (f c).cid = c.cid) :
    getCard (updateCard s cid f) cid = (getCard s cid).map f := by
  rw [getCard_updateCard s cid cid f hf, if_pos rfl]

theorem getCard_updateCard_other (s : AppState) (cid cid2 : Nat) (f : CardObj → CardObj)
    (hf : ∀ c, (f c).cid = c.cid) (hne : cid2 ≠ cid) :
    getCard (updateCard s cid f) cid2 = getCard s cid2 := by
  rw [getCard_updateCard s cid cid2 f hf, if_neg hne]

theorem getAmarre_updateAmarre (s : AppState) (aid aid2 : Nat) (f : AmarreObj → AmarreObj)
    (hf : ∀ g, (f g).aid = g.aid) :
    getAmarre (updateAmarre s aid f) aid2 =
      if aid2 = aid then (getAmarre s aid2).map f else getAmarre s aid2 := by
  simp only [getAmarre, updateAmarre]
  exact find?_key_map_update (·.aid) s.amarreHeap aid aid2 f hf

theorem getAmarre_updateCard (s : AppState) (cid : Nat) (f : CardObj → CardObj) :
    ∀ aid, getAmarre (updateCard s cid f) aid = getAmarre s aid := fun _ => rfl

theorem getCard_updateAmarre (s : AppState) (aid : Nat) (f : AmarreObj → AmarreObj) :
    ∀ cid, getCard (updateAmarre s aid f) cid = getCard s cid := fun _ => rfl

theorem not_mem_erase_of_count_le_one {α : Type} [DecidableEq α] (a : α) (l : List α)
    (h : l.count a ≤ 1) : a ∉ l.erase a := by
  rw [← List.count_eq_zero, List.count_erase_self]
  omega

theorem removeDeckOp_objects (s : AppState) :
    (removeDeckOp s).objects = s.objects.erase ObjRef.deck := by
  simp only [removeDeckOp, resetClickTracker]
  split <;> rfl

theorem findSome?_guard_none {α β : Type} (f : α → Bool) (g : α → β) (l : List α) :
    (l.findSome? fun a => if f a then none else some (g a)) = none ↔
      ∀ a ∈ l, f a = true := by
  induction l with
  | nil => simp
  | cons a t ih =>
    rw [List.findSome?_cons]
    by_cases hf : f a
    · simp [hf, ih]
    · simp [hf]

theorem findSome?_guard_some {α β : Type} (f : α → Bool) (g : α → β) (l : List α)
    (p : β) (h : (l.findSome? fun a => if f a then none else some (g a)) = some p) :
    ∃ (i : Nat) (off : α), l[i]? = some off ∧ f off = false ∧ p = g off ∧
      ∀ j : Nat, j < i → ∀ off2, l[j]? = some off2 → f off2 = true := by
  induction l with
  | nil => simp [List.findSome?] at h
  | cons a t ih =>
    rw [List.findSome?_cons] at h
    by_cases hf : f a
    · simp only [hf, ite_true] at h
      obtain ⟨i, off, h1, h2, h3, h4⟩ := ih h
      refine ⟨i + 1, off, by simpa using h1, h2, h3, ?_⟩
      intro j hj off2 hoff2
      cases j with
      | zero =>
        simp only [List.getElem?_cons_zero, Option.some.injEq] at hoff2
        rw [← hoff2]
        exact hf
      | succ j2 =>
        refine h4 j2 (by omega) off2 ?_
        simpa using hoff2
    · rw [Bool.not_eq_true] at hf
      simp [hf] at h
      exact ⟨0, a, by simp, hf, h.symm, fun j hj => absurd hj (Nat.not_lt_zero j)⟩

/-- C5: the free-slot search probes exactly the 8 neighbor cells in the fixed
priority order right, left, up, down, upper-right, lower-right, upper-left,
lower-left, returning the pixel top-left of the first candidate rect that
intersects no tracked scene object (anchor deck and ignore set excluded), and
`none` exactly when all 8 candidates collide. -/
theorem find_free_position_characterization (s : AppState) (ignore : List ObjRef) :
    freeSlotOffsets.length = 8 ∧
    ((findFreeCardPosition s ignore = none) ↔
      ∀ off ∈ freeSlotOffsets,
        slotCollides s ignore (freeSlotCandidateRect (deckGridCell s) off) = true) ∧
    (∀ p, findFreeCardPosition s ignore = some p →
      ∃ (i : Nat) (off : Int × Int), freeSlotOffsets[i]? = some off ∧
        slotCollides s ignore (freeSlotCandidateRect (deckGridCell s) off) = false ∧
        p = ((freeSlotCandidateRect (deckGridCell s) off).x,
          (freeSlotCandidateRect (deckGridCell s) off).y) ∧
        ∀ j : Nat, j < i → ∀ off2, freeSlotOffsets[j]? = some off2 →
          slotCollides s ignore (freeSlotCandidateRect (deckGridCell s) off2) = true) := by
  refine ⟨rfl, ?_, ?_⟩
  · exact findSome?_guard_none
      (fun off => slotCollides s ignore (freeSlotCandidateRect (deckGridCell s) off))
      (fun off => ((freeSlotCandidateRect (deckGridCell s) off).x,
        (freeSlotCandidateRect (deckGridCell s) off).y))
      freeSlotOffsets
  · intro p hp
    exact findSome?_guard_some
      (fun off => slotCollides s ignore (freeSlotCandidateRect (deckGridCell s) off))
      (fun off => ((freeSlotCandidateRect (deckGridCell s) off).x,
        (freeSlotCandidateRect (deckGridCell s) off).y))
      freeSlotOffsets p hp

/-- Witness for C5: in the base scene the first probe (the right neighbor) is
free and is returned. -/
theorem find_free_position_characterization_witness :
    findFreeCardPosition baseState [] = some (99, 6) ∧
    (∃ (i : Nat) (off : Int × Int), freeSlotOffsets[i]? = some off ∧
      slotCollides baseState [] (freeSlotCandidateRect (deckGridCell baseState) off) = false ∧
      ((99 : Int), (6 : Int)) = ((freeSlotCandidateRect (deckGridCell baseState) off).x,
        (freeSlotCandidateRect (deckGridCell baseState) off).y) ∧
      ∀ j : Nat, j < i → ∀ off2, freeSlotOffsets[j]? = some off2 →
        slotCollides baseState [] (freeSlotCandidateRect (deckGridCell baseState) off2) = true) :=
  ⟨by with_unfolding_all decide,
    (find_free_position_characterization baseState []).2.2 (99, 6)
      (by with_unfolding_all decide)⟩

/-- C6: drawing from an empty deck yields no card and leaves it empty; a
successful draw pops the last element; a spawn attempt whose draw returns
none, or a draw that leaves the deck empty, removes the deck from the
scene's object list. -/
theorem deck_draw_exhaustion (s : AppState)
    (hcnt : s.objects.count ObjRef.deck ≤ 1) :
    (s.deckObj.cards = [] → deckDrawCard s.deckObj = (none, s.deckObj)) ∧
    (∀ l c, s.deckObj.cards = l ++ [c] →
      (deckDrawCard s.deckObj).1 = some c ∧ (deckDrawCard s.deckObj).2.cards = l) ∧
    (∀ pos, findFreeCardPosition s [] = some pos → s.deckObj.cards = [] →
      ObjRef.deck ∉ (spawnCardFromDeck s).2.objects) ∧
    (∀ pos c, findFreeCardPosition s [] = some pos → s.deckObj.cards = [c] →
      ObjRef.deck ∉ (spawnCardFromDeck s).2.objects) := by
  refine ⟨?_, ?_, ?_, ?_⟩
  · intro h
    simp [deckDrawCard, h]
  · intro l c h
    simp [deckDrawCard, h, List.getLast?_concat, List.dropLast_concat]
  · intro pos hpos hempty
    have hdraw : deckDrawCard s.deckObj = (none, s.deckObj) := by
      simp [deckDrawCard, hempty]
    simp only [spawnCardFromDeck, hpos, hdraw]
    rw [removeDeckOp_objects]
    exact not_mem_erase_of_count_le_one _ _ hcnt
  · intro pos c hpos hone
    have hdraw : deckDrawCard s.deckObj =
        (some c,
          { s.deckObj with
            cards := [], rect := deckRefreshRect s.deckObj.rect 0 }) := by
      simp [deckDrawCard, hone]
    simp only [spawnCardFromDeck, hpos, hdraw, List.isEmpty_nil, if_true]
    rw [removeDeckOp_objects]
    apply not_mem_erase_of_count_le_one
    simp only [List.count_append]
    simpa using hcnt

/-- Witness for C6 at the base scene (a one-card deck with a free slot). -/
theorem deck_draw_exhaustion_witness :
    baseState.objects.count ObjRef.deck ≤ 1 ∧
      ObjRef.deck ∉ (spawnCardFromDeck baseState).2.objects :=
  ⟨by decide,
    (deck_draw_exhaustion baseState (by decide)).2.2.2 (99, 6) "A♠"
      (by with_unfolding_all decide) rfl⟩

theorem freeSlotCandidateRect_x (dc off : Int × Int) :
    (freeSlotCandidateRect dc off).x = (dc.1 + off.1) * 48 + 3 := by
  simp only [freeSlotCandidateRect]
  have h1 : max (0:ℚ) (((cardSpanX * gridCellSize - cardSizeW : Int) : ℚ) / 2) = 3 := by
    norm_num [gridCellSize, cardSpanX, cardSizeW]
  rw [h1]
  have h2 : (((dc.1 + off.1) * gridCellSize : Int) : ℚ) + 3 =
      (((dc.1 + off.1) * 48 + 3 : Int) : ℚ) := by
    push_cast [gridCellSize]
    ring
  rw [h2, pyRound_intCast]

theorem freeSlotCandidateRect_y (dc off : Int × Int) :
    (freeSlotCandidateRect dc off).y = (dc.2 + off.2) * 48 + 6 := by
  simp only [freeSlotCandidateRect]
  have h1 : max (0:ℚ) (((cardSpanY * gridCellSize - cardSizeH : Int) : ℚ) / 2) = 6 := by
    norm_num [gridCellSize, cardSpanY, cardSizeH]
  rw [h1]
  have h2 : (((dc.2 + off.2) * gridCellSize : Int) : ℚ) + 6 =
      (((dc.2 + off.2) * 48 + 6 : Int) : ℚ) := by
    push_cast [gridCellSize]
    ring
  rw [h2, pyRound_intCast]

theorem snapAxis_card_x (k : Int) : snapAxis (k * 48 + 3) 90 2 = k * 48 + 3 := by
  simp only [snapAxis]
  have h1 : max (0:ℚ) (((2 * gridCellSize - 90 : Int) : ℚ) / 2) = 3 := by
    norm_num [gridCellSize]
  rw [h1]
  have h2 : (((k * 48 + 3 : Int) : ℚ) - 3) / (gridCellSize : ℚ) = ((k : Int) : ℚ) := by
    push_cast [gridCellSize]
    field_simp
  rw [h2, pyRound_intCast]
  have h3 : ((k : Int) : ℚ) * (gridCellSize : ℚ) + 3 = ((k * 48 + 3 : Int) : ℚ) := by
    push_cast [gridCellSize]
    ring
  rw [h3, pyInt_intCast]

theorem snapAxis_card_y (k : Int) : snapAxis (k * 48 + 6) 132 3 = k * 48 + 6 := by
  simp only [snapAxis]
  have h1 : max (0:ℚ) (((3 * gridCellSize - 132 : Int) : ℚ) / 2) = 6 := by
    norm_num [gridCellSize]
  rw [h1]
  have h2 : (((k * 48 + 6 : Int) : ℚ) - 6) / (gridCellSize : ℚ) = ((k : Int) : ℚ) := by
    push_cast [gridCellSize]
    field_simp
  rw [h2, pyRound_intCast]
  have h3 : ((k : Int) : ℚ) * (gridCellSize : ℚ) + 6 = ((k * 48 + 6 : Int) : ℚ) := by
    push_cast [gridCellSize]
    ring
  rw [h3, pyInt_intCast]

/-- C4: a card whose (snapped) rect overlaps the tracked deck's rect is
relocated to the free slot found by the 8-neighbor search; when no slot is
free, it returns to the (grid-aligned) pre-drag position. -/
theorem card_drop_relocation (s : AppState) (cid : Nat) (c : CardObj)
    (hc : getCard s cid = some c)
    (hdeck : s.deckSpriteSet = true) (hmem : ObjRef.deck ∈ s.objects)
    (hcol : c.rect.colliderect s.deckObj.rect = true)
    (hw : c.rect.w = 90) (hh : c.rect.h = 132) :
    (∀ p, findFreeCardPosition s [ObjRef.card cid] = some p →
      getCard (handleCardDrop s cid) cid =
        some { c with rect := { c.rect with x := p.1, y := p.2 } }) ∧
    (findFreeCardPosition s [ObjRef.card cid] = none →
      ∀ q : Int × Int, s.dragStartPosition = some ((q.1 : ℚ), (q.2 : ℚ)) →
        snapAxis q.1 c.rect.w cardSpanX = q.1 → snapAxis q.2 c.rect.h cardSpanY = q.2 →
        getCard (handleCardDrop s cid) cid =
          some { c with rect := { c.rect with x := q.1, y := q.2 } }) := by
  constructor
  · intro p hp
    obtain ⟨i, off, hoff, hfree, hpe, hprev⟩ := findSome?_guard_some
      (fun off => slotCollides s [ObjRef.card cid] (freeSlotCandidateRect (deckGridCell s) off))
      (fun off => ((freeSlotCandidateRect (deckGridCell s) off).x,
        (freeSlotCandidateRect (deckGridCell s) off).y))
      freeSlotOffsets p hp
    have hx : p.1 = ((deckGridCell s).1 + off.1) * 48 + 3 := by
      rw [hpe]
      exact freeSlotCandidateRect_x _ _
    have hy : p.2 = ((deckGridCell s).2 + off.2) * 48 + 6 := by
      rw [hpe]
      exact freeSlotCandidateRect_y _ _
    simp only [handleCardDrop, hdeck, hmem, hc, hcol, hp, snapCardOp, not_true,
      false_or, or_self, if_false, ite_false, Bool.not_eq_true]
    simp [getCard_updateCard_self, hc, snapRect, hw, hh, hx, hy, cardSpanX, cardSpanY,
      snapAxis_card_x, snapAxis_card_y]
  · intro hnone q hq hsx hsy
    simp only [handleCardDrop, hdeck, hmem, hc, hcol, hnone, hq, snapCardOp, not_true,
      false_or, or_self, if_false, ite_false, Bool.not_eq_true]
    simp only [cardSpanX, cardSpanY] at hsx hsy
    simp [getCard_updateCard_self, hc, snapRect, pyRound_intCast, cardSpanX, cardSpanY,
      hsx, hsy]

/-- Witness for C4: with all 8 neighbor slots occupied the dropped card goes
back to its pre-drag position (195, 6). -/
theorem card_drop_relocation_witness :
    findFreeCardPosition c4State [ObjRef.card 1] = none ∧
    getCard (handleCardDrop c4State 1) 1 =
      some { c4Blocker 1 3 6 with
             rect := { (c4Blocker 1 3 6).rect with x := 195, y := 6 } } :=
  ⟨by with_unfolding_all decide,
    (card_drop_relocation c4State 1 (c4Blocker 1 3 6)
      (by with_unfolding_all decide) rfl (by decide)
      (by with_unfolding_all decide) rfl rfl).2
      (by with_unfolding_all decide) (195, 6) (by with_unfolding_all decide)
      (by with_unfolding_all decide) (by with_unfolding_all decide)⟩

theorem foldlInvariant {σ α : Type} (P : σ → Prop) (f : σ → α → σ) (l : List α) (s : σ)
    (h0 : P s) (hstep : ∀ t a, a ∈ l → P t → P (f t a)) : P (l.foldl f s) := by
  induction l generalizing s with
  | nil => exact h0
  | cons a t ih =>
    exact ih (f s a) (hstep s a (by simp) h0)
      (fun t2 a2 ha2 => hstep t2 a2 (by simp [ha2]))

theorem clickProj_updateCard (s : AppState) (cid : Nat) (f : CardObj → CardObj) :
    clickProj (updateCard s cid f) = clickProj s := by
  simp [clickProj, updateCard]

theorem clickProj_updateAmarre (s : AppState) (aid : Nat) (f : AmarreObj → AmarreObj) :
    clickProj (updateAmarre s aid f) = clickProj s := rfl

theorem clickProj_setCardScaleOp (s : AppState) (cid : Nat) (q : ℚ) :
    clickProj (setCardScaleOp s cid q) = clickProj s :=
  clickProj_updateCard s cid _

theorem clickProj_setDeckScaleOp (s : AppState) (q : ℚ) :
    clickProj (setDeckScaleOp s q) = clickProj s := rfl

theorem clickProj_updateFromPrimaryOp (s : AppState) (aid : Nat) :
    clickProj (updateFromPrimaryOp s aid) = clickProj s := by
  unfold updateFromPrimaryOp
  repeat' split
  all_goals try rfl
  refine foldlInvariant (fun t => clickProj t = clickProj s) _ _ _ ?_ ?_
  · exact clickProj_updateAmarre _ _ _
  · intro t a _ ht
    rw [clickProj_updateCard, ht]

theorem clickProj_amarreMoveTo (s : AppState) (aid : Nat) (pos : Int × Int) :
    clickProj (amarreMoveTo s aid pos) = clickProj s := by
  unfold amarreMoveTo
  repeat' split
  all_goals try rfl
  refine foldlInvariant (fun t => clickProj t = clickProj s) _ _ _ ?_ ?_
  · exact clickProj_updateAmarre _ _ _
  · intro t a _ ht
    rw [clickProj_updateCard, ht]

theorem clickProj_amarreSetScale (s : AppState) (aid : Nat) (q : ℚ) :
    clickProj (amarreSetScale s aid q) = clickProj s := by
  unfold amarreSetScale
  repeat' split
  all_goals try rfl
  rw [clickProj_updateFromPrimaryOp]
  refine foldlInvariant (fun t => clickProj t = clickProj s) _ _ _ ?_ ?_
  · exact clickProj_updateAmarre _ _ _
  · intro t a _ ht
    rw [clickProj_setCardScaleOp, ht]

theorem clickProj_amarreBringToFront (s : AppState) (aid : Nat) :
    clickProj (amarreBringToFront s aid) = clickProj s := by
  unfold amarreBringToFront
  repeat' split
  all_goals try rfl
  refine foldlInvariant (fun t => clickProj t = clickProj s) _ _ _ rfl ?_
  intro t a _ ht
  dsimp only
  split
  · exact ht
  · exact ht

theorem clickProj_amarreRemoveCard (s : AppState) (aid cid : Nat) :
    clickProj (amarreRemoveCard s aid cid).1 = clickProj s := by
  unfold amarreRemoveCard
  cases hg : getAmarre s aid with
  | none => rfl
  | some g =>
    dsimp only
    split
    · have main : ∀ s3 : AppState, clickProj s3 = clickProj s →
          clickProj (match getAmarre s3 aid with
            | none => (s3, false)
            | some g2 =>
              match g2.cards with
              | [] => (s3, true)
              | [r] =>
                (updateAmarre (setCardScaleOp (updateCard s3 r fun c =>
                  { c with amarre := none }) r 1) aid fun g3 =>
                    { g3 with cards := [] }, true)
              | _ => (updateFromPrimaryOp s3 aid, false)).1 = clickProj s := by
        intro s3 h3
        cases getAmarre s3 aid with
        | none => exact h3
        | some g2 =>
          dsimp only
          match g2.cards with
          | [] => exact h3
          | [r] =>
            dsimp only
            rw [clickProj_updateAmarre, clickProj_setCardScaleOp, clickProj_updateCard, h3]
          | a :: b :: t =>
            dsimp only
            rw [clickProj_updateFromPrimaryOp, h3]
      apply main
      rw [clickProj_setCardScaleOp, clickProj_updateCard, clickProj_updateAmarre]
    · rfl

theorem clickProj_removeAmarreOp (s : AppState) (aid : Nat) :
    clickProj (removeAmarreOp s aid) = clickProj s := by
  unfold removeAmarreOp
  dsimp only
  have hbase : clickProj { s with amarres := s.amarres.erase aid } = clickProj s := rfl
  cases hg : getAmarre { s with amarres := s.amarres.erase aid } aid with
  | none => exact hbase
  | some g =>
    dsimp only
    refine foldlInvariant (fun t => clickProj t = clickProj s) _ _ _ hbase ?_
    intro t a _ ht
    rw [clickProj_amarreRemoveCard, ht]

theorem clickProj_detachCardFromAmarre (s : AppState) (cid : Nat) :
    clickProj (detachCardFromAmarre s cid) = clickProj s := by
  unfold detachCardFromAmarre
  cases hc : getCard s cid with
  | none => rfl
  | some c =>
    dsimp only
    cases c.amarre with
    | none => rfl
    | some aid =>
      dsimp only
      split
      · rw [clickProj_removeAmarreOp, clickProj_amarreRemoveCard]
      · rw [clickProj_amarreRemoveCard]

theorem clickProj_setObjects (s : AppState) (l : List ObjRef) :
    clickProj { s with objects := l } = clickProj s := rfl

theorem clickProj_maybeRescale (s : AppState) (cid : Nat) (q : ℚ) :
    clickProj (maybeRescale s cid q) = clickProj s := by
  unfold maybeRescale
  split
  · split
    · rw [clickProj_setCardScaleOp]
    · rfl
  · rfl

theorem clickProj_raiseObj (s : AppState) (r : ObjRef) :
    clickProj (raiseObj s r) = clickProj s := by
  unfold raiseObj
  split <;> rfl

theorem clickProj_handLayoutStep (count : Nat) (hovered : Option Nat) (t : AppState)
    (ic : Nat × Nat) : clickProj (handLayoutStep count hovered t ic) = clickProj t := by
  unfold handLayoutStep
  split
  · rfl
  · dsimp only
    repeat' split
    all_goals
      first
        | rw [clickProj_raiseObj, clickProj_updateCard, clickProj_maybeRescale,
            clickProj_updateCard]
        | rw [clickProj_updateCard, clickProj_maybeRescale, clickProj_updateCard]

theorem clickProj_handZoneUpdate (s : AppState) :
    clickProj (handZoneUpdate s) = clickProj s := by
  unfold handZoneUpdate
  split
  · rfl
  · refine foldlInvariant (fun t => clickProj t = clickProj s) _ _ _ rfl ?_
    intro t a _ ht
    rw [clickProj_handLayoutStep, ht]

theorem clickProj_handZoneRemoveCard (s : AppState) (cid : Nat) :
    clickProj (handZoneRemoveCard s cid) = clickProj s := by
  unfold handZoneRemoveCard
  split
  · dsimp only
    split
    · rw [clickProj_updateCard]
      rfl
    · rw [clickProj_handZoneUpdate, clickProj_updateCard]
      rfl
  · rfl

theorem clickProj_dragObjectOp (s : AppState) (ptr : ℚ × ℚ) :
    clickProj (dragObjectOp s ptr) = clickProj s := by
  unfold dragObjectOp
  repeat' split
  all_goals simp only [clickProj_amarreMoveTo, clickProj_updateCard]
  all_goals rfl

theorem clickProj_setDragStartFromRect (s : AppState) (ptr : ℚ × ℚ) (cand : ObjRef) :
    clickProj (setDragStartFromRect s ptr cand) = clickProj s := by
  unfold setDragStartFromRect
  cases objRect s cand <;> rfl

theorem clickProj_setDragOffsetFromRect (s : AppState) (ptr : ℚ × ℚ) (cand : ObjRef) :
    clickProj (setDragOffsetFromRect s ptr cand) = clickProj s := by
  unfold setDragOffsetFromRect
  cases objRect s cand <;> rfl

theorem clickProj_popAppendObject (s : AppState) (i : Nat) :
    clickProj (popAppendObject s i) = clickProj s := by
  unfold popAppendObject
  cases s.objects[i]? <;> rfl

theorem clickProj_setObjScale (s : AppState) (cand : ObjRef) (q : ℚ) :
    clickProj (setObjScale s cand q) = clickProj s := by
  unfold setObjScale
  cases cand
  · exact clickProj_setCardScaleOp _ _ _
  · exact clickProj_setDeckScaleOp _ _

theorem clickProj_setDragStartFromAmarre (s : AppState) (ptr : ℚ × ℚ) (aid : Nat) :
    clickProj (setDragStartFromAmarre s ptr aid) = clickProj s := by
  unfold setDragStartFromAmarre
  cases getAmarre s aid <;> rfl

theorem clickProj_setDragOffsetFromAmarre (s : AppState) (ptr : ℚ × ℚ) (aid : Nat) :
    clickProj (setDragOffsetFromAmarre s ptr aid) = clickProj s := by
  unfold setDragOffsetFromAmarre
  cases getAmarre s aid <;> rfl

theorem clickProj_beginDragGeneric (s : AppState) (ptr : ℚ × ℚ) (cand : ObjRef) (i : Nat) :
    clickProj (beginDragGeneric s ptr cand i).1 = clickProj s := by
  unfold beginDragGeneric
  dsimp only
  rw [clickProj_dragObjectOp, clickProj_setDragOffsetFromRect, clickProj_setObjScale,
    clickProj_popAppendObject, clickProj_setDragStartFromRect]
  rfl

theorem clickProj_beginDragHit (s : AppState) (ptr : ℚ × ℚ) (cand : ObjRef) (i : Nat) :
    clickProj (beginDragHit s ptr cand i).1 = clickProj s := by
  unfold beginDragHit
  cases cand with
  | deck => exact clickProj_beginDragGeneric _ _ _ _
  | card cid =>
    dsimp only
    cases hc : getCard s cid with
    | none => exact clickProj_beginDragGeneric _ _ _ _
    | some c =>
      dsimp only
      cases c.amarre with
      | none =>
        dsimp only
        rw [clickProj_beginDragGeneric, clickProj_handZoneRemoveCard]
      | some aid =>
        dsimp only
        split
        · rw [clickProj_dragObjectOp, clickProj_setDragOffsetFromAmarre,
            clickProj_amarreSetScale, clickProj_amarreBringToFront,
            clickProj_setDragStartFromAmarre]
          rfl
        · rw [clickProj_beginDragGeneric, clickProj_handZoneRemoveCard]
          split
          · rw [clickProj_removeAmarreOp, clickProj_amarreRemoveCard]
          · rw [clickProj_amarreRemoveCard]

theorem clickProj_beginDragLoop (ptr : ℚ × ℚ) (s : AppState) (i : Nat) :
    clickProj (beginDragLoop ptr s i).1 = clickProj s := by
  induction i with
  | zero => rfl
  | succ i ih =>
    rw [beginDragLoop]
    cases s.objects[i]? with
    | none => rfl
    | some cand =>
      dsimp only
      split
      · exact clickProj_beginDragHit s ptr cand i
      · exact ih

theorem clickProj_beginDrag (s : AppState) (ptr : ℚ × ℚ) :
    clickProj (beginDrag s ptr).1 = clickProj s :=
  clickProj_beginDragLoop ptr s s.objects.length

theorem removeDeckOp_cardStore (s : AppState) :
    (removeDeckOp s).cardStore = s.cardStore := by
  simp only [removeDeckOp, resetClickTracker]
  split <;> rfl

theorem removeDeckOp_deckObj (s : AppState) :
    (removeDeckOp s).deckObj = s.deckObj := by
  simp only [removeDeckOp, resetClickTracker]
  split <;> rfl

theorem removeDeckOp_now (s : AppState) : (removeDeckOp s).now = s.now := by
  simp only [removeDeckOp, resetClickTracker]
  split <;> rfl

theorem removeDeckOp_draggedObject (s : AppState) :
    (removeDeckOp s).draggedObject = s.draggedObject := by
  simp only [removeDeckOp, resetClickTracker]
  split <;> rfl

theorem drawProj_updateCard (s : AppState) (cid : Nat) (f : CardObj → CardObj) :
    drawProj (updateCard s cid f) = drawProj s := rfl

theorem drawProj_updateAmarre (s : AppState) (aid : Nat) (f : AmarreObj → AmarreObj) :
    drawProj (updateAmarre s aid f) = drawProj s := rfl

theorem drawProj_setCardScaleOp (s : AppState) (cid : Nat) (q : ℚ) :
    drawProj (setCardScaleOp s cid q) = drawProj s := rfl

theorem drawProj_setDragStartFromCardRect (s : AppState) (cid : Nat) :
    drawProj (setDragStartFromCardRect s cid) = drawProj s := by
  unfold setDragStartFromCardRect
  cases getCard s cid <;> rfl

theorem drawProj_setDragOffsetHalfRect (s : AppState) (cid : Nat) :
    drawProj (setDragOffsetHalfRect s cid) = drawProj s := by
  unfold setDragOffsetHalfRect
  cases getCard s cid <;> rfl

theorem drawProj_amarreMoveTo (s : AppState) (aid : Nat) (pos : Int × Int) :
    drawProj (amarreMoveTo s aid pos) = drawProj s := by
  unfold amarreMoveTo
  repeat' split
  all_goals try rfl
  refine foldlInvariant (fun t => drawProj t = drawProj s) _ _ _ ?_ ?_
  · exact drawProj_updateAmarre _ _ _
  · intro t a _ ht
    rw [drawProj_updateCard, ht]

theorem drawProj_dragObjectOp (s : AppState) (ptr : ℚ × ℚ) :
    drawProj (dragObjectOp s ptr) = drawProj s := by
  unfold dragObjectOp
  repeat' split
  all_goals simp only [drawProj_amarreMoveTo, drawProj_updateCard]
  all_goals rfl

theorem spawnCardFromDeck_none_iff (s : AppState) :
    (spawnCardFromDeck s).1 = none ↔
      (findFreeCardPosition s [] = none ∨ s.deckObj.cards = []) := by
  unfold spawnCardFromDeck
  cases hf : findFreeCardPosition s [] with
  | none => simp
  | some pos =>
    dsimp only
    cases hl : s.deckObj.cards.getLast? with
    | none =>
      have hnil : s.deckObj.cards = [] := List.getLast?_eq_none_iff.1 hl
      simp [deckDrawCard, hl, hnil]
    | some c =>
      have hne : s.deckObj.cards ≠ [] := by
        intro he
        rw [he] at hl
        simp at hl
      simp [deckDrawCard, hl, hne]

theorem spawnCardFromDeck_success (s : AppState) (cid : Nat) (s2 : AppState)
    (hsp : spawnCardFromDeck s = (some cid, s2)) :
    cid = freshCid s ∧ s2.cardStore.length = s.cardStore.length + 1 ∧
      s2.deckObj.cards = s.deckObj.cards.dropLast ∧
      s2.draggedObject = s.draggedObject ∧ s2.now = s.now := by
  unfold spawnCardFromDeck at hsp
  cases hf : findFreeCardPosition s [] with
  | none =>
    rw [hf] at hsp
    simp at hsp
  | some pos0 =>
    rw [hf] at hsp
    dsimp only at hsp
    cases hl : s.deckObj.cards.getLast? with
    | none =>
      simp only [deckDrawCard, hl] at hsp
      simp at hsp
    | some lab =>
      simp only [deckDrawCard, hl] at hsp
      rw [Prod.mk.injEq] at hsp
      obtain ⟨h1, h2⟩ := hsp
      have hcid : cid = freshCid s := by
        cases h1
        rfl
      refine ⟨hcid, ?_, ?_, ?_, ?_⟩ <;> rw [← h2]
      · split
        · rw [removeDeckOp_cardStore]
          simp
        · simp
      · split
        · rw [removeDeckOp_deckObj]
        · rfl
      · split
        · rw [removeDeckOp_draggedObject]
        · rfl
      · split
        · rw [removeDeckOp_now]
        · rfl

theorem spawnCardFromDeck_failure (s : AppState) (s2 : AppState)
    (hsp : spawnCardFromDeck s = (none, s2)) :
    s2.now = s.now ∧ s2.cardStore.length = s.cardStore.length := by
  unfold spawnCardFromDeck at hsp
  cases hf : findFreeCardPosition s [] with
  | none =>
    rw [hf] at hsp
    dsimp only at hsp
    rw [Prod.mk.injEq] at hsp
    rw [← hsp.2]
    exact ⟨rfl, rfl⟩
  | some pos0 =>
    rw [hf] at hsp
    dsimp only at hsp
    cases hl : s.deckObj.cards.getLast? with
    | none =>
      simp only [deckDrawCard, hl] at hsp
      rw [Prod.mk.injEq] at hsp
      rw [← hsp.2, removeDeckOp_now, removeDeckOp_cardStore]
      exact ⟨rfl, rfl⟩
    | some lab =>
      simp only [deckDrawCard, hl] at hsp
      rw [Prod.mk.injEq] at hsp
      exact absurd hsp.1 (by simp)

theorem handleMouseDown_eq (s : AppState) (pos : Int × Int) :
    handleMouseDown s pos =
      (if (handleControlDraw s (screenToWorld s ((pos.1 : ℚ), (pos.2 : ℚ)))
            (mouseDownClicked s pos)).2 = true then
        (handleControlDraw s (screenToWorld s ((pos.1 : ℚ), (pos.2 : ℚ)))
          (mouseDownClicked s pos)).1
      else if (beginDrag (recordPointerClick
            (handleControlDraw s (screenToWorld s ((pos.1 : ℚ), (pos.2 : ℚ)))
              (mouseDownClicked s pos)).1 (mouseDownClicked s pos))
            (screenToWorld s ((pos.1 : ℚ), (pos.2 : ℚ)))).2 = true then
        (beginDrag (recordPointerClick
          (handleControlDraw s (screenToWorld s ((pos.1 : ℚ), (pos.2 : ℚ)))
            (mouseDownClicked s pos)).1 (mouseDownClicked s pos))
          (screenToWorld s ((pos.1 : ℚ), (pos.2 : ℚ)))).1
      else
        beginPan (beginDrag (recordPointerClick
          (handleControlDraw s (screenToWorld s ((pos.1 : ℚ), (pos.2 : ℚ)))
            (mouseDownClicked s pos)).1 (mouseDownClicked s pos))
          (screenToWorld s ((pos.1 : ℚ), (pos.2 : ℚ)))).1 pos) := rfl

theorem clickProj_setDragStartFromCardRect (s : AppState) (cid : Nat) :
    clickProj (setDragStartFromCardRect s cid) = clickProj s := by
  unfold setDragStartFromCardRect
  cases getCard s cid <;> rfl

theorem clickProj_setDragOffsetHalfRect (s : AppState) (cid : Nat) :
    clickProj (setDragOffsetHalfRect s cid) = clickProj s := by
  unfold setDragOffsetHalfRect
  cases getCard s cid <;> rfl

/-- C2 (amended): a left-button press is treated as a draw gesture iff the
hit entity is the tracked deck, a modifier key is held, a free slot adjacent
to the deck exists, and the deck is non-empty — no double-click timing is
involved.  Such a press spawns exactly one new card (popping the deck's top
label) and immediately begins dragging it; any other press records the click
at the press time and spawns no card. -/
theorem control_draw_characterization (s : AppState) (pos : Int × Int) :
    (treatedAsDraw s pos = true ↔
      (mouseDownClicked s pos = some ObjRef.deck ∧ s.deckSpriteSet = true ∧
        s.ctrlHeld = true ∧ findFreeCardPosition s [] ≠ none ∧ s.deckObj.cards ≠ [])) ∧
    (treatedAsDraw s pos = true →
      (handleMouseDown s pos).cardStore.length = s.cardStore.length + 1 ∧
      (handleMouseDown s pos).draggedObject = some (DragRef.obj (ObjRef.card (freshCid s))) ∧
      (handleMouseDown s pos).deckObj.cards = s.deckObj.cards.dropLast) ∧
    (treatedAsDraw s pos = false →
      (handleMouseDown s pos).lastClickTime = s.now ∧
      (handleMouseDown s pos).cardStore.length = s.cardStore.length) := by
  have hiff : treatedAsDraw s pos = true ↔
      (mouseDownClicked s pos = some ObjRef.deck ∧ s.deckSpriteSet = true ∧
        s.ctrlHeld = true ∧ findFreeCardPosition s [] ≠ none ∧ s.deckObj.cards ≠ []) := by
    unfold treatedAsDraw handleControlDraw
    cases hck : mouseDownClicked s pos with
    | none => simp
    | some o =>
      cases o with
      | card c => simp
      | deck =>
        dsimp only
        by_cases hds : s.deckSpriteSet = true
        · by_cases hctrl : s.ctrlHeld = true
          · rw [if_neg (by simp [hds]), if_neg (by simp [hctrl])]
            cases hsp : spawnCardFromDeck s with
            | mk fst s2 =>
              cases fst with
              | none =>
                dsimp only
                rcases (spawnCardFromDeck_none_iff s).1 (by rw [hsp]) with h | h
                · simp [h]
                · simp [h]
              | some cid =>
                dsimp only
                have h1 : findFreeCardPosition s [] ≠ none := by
                  intro hnone
                  have h0 := (spawnCardFromDeck_none_iff s).2 (Or.inl hnone)
                  rw [hsp] at h0
                  simp at h0
                have h2 : s.deckObj.cards ≠ [] := by
                  intro hnil
                  have h0 := (spawnCardFromDeck_none_iff s).2 (Or.inr hnil)
                  rw [hsp] at h0
                  simp at h0
                simp [hds, hctrl, h1, h2]
          · rw [if_neg (by simp [hds]), if_pos (by simp [hctrl])]
            simp [hctrl]
        · rw [if_pos (by simp [hds])]
          simp [hds]
  refine ⟨hiff, ?_, ?_⟩
  · intro ht
    obtain ⟨hck, hds, hctrl, hffree, hcards⟩ := hiff.1 ht
    cases hsp : spawnCardFromDeck s with
    | mk fst s2 =>
      cases fst with
      | none =>
        exfalso
        rcases (spawnCardFromDeck_none_iff s).1 (by rw [hsp]) with h | h
        · exact hffree h
        · exact hcards h
      | some cid =>
        obtain ⟨hcid, hlen, hdeckcards, hdrag, hnow⟩ := spawnCardFromDeck_success s cid s2 hsp
        have hcd : handleControlDraw s (screenToWorld s ((pos.1 : ℚ), (pos.2 : ℚ)))
            (mouseDownClicked s pos) =
            (dragObjectOp (setDragOffsetHalfRect (setCardScaleOp
              (setDragStartFromCardRect
                { s2 with
                  draggedObject := some (DragRef.obj (ObjRef.card cid)) } cid) cid dragScale) cid)
              (screenToWorld s ((pos.1 : ℚ), (pos.2 : ℚ))), true) := by
          unfold handleControlDraw
          rw [hck]
          dsimp only
          rw [if_neg (by simp [hds]), if_neg (by simp [hctrl]), hsp]
        have hmd : handleMouseDown s pos =
            dragObjectOp (setDragOffsetHalfRect (setCardScaleOp
              (setDragStartFromCardRect
                { s2 with
                  draggedObject := some (DragRef.obj (ObjRef.card cid)) } cid) cid dragScale) cid)
              (screenToWorld s ((pos.1 : ℚ), (pos.2 : ℚ))) := by
          rw [handleMouseDown_eq, hcd]
          rfl
        have hclick : clickProj (handleMouseDown s pos) =
            clickProj
              { s2 with
                draggedObject := some (DragRef.obj (ObjRef.card cid)) } := by
          rw [hmd, clickProj_dragObjectOp, clickProj_setDragOffsetHalfRect,
            clickProj_setCardScaleOp, clickProj_setDragStartFromCardRect]
        have hdraw : drawProj (handleMouseDown s pos) =
            drawProj
              { s2 with
                draggedObject := some (DragRef.obj (ObjRef.card cid)) } := by
          rw [hmd, drawProj_dragObjectOp, drawProj_setDragOffsetHalfRect,
            drawProj_setCardScaleOp, drawProj_setDragStartFromCardRect]
        refine ⟨?_, ?_, ?_⟩
        · have := congrArg (fun t => t.2.2) hclick
          dsimp [clickProj] at this
          rw [this, hlen]
        · have := congrArg (fun t => t.1) hdraw
          dsimp [drawProj] at this
          rw [this, hcid]
        · have := congrArg (fun t => t.2) hdraw
          dsimp [drawProj] at this
          rw [this, hdeckcards]
  · intro hf
    cases hcd : handleControlDraw s (screenToWorld s ((pos.1 : ℚ), (pos.2 : ℚ)))
        (mouseDownClicked s pos) with
    | mk c1 c2 =>
      have hc2 : c2 = false := by
        have h0 : treatedAsDraw s pos = c2 := by
          unfold treatedAsDraw
          rw [hcd]
        rw [← h0, hf]
      subst hc2
      have hc1 : c1.now = s.now ∧ c1.cardStore.length = s.cardStore.length := by
        unfold handleControlDraw at hcd
        cases hck : mouseDownClicked s pos <;> rw [hck] at hcd
        case none =>
          rw [Prod.mk.injEq] at hcd
          rw [← hcd.1]
          exact ⟨rfl, rfl⟩
        case some o =>
          cases o with
          | card c =>
            dsimp only at hcd
            rw [Prod.mk.injEq] at hcd
            rw [← hcd.1]
            exact ⟨rfl, rfl⟩
          | deck =>
            dsimp only at hcd
            by_cases hds : s.deckSpriteSet = true
            · by_cases hctrl : s.ctrlHeld = true
              · rw [if_neg (by simp [hds]), if_neg (by simp [hctrl])] at hcd
                cases hsp : spawnCardFromDeck s with
                | mk fst s2 =>
                  rw [hsp] at hcd
                  cases fst with
                  | none =>
                    dsimp only at hcd
                    rw [Prod.mk.injEq] at hcd
                    rw [← hcd.1]
                    exact spawnCardFromDeck_failure s s2 hsp
                  | some cid =>
                    dsimp only at hcd
                    rw [Prod.mk.injEq] at hcd
                    exact absurd hcd.2 (by simp)
              · rw [if_neg (by simp [hds]), if_pos (by simp [hctrl])] at hcd
                rw [Prod.mk.injEq] at hcd
                rw [← hcd.1]
                exact ⟨rfl, rfl⟩
            · rw [if_pos (by simp [hds])] at hcd
              rw [Prod.mk.injEq] at hcd
              rw [← hcd.1]
              exact ⟨rfl, rfl⟩
      have hrec : clickProj (recordPointerClick c1 (mouseDownClicked s pos)) =
          (c1.now, c1.now, c1.cardStore.length) := rfl
      have hb := clickProj_beginDrag (recordPointerClick c1 (mouseDownClicked s pos))
        (screenToWorld s ((pos.1 : ℚ), (pos.2 : ℚ)))
      rw [hrec] at hb
      rw [handleMouseDown_eq, hcd]
      dsimp only
      rw [if_neg (by simp)]
      have h1 := congrArg (fun t => t.1) hb
      have h2 := congrArg (fun t => t.2.2) hb
      dsimp [clickProj] at h1 h2
      constructor
      · split
        · exact h1.trans hc1.1
        · exact h1.trans hc1.1
      · split
        · exact h2.trans hc1.2
        · exact h2.trans hc1.2

/-- C2 counterexample: with the modifier held over the deck and no previous
click recorded, the press is treated as a draw even though the claimed
double-click trigger (same deck clicked within 400 ms) is false — the code
performs no timing check on the control-draw path. -/
theorem control_draw_counterexample :
    treatedAsDraw c2State (420, 310) = true ∧
    claimedDrawTrigger c2State (420, 310) = false := by
  with_unfolding_all decide

theorem control_draw_characterization_witness :
    treatedAsDraw c2State (420, 310) = true ∧
    (handleMouseDown c2State (420, 310)).cardStore.length =
      c2State.cardStore.length + 1 :=
  ⟨by with_unfolding_all decide,
   ((control_draw_characterization c2State (420, 310)).2.1
      (by with_unfolding_all decide)).1⟩

theorem handHoverLoop_eq (s : AppState) (count : Nat) :
    ∀ (l : List Nat) (i : Nat) (acc : Option Nat),
    handHoverLoop s count l i acc =
      ((List.range' i l.length).find?
        (fun j => (handHoverRect s count j).collidepointI s.mousePos)).or
      ((((List.range' i l.length).filter
        (fun j => (handBaseRect s count j).collidepointI s.mousePos)).getLast?).or acc)
  | [], i, acc => by simp [handHoverLoop]
  | a :: l, i, acc => by
    rw [handHoverLoop]
    have hr : List.range' i (a :: l).length = i :: List.range' (i+1) l.length :=
      List.range'_succ i l.length 1
    rw [hr, handHoverLoop_eq s count l (i+1)]
    simp only [List.find?_cons, List.filter_cons]
    by_cases hh : (handHoverRect s count i).collidepointI s.mousePos
    · rw [if_pos hh]
      simp only [hh, cond_true]
      rfl
    · rw [if_neg hh]
      simp only [hh, cond_false]
      by_cases hb : (handBaseRect s count i).collidepointI s.mousePos
      · rw [if_pos hb]
        simp only [hb, if_true]
        cases hfind : (List.range' (i+1) l.length).find?
            (fun j => (handHoverRect s count j).collidepointI s.mousePos) with
        | some j => rfl
        | none =>
          simp only [Option.none_or]
          rw [List.getLast?_cons]
          cases hlast : ((List.range' (i+1) l.length).filter
              (fun j => (handBaseRect s count j).collidepointI s.mousePos)).getLast? with
          | some j => rfl
          | none => rfl
      · rw [if_neg hb]
        simp [hb]

theorem handHoveredIndex_or (s : AppState) (h : s.draggedObject = none) :
    handHoveredIndex s = (firstHoverMatch s).or (lastBaseMatch s) := by
  unfold handHoveredIndex firstHoverMatch lastBaseMatch
  rw [if_pos h, handHoverLoop_eq, ← List.range_eq_range', Option.or_none]

theorem layoutEnv_updateCard (s : AppState) (cid : Nat) (f : CardObj → CardObj) :
    layoutEnv (updateCard s cid f) = layoutEnv s := rfl

theorem layoutEnv_maybeRescale (s : AppState) (cid : Nat) (q : ℚ) :
    layoutEnv (maybeRescale s cid q) = layoutEnv s := by
  unfold maybeRescale
  split
  · split <;> rfl
  · rfl

theorem layoutEnv_raiseObj (s : AppState) (r : ObjRef) :
    layoutEnv (raiseObj s r) = layoutEnv s := by
  unfold raiseObj
  split <;> rfl

theorem getCard_raiseObj (s : AppState) (r : ObjRef) (cid : Nat) :
    getCard (raiseObj s r) cid = getCard s cid := by
  unfold raiseObj
  split <;> rfl

theorem objects_updateCard (s : AppState) (cid : Nat) (f : CardObj → CardObj) :
    (updateCard s cid f).objects = s.objects := rfl

theorem objects_maybeRescale (s : AppState) (cid : Nat) (q : ℚ) :
    (maybeRescale s cid q).objects = s.objects := by
  unfold maybeRescale
  split
  · split <;> rfl
  · rfl

theorem getCard_maybeRescale_ne (s : AppState) (cid cid2 : Nat) (q : ℚ) (hne : cid2 ≠ cid) :
    getCard (maybeRescale s cid q) cid2 = getCard s cid2 := by
  unfold maybeRescale
  split
  · split
    · simp only [setCardScaleOp]
      simp [getCard_updateCard_other, hne]
    · rfl
  · rfl

theorem layoutEnv_handLayoutStep (count : Nat) (hovered : Option Nat) (t : AppState)
    (ic : Nat × Nat) : layoutEnv (handLayoutStep count hovered t ic) = layoutEnv t := by
  unfold handLayoutStep
  split
  · rfl
  · dsimp only
    repeat' split
    all_goals
      first
        | rw [layoutEnv_raiseObj, layoutEnv_updateCard, layoutEnv_maybeRescale,
            layoutEnv_updateCard]
        | rw [layoutEnv_updateCard, layoutEnv_maybeRescale, layoutEnv_updateCard]

theorem handLayoutStep_getCard_ne (count : Nat) (hovered : Option Nat) (t : AppState)
    (ic : Nat × Nat) (cid : Nat) (hne : cid ≠ ic.2) :
    getCard (handLayoutStep count hovered t ic) cid = getCard t cid := by
  unfold handLayoutStep
  split
  · rfl
  · dsimp only
    repeat' split
    all_goals
      simp [getCard_updateCard_other, getCard_maybeRescale_ne, getCard_raiseObj, hne]

theorem handLayoutStep_objects_ne (count : Nat) (hovered : Option Nat) (t : AppState)
    (ic : Nat × Nat) (h : hovered ≠ some ic.1) :
    (handLayoutStep count hovered t ic).objects = t.objects := by
  unfold handLayoutStep
  split
  · rfl
  · dsimp only
    rw [if_neg]
    · rw [objects_updateCard, objects_maybeRescale, objects_updateCard]
    · simp [h]

theorem foldl_layout_env (count : Nat) (hovered : Option Nat) (ps : List (Nat × Nat))
    (t : AppState) :
    layoutEnv (ps.foldl (handLayoutStep count hovered) t) = layoutEnv t :=
  foldlInvariant (fun u => layoutEnv u = layoutEnv t) _ ps t rfl
    (fun u p _ hu => by
      show layoutEnv (handLayoutStep count hovered u p) = layoutEnv t
      rw [layoutEnv_handLayoutStep, hu])

theorem foldl_layout_getCard (count : Nat) (hovered : Option Nat) (ps : List (Nat × Nat))
    (t : AppState) (cid : Nat) (h : ∀ p ∈ ps, cid ≠ p.2) :
    getCard (ps.foldl (handLayoutStep count hovered) t) cid = getCard t cid :=
  foldlInvariant (fun u => getCard u cid = getCard t cid) _ ps t rfl
    (fun u p hp hu => by
      show getCard (handLayoutStep count hovered u p) cid = getCard t cid
      rw [handLayoutStep_getCard_ne _ _ _ _ _ (h p hp), hu])

theorem foldl_layout_objects (count : Nat) (hovered : Option Nat) (ps : List (Nat × Nat))
    (t : AppState) (h : ∀ p ∈ ps, hovered ≠ some p.1) :
    (ps.foldl (handLayoutStep count hovered) t).objects = t.objects :=
  foldlInvariant (fun u => u.objects = t.objects) _ ps t rfl
    (fun u p hp hu => by
      show (handLayoutStep count hovered u p).objects = t.objects
      rw [handLayoutStep_objects_ne _ _ _ _ (h p hp), hu])

theorem getCard_maybeRescale_eq (s : AppState) (cid : Nat) (q : ℚ) :
    getCard (maybeRescale s cid q) cid =
      match getCard s cid with
      | some c => some (if 1/1000 < |c.scale - q| then rescaled c q else c)
      | none => none := by
  unfold maybeRescale
  cases hg : getCard s cid with
  | none => exact hg
  | some c =>
    dsimp only
    by_cases hcond : 1/1000 < |c.scale - q|
    · rw [if_pos hcond, if_pos hcond]
      unfold setCardScaleOp
      simp [getCard_updateCard_self, hg, rescaled]
    · rw [if_neg hcond, if_neg hcond]
      exact hg

theorem getCard_raise_if (u : AppState) (x : ObjRef) (b : Bool) (cid : Nat) :
    getCard (if b = true then raiseObj u x else u) cid = getCard u cid := by
  split
  · exact getCard_raiseObj u x cid
  · rfl

theorem raise_last_general (u : AppState) (x : ObjRef) (hm : x ∈ u.objects) :
    (if (u.objects.isEmpty || u.objects.getLast? != some x) = true then raiseObj u x
     else u).objects.getLast? = some x := by
  split
  · unfold raiseObj
    rw [if_pos hm]
    exact List.getLast?_concat _
  · next h =>
    simp only [Bool.or_eq_true, not_or, Bool.not_eq_true] at h
    have h2 := h.2
    simp only [bne_eq_false_iff_eq] at h2
    exact h2

theorem rescaled_scale_close (c : CardObj) (q : ℚ)
    (hq : max q (1/100) = q) (hq1 : ¬ |q - 1| < 1/1000)
    (hcond : 1/1000 < |c.scale - q|) :
    |(rescaled c q).scale - q| ≤ 1/1000 := by
  unfold rescaled setScaleRect
  dsimp only
  rw [hq]
  rw [if_neg (by rw [abs_sub_comm]; exact not_lt.mpr (le_of_lt hcond))]
  rw [if_neg hq1]
  simp

theorem rescaled_handScreenRect (c : CardObj) (q : ℚ) :
    (rescaled c q).handScreenRect = c.handScreenRect := rfl

theorem handLayoutStep_hovered (count k cid : Nat) (t : AppState) (c : CardObj)
    (hd : t.draggedObject = none) (hc : getCard t cid = some c)
    (hm : ObjRef.card cid ∈ t.objects) :
    (∃ c2, getCard (handLayoutStep count (some k) t (k, cid)) cid = some c2 ∧
      c2.handHovered = true ∧ c2.inHand = true ∧
      c2.handScreenRect = some (computeHandRect t.screenH (handCenter t count k)
        (handScaleC * hoverScaleMultiplier) (handBottomMargin t)
        (max (handOffset t count k) (handHoverLift t))) ∧
      |c2.scale - handScaleC * hoverScaleMultiplier| ≤ 1/1000) ∧
    (handLayoutStep count (some k) t (k, cid)).objects.getLast? = some (ObjRef.card cid) := by
  have hqmax : max (handScaleC * hoverScaleMultiplier) (1/100) =
      handScaleC * hoverScaleMultiplier := by
    with_unfolding_all decide
  have hq1 : ¬ |handScaleC * hoverScaleMultiplier - 1| < 1/1000 := by
    with_unfolding_all decide
  unfold handLayoutStep
  rw [if_neg (by simp [hd])]
  dsimp only
  split
  · next h =>
    simp only [h, Bool.true_and]
    constructor
    · rw [getCard_raise_if, getCard_updateCard_self, getCard_maybeRescale_eq,
        getCard_updateCard_self, hc, Option.map_some']
      dsimp only
      refine ⟨_, rfl, ?_, ?_, ?_, ?_⟩
      · exact decide_eq_true trivial
      · rfl
      · split
        · rw [rescaled_handScreenRect]
        · rfl
      · split
        · next hP => exact rescaled_scale_close _ _ hqmax hq1 hP
        · next hP =>
          dsimp only
          exact not_lt.mp hP
      · intro x
        rfl
      · intro x
        rfl
    · refine raise_last_general _ _ ?_
      rw [objects_updateCard, objects_maybeRescale, objects_updateCard]
      exact hm
  · next h =>
    simp at h

theorem handLayoutStep_nothovered (count : Nat) (hovered : Option Nat) (i cid : Nat)
    (t : AppState) (c : CardObj) (hd : t.draggedObject = none)
    (hc : getCard t cid = some c) (hnh : hovered ≠ some i) :
    ∃ c2, getCard (handLayoutStep count hovered t (i, cid)) cid = some c2 ∧
      c2.handHovered = false ∧ c2.inHand = true := by
  unfold handLayoutStep
  rw [if_neg (by simp [hd])]
  dsimp only
  split
  · next h =>
    exact absurd (of_decide_eq_true h) hnh
  · next h =>
    rw [if_neg (by simp [h])]
    rw [getCard_updateCard_self, getCard_maybeRescale_eq,
      getCard_updateCard_self, hc, Option.map_some']
    dsimp only
    refine ⟨_, rfl, ?_, ?_⟩
    · exact decide_eq_false hnh
    · rfl
    · intro x
      rfl
    · intro x
      rfl

theorem enum_split (l : List Nat) (k : Nat) (cid : Nat) (hk : l[k]? = some cid) :
    l.enum = l.enum.take k ++ (k, cid) :: l.enum.drop (k+1) := by
  have hk2 : l.enum[k]? = some (k, cid) := by
    rw [List.getElem?_enum, hk]
    rfl
  obtain ⟨hlen, hval⟩ := List.getElem?_eq_some.mp hk2
  conv_lhs => rw [← List.take_append_drop k l.enum]
  rw [List.drop_eq_getElem_cons hlen, hval]

theorem mem_enum_take (l : List Nat) (k : Nat) (p : Nat × Nat)
    (hp : p ∈ l.enum.take k) : p.1 < k ∧ l[p.1]? = some p.2 := by
  obtain ⟨i, hi⟩ := List.mem_iff_getElem?.mp hp
  rw [List.getElem?_take] at hi
  by_cases hik : i < k
  · rw [if_pos hik] at hi
    rw [List.getElem?_enum] at hi
    cases hl : l[i]? with
    | none => rw [hl] at hi; simp at hi
    | some a =>
      rw [hl] at hi
      simp only [Option.map_some', Option.some.injEq] at hi
      rw [← hi]
      exact ⟨hik, hl⟩
  · rw [if_neg hik] at hi
    simp at hi

theorem mem_enum_drop (l : List Nat) (k : Nat) (p : Nat × Nat)
    (hp : p ∈ l.enum.drop (k+1)) : k < p.1 ∧ l[p.1]? = some p.2 := by
  obtain ⟨i, hi⟩ := List.mem_iff_getElem?.mp hp
  rw [List.getElem?_drop, List.getElem?_enum] at hi
  cases hl : l[k+1+i]? with
  | none => rw [hl] at hi; simp at hi
  | some a =>
    rw [hl] at hi
    simp only [Option.map_some', Option.some.injEq] at hi
    rw [← hi]
    exact ⟨by omega, hl⟩

theorem nodup_getElem?_ne (l : List Nat) (hN : l.Nodup) (i j : Nat) (a b : Nat)
    (hi : l[i]? = some a) (hj : l[j]? = some b) (hij : i ≠ j) : a ≠ b := by
  obtain ⟨hi1, hi2⟩ := List.getElem?_eq_some.mp hi
  obtain ⟨hj1, hj2⟩ := List.getElem?_eq_some.mp hj
  intro hab
  apply hij
  apply (List.Nodup.getElem_inj_iff hN).mp
  rw [hi2, hj2, hab]

theorem foldl_layout_getCard_at (count : Nat) (hov : Option Nat) (l : List Nat)
    (i cid : Nat) (hnd : l.Nodup) (hk : l[i]? = some cid) (t : AppState) :
    getCard (l.enum.foldl (handLayoutStep count hov) t) cid =
      getCard (handLayoutStep count hov
        ((l.enum.take i).foldl (handLayoutStep count hov) t) (i, cid)) cid := by
  conv_lhs => rw [enum_split l i cid hk]
  rw [List.foldl_append, List.foldl_cons]
  refine foldl_layout_getCard count hov _ _ cid ?_
  intro p hp
  obtain ⟨hgt, hpl⟩ := mem_enum_drop l i p hp
  exact (nodup_getElem?_ne l hnd p.1 i p.2 cid hpl hk (by omega)).symm

theorem foldl_layout_objects_at (count k cid : Nat) (l : List Nat)
    (hk : l[k]? = some cid) (t : AppState) :
    (l.enum.foldl (handLayoutStep count (some k)) t).objects =
      (handLayoutStep count (some k)
        ((l.enum.take k).foldl (handLayoutStep count (some k)) t) (k, cid)).objects := by
  conv_lhs => rw [enum_split l k cid hk]
  rw [List.foldl_append, List.foldl_cons]
  refine foldl_layout_objects count (some k) _ _ ?_
  intro p hp
  obtain ⟨hgt, hpl⟩ := mem_enum_drop l k p hp
  intro he
  have : k = p.1 := Option.some.inj he
  omega

theorem foldl_layout_getCard_take (count : Nat) (hov : Option Nat) (l : List Nat)
    (i cid : Nat) (hnd : l.Nodup) (hk : l[i]? = some cid) (t : AppState) :
    getCard ((l.enum.take i).foldl (handLayoutStep count hov) t) cid = getCard t cid := by
  refine foldl_layout_getCard count hov _ _ cid ?_
  intro p hp
  obtain ⟨hlt, hpl⟩ := mem_enum_take l i p hp
  exact (nodup_getElem?_ne l hnd p.1 i p.2 cid hpl hk (by omega)).symm

theorem foldl_layout_objects_take (count k : Nat) (l : List Nat) (t : AppState) :
    ((l.enum.take k).foldl (handLayoutStep count (some k)) t).objects = t.objects := by
  refine foldl_layout_objects count (some k) _ _ ?_
  intro p hp
  obtain ⟨hlt, hpl⟩ := mem_enum_take l k p hp
  intro he
  have : k = p.1 := Option.some.inj he
  omega

theorem handCenter_congr (t s : AppState) (hW : t.screenW = s.screenW)
    (count i : Nat) : handCenter t count i = handCenter s count i := by
  simp only [handCenter, handMargin, handAvailable, hW]

theorem handOffset_congr (t s : AppState) (hH : t.screenH = s.screenH)
    (count i : Nat) : handOffset t count i = handOffset s count i := by
  unfold handOffset handArcHeight
  rw [hH]

/-- C7 (amended): during a hand-layout update while nothing is dragged, the
hovered index is the first index whose enlarged hit rect contains the pointer
and, only when no enlarged rect matches, the last (not first) index whose
base drawn rect contains the pointer.  The hovered card is flagged hovered,
kept in hand, given the hover screen rect whose scale carries the additional
hover multiplier and whose lift is at least the fixed hover lift, its scale
is brought within 1e-3 of the hover target, and it is moved to the top of
the z-order; every other hand card ends the update not hovered, so at most
one hand card is hovered. -/
theorem hand_hover_characterization (s : AppState) (k cid : Nat)
    (hd : s.draggedObject = none) (hnd : s.handCards.Nodup)
    (hall : ∀ j ∈ s.handCards, (getCard s j).isSome = true)
    (hk : s.handCards[k]? = some cid)
    (hidx : handHoveredIndex s = some k)
    (hm : ObjRef.card cid ∈ s.objects) :
    handHoveredIndex s = (firstHoverMatch s).or (lastBaseMatch s) ∧
    (∃ c2, getCard (handZoneUpdate s) cid = some c2 ∧
      c2.handHovered = true ∧ c2.inHand = true ∧
      c2.handScreenRect = some (computeHandRect s.screenH
        (handCenter s s.handCards.length k) (handScaleC * hoverScaleMultiplier)
        (handBottomMargin s)
        (max (handOffset s s.handCards.length k) (handHoverLift s))) ∧
      |c2.scale - handScaleC * hoverScaleMultiplier| ≤ 1/1000) ∧
    handHoverLift s ≤ max (handOffset s s.handCards.length k) (handHoverLift s) ∧
    (handZoneUpdate s).objects.getLast? = some (ObjRef.card cid) ∧
    (∀ i cid2, i ≠ k → s.handCards[i]? = some cid2 →
      (getCard (handZoneUpdate s) cid2).map (fun c3 => c3.handHovered) = some false) := by
  have hmem : cid ∈ s.handCards := List.mem_iff_getElem?.mpr ⟨k, hk⟩
  obtain ⟨c, hc⟩ := Option.isSome_iff_exists.mp (hall cid hmem)
  have hne : s.handCards.isEmpty ≠ true := by
    intro h
    rw [List.isEmpty_eq_true] at h
    rw [h] at hk
    simp at hk
  have hu : handZoneUpdate s =
      s.handCards.enum.foldl (handLayoutStep s.handCards.length (some k)) s := by
    unfold handZoneUpdate
    rw [if_neg hne]
    dsimp only
    rw [hidx]
  have henv := foldl_layout_env s.handCards.length (some k) (s.handCards.enum.take k) s
  have hW : ((s.handCards.enum.take k).foldl
      (handLayoutStep s.handCards.length (some k)) s).screenW = s.screenW :=
    congrArg Prod.fst henv
  have hH : ((s.handCards.enum.take k).foldl
      (handLayoutStep s.handCards.length (some k)) s).screenH = s.screenH :=
    congrArg (fun x => x.2.1) henv
  have hd0 : ((s.handCards.enum.take k).foldl
      (handLayoutStep s.handCards.length (some k)) s).draggedObject = none :=
    (congrArg (fun x => x.2.2) henv).trans hd
  have hc0 : getCard ((s.handCards.enum.take k).foldl
      (handLayoutStep s.handCards.length (some k)) s) cid = some c :=
    (foldl_layout_getCard_take s.handCards.length (some k) s.handCards k cid hnd hk s).trans hc
  have hm0 : ObjRef.card cid ∈ ((s.handCards.enum.take k).foldl
      (handLayoutStep s.handCards.length (some k)) s).objects := by
    rw [foldl_layout_objects_take]
    exact hm
  obtain ⟨⟨c2, hc2, hhov, hin, hhsr, hsc⟩, hlast⟩ :=
    handLayoutStep_hovered s.handCards.length k cid _ c hd0 hc0 hm0
  refine ⟨handHoveredIndex_or s hd, ⟨c2, ?_, hhov, hin, ?_, hsc⟩, le_max_right _ _, ?_, ?_⟩
  · rw [hu, foldl_layout_getCard_at s.handCards.length (some k) s.handCards k cid hnd hk s]
    exact hc2
  · rw [hhsr]
    simp only [handCenter_congr _ s hW, handOffset_congr _ s hH, handBottomMargin,
      handHoverLift, hH]
  · rw [hu, foldl_layout_objects_at s.handCards.length k cid s.handCards hk s]
    exact hlast
  · intro i cid2 hik hki
    have hmem2 : cid2 ∈ s.handCards := List.mem_iff_getElem?.mpr ⟨i, hki⟩
    obtain ⟨ci, hci⟩ := Option.isSome_iff_exists.mp (hall cid2 hmem2)
    have henvI := foldl_layout_env s.handCards.length (some k) (s.handCards.enum.take i) s
    have hdI : ((s.handCards.enum.take i).foldl
        (handLayoutStep s.handCards.length (some k)) s).draggedObject = none :=
      (congrArg (fun x => x.2.2) henvI).trans hd
    have hc0I : getCard ((s.handCards.enum.take i).foldl
        (handLayoutStep s.handCards.length (some k)) s) cid2 = some ci :=
      (foldl_layout_getCard_take s.handCards.length (some k) s.handCards i cid2 hnd hki s).trans hci
    have hnh : (some k : Option Nat) ≠ some i := fun he => hik (Option.some.inj he).symm
    obtain ⟨c3, hc3, hf3, _⟩ :=
      handLayoutStep_nothovered s.handCards.length (some k) i cid2 _ ci hdI hc0I hnh
    rw [hu, foldl_layout_getCard_at s.handCards.length (some k) s.handCards i cid2 hnd hki s,
      hc3]
    simp [hf3]

/-- C7 counterexample: with the pointer inside both hand cards' base rects
and neither enlarged rect, the update hovers the last matching card (index
1), not the first match (index 0) claimed by the spec. -/
theorem hand_hover_counterexample :
    handHoveredIndex c7State = some 1 ∧ claimedHoverIndex c7State = some 0 := by
  with_unfolding_all decide

theorem hand_hover_characterization_witness :
    (getCard (handZoneUpdate c7State) 2).map (fun c3 => c3.handHovered) = some true ∧
    (handZoneUpdate c7State).objects.getLast? = some (ObjRef.card 2) := by
  obtain ⟨h1, ⟨c2, hc2, hhov, h2⟩, h3, hlast, h4⟩ :=
    hand_hover_characterization c7State 1 2 (by with_unfolding_all decide)
      (by with_unfolding_all decide) (by with_unfolding_all decide)
      (by with_unfolding_all decide) (by with_unfolding_all decide)
      (by with_unfolding_all decide)
  refine ⟨?_, hlast⟩
  rw [hc2]
  simp [hhov]

theorem deckShuffleIn_length (d : DeckObj) (label : String) (r : Nat) :
    (deckShuffleIn d label r).cards.length = d.cards.length + 1 := by
  unfold deckShuffleIn
  dsimp only
  by_cases he : d.cards.isEmpty
  · rw [if_pos he]
    simp
  · rw [if_neg he]
    have hb : r % (d.cards.length + 1) ≤ d.cards.length := by
      have h2 : r % (d.cards.length + 1) < d.cards.length + 1 := Nat.mod_lt r (by omega)
      omega
    simp [List.length_insertIdx, hb]

theorem deckShuffleIn_rect (d : DeckObj) (label : String) (r : Nat) :
    (deckShuffleIn d label r).rect = deckRefreshRect d.rect (d.cards.length + 1) := by
  unfold deckShuffleIn
  dsimp only
  by_cases he : d.cards.isEmpty
  · rw [if_pos he]
    simp
  · rw [if_neg he]
    have hb : r % (d.cards.length + 1) ≤ d.cards.length := by
      have h2 : r % (d.cards.length + 1) < d.cards.length + 1 := Nat.mod_lt r (by omega)
      omega
    simp [List.length_insertIdx, hb]

theorem deckRefreshRect_comp (r : Rect) (n m : Nat) :
    deckRefreshRect (deckRefreshRect r n) m = deckRefreshRect r m := rfl

theorem detachCardFromAmarre_noop (s : AppState) (cid : Nat) (c : CardObj)
    (hc : getCard s cid = some c) (ha : c.amarre = none) :
    detachCardFromAmarre s cid = s := by
  unfold detachCardFromAmarre
  rw [hc]
  dsimp only
  rw [ha]

theorem handZoneRemoveCard_noop (s : AppState) (cid : Nat) (h : cid ∉ s.handCards) :
    handZoneRemoveCard s cid = s := by
  unfold handZoneRemoveCard
  rw [if_neg h]

theorem colliderect_deckRefresh_mono (r d : Rect) (n0 n1 : Nat) (hn : n0 ≤ n1)
    (h : r.colliderect (deckRefreshRect d n0) = true) :
    r.colliderect (deckRefreshRect d n1) = true := by
  unfold Rect.colliderect deckRefreshRect deckBaseH at h ⊢
  dsimp only at h ⊢
  simp only [Bool.and_eq_true, decide_eq_true_eq] at h ⊢
  obtain ⟨⟨⟨h1, h2⟩, h3⟩, h4⟩ := h
  have hcast : ((max n0 1 : Nat) : Int) ≤ ((max n1 1 : Nat) : Int) :=
    Nat.cast_le.mpr (max_le_max hn le_rfl)
  exact ⟨⟨⟨h1, h2⟩, by linarith⟩, by linarith⟩

theorem cardStore_clickIf (b : Prop) [Decidable b] (u : AppState) :
    (if b then resetClickTracker u else u).cardStore = u.cardStore := by
  split <;> rfl

theorem handCards_clickIf (b : Prop) [Decidable b] (u : AppState) :
    (if b then resetClickTracker u else u).handCards = u.handCards := by
  split <;> rfl

theorem deckObj_clickIf (b : Prop) [Decidable b] (u : AppState) :
    (if b then resetClickTracker u else u).deckObj = u.deckObj := by
  split <;> rfl

theorem objects_clickIf (b : Prop) [Decidable b] (u : AppState) :
    (if b then resetClickTracker u else u).objects = u.objects := by
  split <;> rfl

theorem deckDropStep_inv (s : AppState)
    (hhand : s.handCards = []) (ham : ∀ c ∈ s.cardStore, c.amarre = none)
    (hnd : s.objects.Nodup)
    (t : AppState × List Nat) (o : ObjRef) (hI : deckDropInv s t) :
    deckDropInv s (handleDeckDropStep t o) := by
  obtain ⟨h1, h2, h3, h4, h5⟩ := hI
  unfold handleDeckDropStep
  cases o with
  | deck => exact ⟨h1, h2, h3, h4, h5⟩
  | card cid =>
    dsimp only
    cases hg : getCard t.1 cid with
    | none => exact ⟨h1, h2, h3, h4, h5⟩
    | some c =>
      dsimp only
      split
      · have hcmem : c ∈ s.cardStore := by
          unfold getCard at hg
          rw [h1] at hg
          exact List.mem_of_find?_eq_some hg
        have hca : c.amarre = none := ham c hcmem
        rw [detachCardFromAmarre_noop _ _ c]
        rw [handZoneRemoveCard_noop]
        · have herase : t.1.objects.erase (ObjRef.card cid) =
              s.objects.filter
                (fun o => !(((t.2 ++ [cid]).map ObjRef.card).contains o)) := by
            rw [h5, List.Nodup.erase_eq_filter (hnd.filter _), List.filter_filter]
            refine List.filter_congr ?_
            intro o ho
            simp only [List.map_append, List.map_cons, List.map_nil]
            rw [Bool.eq_iff_iff]
            simp only [Bool.and_eq_true, Bool.not_eq_true', Bool.not_eq_true]
            simp [List.contains, bne_iff_ne]
            tauto
          refine ⟨?_, ?_, ?_, ?_, ?_⟩
          · dsimp only
            rw [cardStore_clickIf]
            split <;> exact h1
          · dsimp only
            rw [handCards_clickIf]
            split <;> exact h2
          · dsimp only
            rw [deckObj_clickIf]
            split
            · dsimp only
              rw [deckShuffleIn_rect, deckShuffleIn_length, h3, deckRefreshRect_comp]
            · dsimp only
              rw [deckShuffleIn_rect, deckShuffleIn_length, h3, deckRefreshRect_comp]
          · dsimp only
            rw [deckObj_clickIf]
            split
            · dsimp only
              rw [deckShuffleIn_length, h4]
              simp only [List.length_append, List.length_cons, List.length_nil]
              omega
            · dsimp only
              rw [deckShuffleIn_length, h4]
              simp only [List.length_append, List.length_cons, List.length_nil]
              omega
          · dsimp only
            rw [objects_clickIf]
            split <;> exact herase
        · dsimp only
          split <;> (dsimp only; rw [h2, hhand]; exact List.not_mem_nil cid)
        · split <;> exact hg
        · exact hca
      · exact ⟨h1, h2, h3, h4, h5⟩

theorem deckDropFold_inv (s : AppState)
    (hhand : s.handCards = []) (ham : ∀ c ∈ s.cardStore, c.amarre = none)
    (hnd : s.objects.Nodup)
    (hrect : s.deckObj.rect = deckRefreshRect s.deckObj.rect s.deckObj.cards.length)
    (l : List ObjRef) :
    deckDropInv s (l.foldl handleDeckDropStep (s, [])) := by
  refine foldlInvariant (deckDropInv s) _ _ _ ⟨rfl, rfl, hrect, by simp, by simp⟩ ?_
  intro t o _ hI
  exact deckDropStep_inv s hhand ham hnd t o hI

theorem deckDropStep_snd (t : AppState × List Nat) (o : ObjRef) :
    ∃ u, (handleDeckDropStep t o).2 = t.2 ++ u := by
  unfold handleDeckDropStep
  cases o with
  | deck => exact ⟨[], by simp⟩
  | card cid =>
    dsimp only
    cases getCard t.1 cid with
    | none => exact ⟨[], by simp⟩
    | some c =>
      dsimp only
      split
      · exact ⟨[cid], rfl⟩
      · exact ⟨[], by simp⟩

theorem deckDropFold_snd_mono (l : List ObjRef) (t : AppState × List Nat) :
    ∃ u, (l.foldl handleDeckDropStep t).2 = t.2 ++ u := by
  induction l generalizing t with
  | nil => exact ⟨[], by simp⟩
  | cons o l ih =>
    rw [List.foldl_cons]
    obtain ⟨u1, hu1⟩ := deckDropStep_snd t o
    obtain ⟨u2, hu2⟩ := ih (handleDeckDropStep t o)
    exact ⟨u1 ++ u2, by rw [hu2, hu1, List.append_assoc]⟩

theorem deckDropStep_sweeps (s : AppState) (t : AppState × List Nat) (cid : Nat)
    (c : CardObj) (hI : deckDropInv s t)
    (hrect : s.deckObj.rect = deckRefreshRect s.deckObj.rect s.deckObj.cards.length)
    (hc : getCard s cid = some c)
    (hcol : c.rect.colliderect s.deckObj.rect = true) :
    cid ∈ (handleDeckDropStep t (ObjRef.card cid)).2 := by
  obtain ⟨h1, h2, h3, h4, h5⟩ := hI
  have hg : getCard t.1 cid = some c := by
    unfold getCard at hc ⊢
    rw [h1]
    exact hc
  have hcol2 : c.rect.colliderect t.1.deckObj.rect = true := by
    rw [h3]
    refine colliderect_deckRefresh_mono c.rect s.deckObj.rect
      s.deckObj.cards.length _ (by omega) ?_
    rw [← hrect]
    exact hcol
  unfold handleDeckDropStep
  dsimp only
  rw [hg]
  dsimp only
  rw [if_pos hcol2]
  simp

theorem handleDeckDrop_objects (s : AppState) :
    (handleDeckDrop s).objects = (handleDeckDropAux s).1.objects := by
  unfold handleDeckDrop
  dsimp only
  split <;> rfl

theorem handleDeckDrop_cardStore (s : AppState) :
    (handleDeckDrop s).cardStore = (handleDeckDropAux s).1.cardStore := by
  unfold handleDeckDrop
  dsimp only
  split <;> rfl

/-- C10 counterexample: card 2 does not overlap the deck rect at drop time,
yet the drop removes it from the scene — sweeping card 1 first grows the deck
image by one pixel, which makes it reach card 2. -/
theorem deck_drop_counterexample :
    (getCard c10State 2).map (fun c => c.rect.colliderect c10State.deckObj.rect) =
      some false ∧
    ObjRef.card 2 ∈ c10State.objects ∧
    ObjRef.card 2 ∉ (handleDeckDrop c10State).objects := by
  with_unfolding_all decide

theorem refOf_eq_pairs (s : AppState) (cid : Nat) :
    refOf s cid = ((cardPairs s).find? (fun x => x.1 == cid)).map (·.2) := by
  unfold refOf getCard cardPairs
  rw [List.find?_map]
  rw [Option.map_map]
  rfl

theorem memsOf_eq_pairs (s : AppState) (a : Nat) :
    memsOf s a = ((heapPairs s).find? (fun x => x.1 == a)).map (·.2) := by
  unfold memsOf getAmarre heapPairs
  rw [List.find?_map]
  rw [Option.map_map]
  rfl

theorem cidKeys_eq_pairs (s : AppState) :
    s.cardStore.map (·.cid) = (cardPairs s).map (·.1) := by
  unfold cardPairs
  rw [List.map_map]
  rfl

theorem aidKeys_eq_pairs (s : AppState) :
    s.amarreHeap.map (·.aid) = (heapPairs s).map (·.1) := by
  unfold heapPairs
  rw [List.map_map]
  rfl

theorem refOf_congr (s1 s2 : AppState) (h : cardPairs s1 = cardPairs s2) (cid : Nat) :
    refOf s1 cid = refOf s2 cid := by
  rw [refOf_eq_pairs, refOf_eq_pairs, h]

theorem memsOf_congr (s1 s2 : AppState) (h : heapPairs s1 = heapPairs s2) (a : Nat) :
    memsOf s1 a = memsOf s2 a := by
  rw [memsOf_eq_pairs, memsOf_eq_pairs, h]

theorem storeWF_congr (s1 s2 : AppState) (h : invProj s1 = invProj s2)
    (hW : storeWF s1) : storeWF s2 := by
  have hc : cardPairs s1 = cardPairs s2 := congrArg (fun x => x.1) h
  have hg : heapPairs s1 = heapPairs s2 := congrArg (fun x => x.2.1) h
  have ha : s1.amarres = s2.amarres := congrArg (fun x => x.2.2) h
  obtain ⟨w1, w2, w3, w4, w5, w6, w7⟩ := hW
  refine ⟨?_, ?_, ?_, ?_, ?_, ?_, ?_⟩
  · rw [cidKeys_eq_pairs, ← hc, ← cidKeys_eq_pairs]
    exact w1
  · rw [aidKeys_eq_pairs, ← hg, ← aidKeys_eq_pairs]
    exact w2
  · intro cid a hr
    rw [← refOf_congr s1 s2 hc] at hr
    obtain ⟨ms, hm, hmem⟩ := w3 cid a hr
    exact ⟨ms, by rw [← memsOf_congr s1 s2 hg]; exact hm, hmem⟩
  · intro a ms hm cid hcm
    rw [← memsOf_congr s1 s2 hg] at hm
    rw [← refOf_congr s1 s2 hc]
    exact w4 a ms hm cid hcm
  · intro a ms hm
    rw [← memsOf_congr s1 s2 hg] at hm
    exact w5 a ms hm
  · intro a hmem
    rw [← ha] at hmem
    rw [← memsOf_congr s1 s2 hg]
    exact w6 a hmem
  · rw [← ha]
    exact w7

theorem amarreInv_congr (s1 s2 : AppState) (h : invProj s1 = invProj s2)
    (hI : amarreInv s1) : amarreInv s2 := by
  have hc : cardPairs s1 = cardPairs s2 := congrArg (fun x => x.1) h
  have hg : heapPairs s1 = heapPairs s2 := congrArg (fun x => x.2.1) h
  have ha : s1.amarres = s2.amarres := congrArg (fun x => x.2.2) h
  obtain ⟨hW, hS, hR⟩ := hI
  refine ⟨storeWF_congr s1 s2 h hW, ?_, ?_⟩
  · intro a hmem ms hm
    rw [← ha] at hmem
    rw [← memsOf_congr s1 s2 hg] at hm
    exact hS a hmem ms hm
  · intro cid a hr
    rw [← refOf_congr s1 s2 hc] at hr
    rw [← ha]
    exact hR cid a hr

theorem cardPairs_updateCard (s : AppState) (cid : Nat) (f : CardObj → CardObj)
    (hf : ∀ c, (f c).cid = c.cid ∧ (f c).amarre = c.amarre) :
    cardPairs (updateCard s cid f) = cardPairs s := by
  unfold cardPairs updateCard
  dsimp only
  rw [List.map_map]
  refine List.map_congr_left ?_
  intro c hc
  dsimp only [Function.comp]
  split
  · rw [(hf c).1, (hf c).2]
  · rfl

theorem invProj_updateCard (s : AppState) (cid : Nat) (f : CardObj → CardObj)
    (hf : ∀ c, (f c).cid = c.cid ∧ (f c).amarre = c.amarre) :
    invProj (updateCard s cid f) = invProj s := by
  unfold invProj
  rw [cardPairs_updateCard s cid f hf]
  rfl

theorem heapPairs_updateAmarre (s : AppState) (aid : Nat) (f : AmarreObj → AmarreObj)
    (hf : ∀ g, (f g).aid = g.aid ∧ (f g).cards = g.cards) :
    heapPairs (updateAmarre s aid f) = heapPairs s := by
  unfold heapPairs updateAmarre
  dsimp only
  rw [List.map_map]
  refine List.map_congr_left ?_
  intro g hg
  dsimp only [Function.comp]
  split
  · rw [(hf g).1, (hf g).2]
  · rfl

theorem invProj_updateAmarre (s : AppState) (aid : Nat) (f : AmarreObj → AmarreObj)
    (hf : ∀ g, (f g).aid = g.aid ∧ (f g).cards = g.cards) :
    invProj (updateAmarre s aid f) = invProj s := by
  unfold invProj
  rw [heapPairs_updateAmarre s aid f hf]
  rfl

theorem invProj_setCardScaleOp (s : AppState) (cid : Nat) (q : ℚ) :
    invProj (setCardScaleOp s cid q) = invProj s := by
  unfold setCardScaleOp
  exact invProj_updateCard s cid _ (fun c => ⟨rfl, rfl⟩)

theorem invProj_updateFromPrimaryOp (s : AppState) (aid : Nat) :
    invProj (updateFromPrimaryOp s aid) = invProj s := by
  unfold updateFromPrimaryOp
  cases getAmarre s aid with
  | none => rfl
  | some g =>
    dsimp only
    cases g.cards.head? with
    | none => rfl
    | some primary =>
      dsimp only
      cases getCard s primary with
      | none => rfl
      | some pc =>
        dsimp only
        refine foldlInvariant (fun t => invProj t = invProj s) _ _ _ ?_ ?_
        · exact invProj_updateAmarre s aid _ (fun g => ⟨rfl, rfl⟩)
        · intro t m _ ht
          dsimp only
          rw [invProj_updateCard, ht]
          intro c
          exact ⟨rfl, rfl⟩

theorem invProj_amarreMoveTo (s : AppState) (aid : Nat) (pos : Int × Int) :
    invProj (amarreMoveTo s aid pos) = invProj s := by
  unfold amarreMoveTo
  cases getAmarre s aid with
  | none => rfl
  | some g =>
    dsimp only
    refine foldlInvariant (fun t => invProj t = invProj s) _ _ _ ?_ ?_
    · exact invProj_updateAmarre s aid _ (fun g => ⟨rfl, rfl⟩)
    · intro t m _ ht
      dsimp only
      rw [invProj_updateCard, ht]
      intro c
      exact ⟨rfl, rfl⟩

theorem invProj_amarreSetScale (s : AppState) (aid : Nat) (q : ℚ) :
    invProj (amarreSetScale s aid q) = invProj s := by
  unfold amarreSetScale
  cases getAmarre s aid with
  | none => rfl
  | some g =>
    dsimp only
    rw [invProj_updateFromPrimaryOp]
    refine foldlInvariant (fun t => invProj t = invProj s) _ _ _ ?_ ?_
    · exact invProj_updateAmarre s aid _ (fun g => ⟨rfl, rfl⟩)
    · intro t m _ ht
      dsimp only
      rw [invProj_setCardScaleOp, ht]

theorem invProj_amarreBringToFront (s : AppState) (aid : Nat) :
    invProj (amarreBringToFront s aid) = invProj s := by
  unfold amarreBringToFront
  cases getAmarre s aid with
  | none => rfl
  | some g =>
    dsimp only
    refine foldlInvariant (fun t => invProj t = invProj s) _ _ _ rfl ?_
    intro t m _ ht
    dsimp only
    split
    · exact ht
    · exact ht

theorem memsOf_updateCard (s : AppState) (cid : Nat) (f : CardObj → CardObj) (a : Nat) :
    memsOf (updateCard s cid f) a = memsOf s a := rfl

theorem refOf_updateAmarre (s : AppState) (aid : Nat) (f : AmarreObj → AmarreObj)
    (c2 : Nat) : refOf (updateAmarre s aid f) c2 = refOf s c2 := rfl

theorem memsOf_updateAmarre (s : AppState) (aid : Nat) (f : AmarreObj → AmarreObj)
    (hf : ∀ g, (f g).aid = g.aid) (a : Nat) :
    memsOf (updateAmarre s aid f) a =
      if a = aid then (getAmarre s a).map (fun g => (f g).cards) else memsOf s a := by
  unfold memsOf
  rw [getAmarre_updateAmarre s aid a f hf]
  split
  · rw [Option.map_map]
    rfl
  · rfl

theorem refOf_updateCard (s : AppState) (cid : Nat) (f : CardObj → CardObj)
    (hf : ∀ c, (f c).cid = c.cid) (c2 : Nat) :
    refOf (updateCard s cid f) c2 =
      if c2 = cid then (getCard s c2).map (fun c => (f c).amarre) else refOf s c2 := by
  unfold refOf
  rw [getCard_updateCard s cid c2 f hf]
  split
  · rw [Option.map_map]
    rfl
  · rfl

theorem refOf_setCardScaleOp (s : AppState) (cid : Nat) (q : ℚ) (c2 : Nat) :
    refOf (setCardScaleOp s cid q) c2 = refOf s c2 :=
  refOf_congr _ s (congrArg (fun x => x.1) (invProj_setCardScaleOp s cid q)) c2

theorem memsOf_setCardScaleOp (s : AppState) (cid : Nat) (q : ℚ) (a : Nat) :
    memsOf (setCardScaleOp s cid q) a = memsOf s a :=
  memsOf_congr _ s (congrArg (fun x => x.2.1) (invProj_setCardScaleOp s cid q)) a

theorem cidKeys_updateCard (s : AppState) (cid : Nat) (f : CardObj → CardObj)
    (hf : ∀ c, (f c).cid = c.cid) :
    (updateCard s cid f).cardStore.map (·.cid) = s.cardStore.map (·.cid) := by
  unfold updateCard
  dsimp only
  rw [List.map_map]
  refine List.map_congr_left ?_
  intro c hc
  dsimp only [Function.comp]
  split
  · exact hf c
  · rfl

theorem aidKeys_updateAmarre (s : AppState) (aid : Nat) (f : AmarreObj → AmarreObj)
    (hf : ∀ g, (f g).aid = g.aid) :
    (updateAmarre s aid f).amarreHeap.map (·.aid) = s.amarreHeap.map (·.aid) := by
  unfold updateAmarre
  dsimp only
  rw [List.map_map]
  refine List.map_congr_left ?_
  intro g hg
  dsimp only [Function.comp]
  split
  · exact hf g
  · rfl

theorem refOf_isSome_of_ref (s : AppState) (W : storeWF s) (a : Nat) (ms : List Nat)
    (hms : memsOf s a = some ms) (cid : Nat) (hc : cid ∈ ms) :
    refOf s cid = some (some a) :=
  W.2.2.2.1 a ms hms cid hc

theorem getCard_isSome_of_refOf (s : AppState) (cid : Nat) (v : Option Nat)
    (h : refOf s cid = some v) : ∃ c, getCard s cid = some c ∧ c.amarre = v := by
  unfold refOf at h
  cases hg : getCard s cid with
  | none => rw [hg] at h; simp at h
  | some c =>
    rw [hg] at h
    simp only [Option.map_some', Option.some.injEq] at h
    exact ⟨c, rfl, h⟩

theorem storeWF_detachMembers (s s' : AppState) (aid : Nat) (cleared newms ms : List Nat)
    (W : storeWF s) (hms : memsOf s aid = some ms)
    (hkeysC : s'.cardStore.map (·.cid) = s.cardStore.map (·.cid))
    (hkeysA : s'.amarreHeap.map (·.aid) = s.amarreHeap.map (·.aid))
    (hamarres : s'.amarres = s.amarres)
    (hmem' : memsOf s' aid = some newms)
    (hmemsO : ∀ a, a ≠ aid → memsOf s' a = memsOf s a)
    (hrefC : ∀ c2 ∈ cleared, refOf s' c2 = some none)
    (hrefO : ∀ c2, c2 ∉ cleared → refOf s' c2 = refOf s c2)
    (hcl_sub : ∀ c2 ∈ cleared, c2 ∈ ms)
    (hnew_sub : ∀ c2 ∈ newms, c2 ∈ ms) (hnew_nd : newms.Nodup)
    (hdisj : ∀ c2 ∈ cleared, c2 ∉ newms)
    (hcover : ∀ c2 ∈ ms, c2 ∈ newms ∨ c2 ∈ cleared) :
    storeWF s' := by
  obtain ⟨w1, w2, w3, w4, w5, w6, w7⟩ := W
  refine ⟨by rw [hkeysC]; exact w1, by rw [hkeysA]; exact w2, ?_, ?_, ?_, ?_,
    by rw [hamarres]; exact w7⟩
  · intro c2 a hr
    by_cases hcl : c2 ∈ cleared
    · rw [hrefC c2 hcl] at hr
      simp at hr
    · rw [hrefO c2 hcl] at hr
      obtain ⟨msA, hmsA, hcm⟩ := w3 c2 a hr
      by_cases haid : a = aid
      · subst haid
        rw [hms] at hmsA
        cases hmsA
        rcases hcover c2 hcm with h | h
        · exact ⟨newms, hmem', h⟩
        · exact absurd h hcl
      · exact ⟨msA, by rw [hmemsO a haid]; exact hmsA, hcm⟩
  · intro a msA hmsA c2 hcm
    by_cases haid : a = aid
    · subst haid
      rw [hmem'] at hmsA
      cases hmsA
      have hnc : c2 ∉ cleared := fun hc => hdisj c2 hc hcm
      rw [hrefO c2 hnc]
      exact w4 _ ms hms c2 (hnew_sub c2 hcm)
    · rw [hmemsO a haid] at hmsA
      have hold := w4 a msA hmsA c2 hcm
      have hnc : c2 ∉ cleared := by
        intro hc
        have h2 := w4 _ ms hms c2 (hcl_sub c2 hc)
        rw [hold] at h2
        simp only [Option.some.injEq] at h2
        omega
      rw [hrefO c2 hnc]
      exact hold
  · intro a msA hmsA
    by_cases haid : a = aid
    · subst haid
      rw [hmem'] at hmsA
      cases hmsA
      exact hnew_nd
    · rw [hmemsO a haid] at hmsA
      exact w5 a msA hmsA
  · intro a hmemA
    rw [hamarres] at hmemA
    by_cases haid : a = aid
    · subst haid
      rw [hmem']
      simp
    · rw [hmemsO a haid]
      exact w6 a hmemA

theorem storeWF_addMember (s s' : AppState) (aid cid : Nat) (ms : List Nat)
    (W : storeWF s) (hms : memsOf s aid = some ms)
    (hrefnone : refOf s cid = some none)
    (hkeysC : s'.cardStore.map (·.cid) = s.cardStore.map (·.cid))
    (hkeysA : s'.amarreHeap.map (·.aid) = s.amarreHeap.map (·.aid))
    (hamarres : s'.amarres = s.amarres)
    (hmem' : memsOf s' aid = some (ms ++ [cid]))
    (hmemsO : ∀ a, a ≠ aid → memsOf s' a = memsOf s a)
    (hrefcid : refOf s' cid = some (some aid))
    (hrefO : ∀ c2, c2 ≠ cid → refOf s' c2 = refOf s c2) :
    storeWF s' := by
  obtain ⟨w1, w2, w3, w4, w5, w6, w7⟩ := W
  have hnotmem : ∀ a msA, memsOf s a = some msA → cid ∉ msA := by
    intro a msA hmsA hc
    have := w4 a msA hmsA cid hc
    rw [hrefnone] at this
    simp at this
  refine ⟨by rw [hkeysC]; exact w1, by rw [hkeysA]; exact w2, ?_, ?_, ?_, ?_,
    by rw [hamarres]; exact w7⟩
  · intro c2 a hr
    by_cases hc2 : c2 = cid
    · subst hc2
      rw [hrefcid] at hr
      simp only [Option.some.injEq] at hr
      cases hr
      exact ⟨_, hmem', by simp⟩
    · rw [hrefO c2 hc2] at hr
      obtain ⟨msA, hmsA, hcm⟩ := w3 c2 a hr
      by_cases haid : a = aid
      · subst haid
        rw [hms] at hmsA
        cases hmsA
        exact ⟨ms ++ [cid], hmem', by simp [hcm]⟩
      · exact ⟨msA, by rw [hmemsO a haid]; exact hmsA, hcm⟩
  · intro a msA hmsA c2 hcm
    by_cases haid : a = aid
    · subst haid
      rw [hmem'] at hmsA
      cases hmsA
      rcases List.mem_append.mp hcm with h | h
      · have hc2 : c2 ≠ cid := fun he => hnotmem _ ms hms (he ▸ h)
        rw [hrefO c2 hc2]
        exact w4 _ ms hms c2 h
      · simp only [List.mem_singleton] at h
        subst h
        exact hrefcid
    · rw [hmemsO a haid] at hmsA
      have hc2 : c2 ≠ cid := fun he => hnotmem a msA hmsA (he ▸ hcm)
      rw [hrefO c2 hc2]
      exact w4 a msA hmsA c2 hcm
  · intro a msA hmsA
    by_cases haid : a = aid
    · subst haid
      rw [hmem'] at hmsA
      cases hmsA
      have hnd := w5 _ ms hms
      have hcm : cid ∉ ms := hnotmem _ ms hms
      simp [List.nodup_append, hnd, hcm]
    · rw [hmemsO a haid] at hmsA
      exact w5 a msA hmsA
  · intro a hmemA
    rw [hamarres] at hmemA
    by_cases haid : a = aid
    · subst haid
      rw [hmem']
      simp
    · rw [hmemsO a haid]
      exact w6 a hmemA

theorem nodup_not_mem_erase {α : Type} [DecidableEq α] (l : List α) (h : l.Nodup)
    (a : α) : a ∉ l.erase a := by
  refine not_mem_erase_of_count_le_one a l ?_
  rw [List.nodup_iff_count_le_one] at h
  exact h a

theorem amarreRemoveCard_spec (s : AppState) (aid cid : Nat) (W : storeWF s) :
    storeWF (amarreRemoveCard s aid cid).1 ∧
    (amarreRemoveCard s aid cid).1.amarres = s.amarres ∧
    (∀ a, a ≠ aid → memsOf (amarreRemoveCard s aid cid).1 a = memsOf s a) ∧
    (∀ c2, refOf (amarreRemoveCard s aid cid).1 c2 = refOf s c2 ∨
      refOf (amarreRemoveCard s aid cid).1 c2 = some none) ∧
    ((amarreRemoveCard s aid cid).1.cardStore.map (·.cid) = s.cardStore.map (·.cid)) ∧
    ((amarreRemoveCard s aid cid).1.amarreHeap.map (·.aid) = s.amarreHeap.map (·.aid)) ∧
    (∀ ms, memsOf s aid = some ms → cid ∈ ms →
      (memsOf (amarreRemoveCard s aid cid).1 aid =
        some (if (ms.erase cid).length ≤ 1 then [] else ms.erase cid) ∧
       refOf (amarreRemoveCard s aid cid).1 cid = some none ∧
       (∀ r, ms.erase cid = [r] → refOf (amarreRemoveCard s aid cid).1 r = some none) ∧
       ((amarreRemoveCard s aid cid).2 = true ↔ (ms.erase cid).length ≤ 1))) ∧
    (memsOf s aid = none → amarreRemoveCard s aid cid = (s, false)) ∧
    (∀ ms, memsOf s aid = some ms → cid ∉ ms → amarreRemoveCard s aid cid = (s, false)) := by
  unfold amarreRemoveCard
  cases hg : getAmarre s aid with
  | none =>
    have hmn : memsOf s aid = none := by
      unfold memsOf
      rw [hg]
      rfl
    refine ⟨W, rfl, fun a _ => rfl, fun c2 => Or.inl rfl, rfl, rfl, ?_, ?_, ?_⟩
    · intro ms hms
      rw [hmn] at hms
      cases hms
    · intro _
      rfl
    · intro ms hms
      rw [hmn] at hms
      cases hms
  | some g =>
    dsimp only
    have hmg : memsOf s aid = some g.cards := by
      unfold memsOf
      rw [hg]
      rfl
    by_cases hmem : cid ∈ g.cards
    · rw [if_pos hmem]
      have hndms : g.cards.Nodup := W.2.2.2.2.1 aid g.cards hmg
      have hcidnotin : cid ∉ g.cards.erase cid := nodup_not_mem_erase g.cards hndms cid
      have hcref : refOf s cid = some (some aid) := W.2.2.2.1 aid g.cards hmg cid hmem
      obtain ⟨c0, hc0, hc0a⟩ := getCard_isSome_of_refOf s cid _ hcref
      have hF1 : getAmarre (setCardScaleOp (updateCard (updateAmarre s aid fun g2 => { g2 with cards := g2.cards.erase cid }) cid fun c => { c with amarre := none }) cid 1) aid = some { g with cards := g.cards.erase cid } := by
        show getAmarre (updateAmarre s aid fun g2 => { g2 with cards := g2.cards.erase cid }) aid = _
        rw [getAmarre_updateAmarre, if_pos rfl, hg]
        rfl
        intro g2
        rfl
      have hF2 : ∀ a, a ≠ aid → memsOf (setCardScaleOp (updateCard (updateAmarre s aid fun g2 => { g2 with cards := g2.cards.erase cid }) cid fun c => { c with amarre := none }) cid 1) a = memsOf s a := by
        intro a ha
        rw [memsOf_setCardScaleOp, memsOf_updateCard, memsOf_updateAmarre, if_neg ha]
        intro g2
        rfl
      have hF3 : memsOf (setCardScaleOp (updateCard (updateAmarre s aid fun g2 => { g2 with cards := g2.cards.erase cid }) cid fun c => { c with amarre := none }) cid 1) aid = some (g.cards.erase cid) := by
        unfold memsOf
        rw [hF1]
        rfl
      have hF4 : refOf (setCardScaleOp (updateCard (updateAmarre s aid fun g2 => { g2 with cards := g2.cards.erase cid }) cid fun c => { c with amarre := none }) cid 1) cid = some none := by
        rw [refOf_setCardScaleOp, refOf_updateCard, if_pos rfl, getCard_updateAmarre, hc0]
        rfl
        intro c
        rfl
      have hF5 : ∀ c2, c2 ≠ cid → refOf (setCardScaleOp (updateCard (updateAmarre s aid fun g2 => { g2 with cards := g2.cards.erase cid }) cid fun c => { c with amarre := none }) cid 1) c2 = refOf s c2 := by
        intro c2 hne
        rw [refOf_setCardScaleOp, refOf_updateCard, if_neg hne, refOf_updateAmarre]
        intro c
        rfl
      have hK1 : (setCardScaleOp (updateCard (updateAmarre s aid fun g2 => { g2 with cards := g2.cards.erase cid }) cid fun c => { c with amarre := none }) cid 1).cardStore.map (·.cid) = s.cardStore.map (·.cid) := by
        unfold setCardScaleOp
        rw [cidKeys_updateCard, cidKeys_updateCard]
        rfl
        intro c
        rfl
        intro c
        rfl
      have hK2 : (setCardScaleOp (updateCard (updateAmarre s aid fun g2 => { g2 with cards := g2.cards.erase cid }) cid fun c => { c with amarre := none }) cid 1).amarreHeap.map (·.aid) = s.amarreHeap.map (·.aid) := by
        show (updateAmarre s aid fun g2 => { g2 with cards := g2.cards.erase cid }).amarreHeap.map (·.aid) = _
        rw [aidKeys_updateAmarre]
        intro g2
        rfl
      rw [hF1]
      dsimp only
      cases herase : g.cards.erase cid with
      | nil =>
        dsimp only
        rw [herase] at hF3
        have hsub : ∀ x ∈ g.cards, x = cid := by
          intro x hx
          by_cases hxc : x = cid
          · exact hxc
          · exfalso
            have hxe : x ∈ g.cards.erase cid := (List.mem_erase_of_ne hxc).mpr hx
            rw [herase] at hxe
            cases hxe
        refine ⟨?_, rfl, hF2, ?_, hK1, hK2, ?_, ?_, ?_⟩
        · refine storeWF_detachMembers s _ aid [cid] [] g.cards W hmg hK1 hK2 rfl hF3 hF2
            ?_ ?_ ?_ ?_ List.nodup_nil ?_ ?_
          · intro c2 hc2
            rw [List.mem_singleton] at hc2
            rw [hc2]
            exact hF4
          · intro c2 hc2
            exact hF5 c2 (fun h => hc2 (by rw [h]; exact List.mem_singleton_self cid))
          · intro c2 hc2
            rw [List.mem_singleton] at hc2
            rw [hc2]
            exact hmem
          · intro c2 hc2
            cases hc2
          · intro c2 _
            exact List.not_mem_nil c2
          · intro c2 hc2
            exact Or.inr (List.mem_singleton.mpr (hsub c2 hc2))
        · intro c2
          by_cases h : c2 = cid
          · rw [h]
            exact Or.inr hF4
          · exact Or.inl (hF5 c2 h)
        · intro ms0 hms0 _
          rw [hmg] at hms0
          cases hms0
          rw [herase]
          refine ⟨by rw [if_pos (by simp)]; exact hF3, hF4, ?_, by simp⟩
          intro r hr
          cases hr
        · intro h
          exact absurd (hmg.symm.trans h) (by simp)
        · intro ms0 hms0 hno
          rw [hmg] at hms0
          cases hms0
          exact absurd hmem hno
      | cons r rest =>
        cases rest with
        | nil =>
          dsimp only
          have hrin : r ∈ g.cards.erase cid := by
            rw [herase]
            exact List.mem_singleton_self r
          have hrne : r ≠ cid := fun he => hcidnotin (by rw [he] at hrin; exact hrin)
          have hrmem : r ∈ g.cards := List.erase_subset _ _ hrin
          have hrref : refOf s r = some (some aid) := W.2.2.2.1 aid g.cards hmg r hrmem
          have hrref3 : refOf (setCardScaleOp (updateCard (updateAmarre s aid fun g2 => { g2 with cards := g2.cards.erase cid }) cid fun c => { c with amarre := none }) cid 1) r = some (some aid) := by
            rw [hF5 r hrne]
            exact hrref
          obtain ⟨c1, hc1, hc1a⟩ := getCard_isSome_of_refOf _ r _ hrref3
          have hga5 : getAmarre (setCardScaleOp (updateCard (setCardScaleOp (updateCard (updateAmarre s aid fun g2 => { g2 with cards := g2.cards.erase cid }) cid fun c => { c with amarre := none }) cid 1) r fun c => { c with amarre := none }) r 1) aid = some { g with cards := g.cards.erase cid } := hF1
          have hG2 : ∀ a, a ≠ aid → memsOf (updateAmarre (setCardScaleOp (updateCard (setCardScaleOp (updateCard (updateAmarre s aid fun g2 => { g2 with cards := g2.cards.erase cid }) cid fun c => { c with amarre := none }) cid 1) r fun c => { c with amarre := none }) r 1) aid fun g3 => { g3 with cards := [] }) a = memsOf s a := by
            intro a ha
            rw [memsOf_updateAmarre, if_neg ha, memsOf_setCardScaleOp, memsOf_updateCard,
              hF2 a ha]
            intro g3
            rfl
          have hG3 : memsOf (updateAmarre (setCardScaleOp (updateCard (setCardScaleOp (updateCard (updateAmarre s aid fun g2 => { g2 with cards := g2.cards.erase cid }) cid fun c => { c with amarre := none }) cid 1) r fun c => { c with amarre := none }) r 1) aid fun g3 => { g3 with cards := [] }) aid = some [] := by
            unfold memsOf
            rw [getAmarre_updateAmarre, if_pos rfl, hga5]
            rfl
            intro g3
            rfl
          have hG4cid : refOf (updateAmarre (setCardScaleOp (updateCard (setCardScaleOp (updateCard (updateAmarre s aid fun g2 => { g2 with cards := g2.cards.erase cid }) cid fun c => { c with amarre := none }) cid 1) r fun c => { c with amarre := none }) r 1) aid fun g3 => { g3 with cards := [] }) cid = some none := by
            rw [refOf_updateAmarre, refOf_setCardScaleOp, refOf_updateCard,
              if_neg (fun he => hrne he.symm)]
            exact hF4
            intro c
            rfl
          have hG4r : refOf (updateAmarre (setCardScaleOp (updateCard (setCardScaleOp (updateCard (updateAmarre s aid fun g2 => { g2 with cards := g2.cards.erase cid }) cid fun c => { c with amarre := none }) cid 1) r fun c => { c with amarre := none }) r 1) aid fun g3 => { g3 with cards := [] }) r = some none := by
            rw [refOf_updateAmarre, refOf_setCardScaleOp, refOf_updateCard, if_pos rfl, hc1]
            rfl
            intro c
            rfl
          have hG5 : ∀ c2, c2 ∉ [cid, r] → refOf (updateAmarre (setCardScaleOp (updateCard (setCardScaleOp (updateCard (updateAmarre s aid fun g2 => { g2 with cards := g2.cards.erase cid }) cid fun c => { c with amarre := none }) cid 1) r fun c => { c with amarre := none }) r 1) aid fun g3 => { g3 with cards := [] }) c2 = refOf s c2 := by
            intro c2 hc2
            have h1 : c2 ≠ cid := fun h => hc2 (by rw [h]; simp)
            have h2 : c2 ≠ r := fun h => hc2 (by rw [h]; simp)
            rw [refOf_updateAmarre, refOf_setCardScaleOp, refOf_updateCard, if_neg h2]
            exact hF5 c2 h1
            intro c
            rfl
          have hGK1 : (updateAmarre (setCardScaleOp (updateCard (setCardScaleOp (updateCard (updateAmarre s aid fun g2 => { g2 with cards := g2.cards.erase cid }) cid fun c => { c with amarre := none }) cid 1) r fun c => { c with amarre := none }) r 1) aid fun g3 => { g3 with cards := [] }).cardStore.map (·.cid) = s.cardStore.map (·.cid) := by
            show (setCardScaleOp (updateCard (setCardScaleOp (updateCard (updateAmarre s aid fun g2 => { g2 with cards := g2.cards.erase cid }) cid fun c => { c with amarre := none }) cid 1) r fun c => { c with amarre := none }) r 1).cardStore.map (·.cid) = _
            unfold setCardScaleOp
            rw [cidKeys_updateCard, cidKeys_updateCard]
            exact hK1
            intro c
            rfl
            intro c
            rfl
          have hGK2 : (updateAmarre (setCardScaleOp (updateCard (setCardScaleOp (updateCard (updateAmarre s aid fun g2 => { g2 with cards := g2.cards.erase cid }) cid fun c => { c with amarre := none }) cid 1) r fun c => { c with amarre := none }) r 1) aid fun g3 => { g3 with cards := [] }).amarreHeap.map (·.aid) = s.amarreHeap.map (·.aid) := by
            rw [aidKeys_updateAmarre]
            exact hK2
            intro g3
            rfl
          refine ⟨?_, rfl, hG2, ?_, hGK1, hGK2, ?_, ?_, ?_⟩
          · refine storeWF_detachMembers s _ aid [cid, r] [] g.cards W hmg hGK1 hGK2 rfl
              hG3 hG2 ?_ hG5 ?_ ?_ List.nodup_nil ?_ ?_
            · intro c2 hc2
              rcases List.mem_cons.mp hc2 with h | h
              · rw [h]
                exact hG4cid
              · rw [List.mem_singleton] at h
                rw [h]
                exact hG4r
            · intro c2 hc2
              rcases List.mem_cons.mp hc2 with h | h
              · rw [h]
                exact hmem
              · rw [List.mem_singleton] at h
                rw [h]
                exact hrmem
            · intro c2 hc2
              cases hc2
            · intro c2 _
              exact List.not_mem_nil c2
            · intro c2 hc2
              by_cases h : c2 = cid
              · exact Or.inr (by rw [h]; simp)
              · have : c2 ∈ g.cards.erase cid := (List.mem_erase_of_ne h).mpr hc2
                rw [herase] at this
                rw [List.mem_singleton] at this
                exact Or.inr (by rw [this]; simp)
          · intro c2
            by_cases h1 : c2 = cid
            · exact Or.inr (by rw [h1]; exact hG4cid)
            · by_cases h2 : c2 = r
              · exact Or.inr (by rw [h2]; exact hG4r)
              · refine Or.inl (hG5 c2 ?_)
                intro hc2
                rcases List.mem_cons.mp hc2 with h | h
                · exact h1 h
                · rw [List.mem_singleton] at h
                  exact h2 h
          · intro ms0 hms0 _
            rw [hmg] at hms0
            cases hms0
            rw [herase]
            refine ⟨by rw [if_pos (by simp)]; exact hG3, hG4cid, ?_, by simp⟩
            intro r2 hr2
            rw [List.cons.injEq] at hr2
            rw [← hr2.1]
            exact hG4r
          · intro h
            exact absurd (hmg.symm.trans h) (by simp)
          · intro ms0 hms0 hno
            rw [hmg] at hms0
            cases hms0
            exact absurd hmem hno
        | cons r2 rest2 =>
          dsimp only
          have hinv := invProj_updateFromPrimaryOp (setCardScaleOp (updateCard (updateAmarre s aid fun g2 => { g2 with cards := g2.cards.erase cid }) cid fun c => { c with amarre := none }) cid 1) aid
          have hcp : cardPairs (updateFromPrimaryOp (setCardScaleOp (updateCard (updateAmarre s aid fun g2 => { g2 with cards := g2.cards.erase cid }) cid fun c => { c with amarre := none }) cid 1) aid) = cardPairs (setCardScaleOp (updateCard (updateAmarre s aid fun g2 => { g2 with cards := g2.cards.erase cid }) cid fun c => { c with amarre := none }) cid 1) :=
            congrArg (fun x => x.1) hinv
          have hhp : heapPairs (updateFromPrimaryOp (setCardScaleOp (updateCard (updateAmarre s aid fun g2 => { g2 with cards := g2.cards.erase cid }) cid fun c => { c with amarre := none }) cid 1) aid) = heapPairs (setCardScaleOp (updateCard (updateAmarre s aid fun g2 => { g2 with cards := g2.cards.erase cid }) cid fun c => { c with amarre := none }) cid 1) :=
            congrArg (fun x => x.2.1) hinv
          have hap : (updateFromPrimaryOp (setCardScaleOp (updateCard (updateAmarre s aid fun g2 => { g2 with cards := g2.cards.erase cid }) cid fun c => { c with amarre := none }) cid 1) aid).amarres = (setCardScaleOp (updateCard (updateAmarre s aid fun g2 => { g2 with cards := g2.cards.erase cid }) cid fun c => { c with amarre := none }) cid 1).amarres :=
            congrArg (fun x => x.2.2) hinv
          have hUm : ∀ a, memsOf (updateFromPrimaryOp (setCardScaleOp (updateCard (updateAmarre s aid fun g2 => { g2 with cards := g2.cards.erase cid }) cid fun c => { c with amarre := none }) cid 1) aid) a = memsOf (setCardScaleOp (updateCard (updateAmarre s aid fun g2 => { g2 with cards := g2.cards.erase cid }) cid fun c => { c with amarre := none }) cid 1) a :=
            memsOf_congr _ _ hhp
          have hUr : ∀ c2, refOf (updateFromPrimaryOp (setCardScaleOp (updateCard (updateAmarre s aid fun g2 => { g2 with cards := g2.cards.erase cid }) cid fun c => { c with amarre := none }) cid 1) aid) c2 = refOf (setCardScaleOp (updateCard (updateAmarre s aid fun g2 => { g2 with cards := g2.cards.erase cid }) cid fun c => { c with amarre := none }) cid 1) c2 :=
            refOf_congr _ _ hcp
          have hUK1 : (updateFromPrimaryOp (setCardScaleOp (updateCard (updateAmarre s aid fun g2 => { g2 with cards := g2.cards.erase cid }) cid fun c => { c with amarre := none }) cid 1) aid).cardStore.map (·.cid) =
              s.cardStore.map (·.cid) := by
            rw [cidKeys_eq_pairs, hcp, ← cidKeys_eq_pairs]
            exact hK1
          have hUK2 : (updateFromPrimaryOp (setCardScaleOp (updateCard (updateAmarre s aid fun g2 => { g2 with cards := g2.cards.erase cid }) cid fun c => { c with amarre := none }) cid 1) aid).amarreHeap.map (·.aid) =
              s.amarreHeap.map (·.aid) := by
            rw [aidKeys_eq_pairs, hhp, ← aidKeys_eq_pairs]
            exact hK2
          have hlong : ¬ (g.cards.erase cid).length ≤ 1 := by
            rw [herase]
            simp
          refine ⟨?_, hap, ?_, ?_, hUK1, hUK2, ?_, ?_, ?_⟩
          · refine storeWF_detachMembers s _ aid [cid] (g.cards.erase cid) g.cards W hmg
              hUK1 hUK2 hap ?_ ?_ ?_ ?_ ?_ ?_ (hndms.erase cid) ?_ ?_
            · rw [hUm aid]
              exact hF3
            · intro a ha
              rw [hUm a]
              exact hF2 a ha
            · intro c2 hc2
              rw [List.mem_singleton] at hc2
              rw [hc2, hUr]
              exact hF4
            · intro c2 hc2
              rw [hUr]
              exact hF5 c2 (fun h => hc2 (by rw [h]; exact List.mem_singleton_self cid))
            · intro c2 hc2
              rw [List.mem_singleton] at hc2
              rw [hc2]
              exact hmem
            · intro c2 hc2
              exact List.erase_subset _ _ hc2
            · intro c2 hc2
              rw [List.mem_singleton] at hc2
              rw [hc2]
              exact hcidnotin
            · intro c2 hc2
              by_cases h : c2 = cid
              · exact Or.inr (by rw [h]; exact List.mem_singleton_self cid)
              · exact Or.inl ((List.mem_erase_of_ne h).mpr hc2)
          · intro a ha
            rw [hUm a]
            exact hF2 a ha
          · intro c2
            by_cases h : c2 = cid
            · refine Or.inr ?_
              rw [h, hUr]
              exact hF4
            · refine Or.inl ?_
              rw [hUr]
              exact hF5 c2 h
          · intro ms0 hms0 _
            rw [hmg] at hms0
            cases hms0
            refine ⟨by rw [if_neg hlong, hUm aid]; exact hF3, by rw [hUr]; exact hF4, ?_, by simp [hlong]⟩
            intro r3 hr3
            rw [herase] at hr3
            cases hr3
          · intro h
            exact absurd (hmg.symm.trans h) (by simp)
          · intro ms0 hms0 hno
            rw [hmg] at hms0
            cases hms0
            exact absurd hmem hno
    · rw [if_neg hmem]
      refine ⟨W, rfl, fun a _ => rfl, fun c2 => Or.inl rfl, rfl, rfl, ?_, ?_, fun _ _ _ => rfl⟩
      · intro ms hms hc
        rw [hmg] at hms
        cases hms
        exact absurd hc hmem
      · intro hmn
        rw [hmg] at hmn

theorem removeAmarre_fold_spec (s : AppState) (aid : Nat) :
    ∀ (l : List Nat) (t : AppState),
    storeWF t →
    (∀ c2, refOf t c2 = refOf s c2 ∨ refOf t c2 = some none) →
    (∀ a, a ≠ aid → memsOf t a = memsOf s a) →
    (∀ c2, refOf t c2 = some (some aid) → c2 ∈ l) →
    t.cardStore.map (·.cid) = s.cardStore.map (·.cid) →
    t.amarreHeap.map (·.aid) = s.amarreHeap.map (·.aid) →
    t.amarres = s.amarres.erase aid →
    storeWF (l.foldl (fun t2 m => (amarreRemoveCard t2 aid m).1) t) ∧
    (l.foldl (fun t2 m => (amarreRemoveCard t2 aid m).1) t).amarres = s.amarres.erase aid ∧
    (∀ a, a ≠ aid → memsOf (l.foldl (fun t2 m => (amarreRemoveCard t2 aid m).1) t) a = memsOf s a) ∧
    (∀ c2, refOf (l.foldl (fun t2 m => (amarreRemoveCard t2 aid m).1) t) c2 = refOf s c2 ∨ refOf (l.foldl (fun t2 m => (amarreRemoveCard t2 aid m).1) t) c2 = some none) ∧
    (∀ c2, refOf (l.foldl (fun t2 m => (amarreRemoveCard t2 aid m).1) t) c2 ≠ some (some aid)) ∧
    (l.foldl (fun t2 m => (amarreRemoveCard t2 aid m).1) t).cardStore.map (·.cid) = s.cardStore.map (·.cid) ∧
    (l.foldl (fun t2 m => (amarreRemoveCard t2 aid m).1) t).amarreHeap.map (·.aid) = s.amarreHeap.map (·.aid)
  | [], t => by
    intro hW href hmems hrefl hk1 hk2 ham
    refine ⟨hW, ham, hmems, href, ?_, hk1, hk2⟩
    intro c2 hc2
    cases hrefl c2 hc2
  | m :: l, t => by
    intro hW href hmems hrefl hk1 hk2 ham
    rw [List.foldl_cons]
    obtain ⟨c1, c2f, c3f, c4f, c5f, c6f, c7f, c8f, c9f⟩ := amarreRemoveCard_spec t aid m hW
    refine removeAmarre_fold_spec s aid l (amarreRemoveCard t aid m).1 c1 ?_ ?_ ?_ ?_ ?_ ?_
    · intro c2
      rcases c4f c2 with h | h
      · rw [h]
        exact href c2
      · exact Or.inr h
    · intro a ha
      rw [c3f a ha]
      exact hmems a ha
    · intro c2 hc2
      have hold : refOf t c2 = some (some aid) := by
        rcases c4f c2 with h | h
        · rw [← h]
          exact hc2
        · rw [h] at hc2
          simp at hc2
      have hmem2 := hrefl c2 hold
      rcases List.mem_cons.mp hmem2 with h | h
      · exfalso
        rw [h] at hold
        cases hmm : memsOf t aid with
        | none =>
          obtain ⟨msx, hmsx, _⟩ := hW.2.2.1 m aid hold
          rw [hmm] at hmsx
          cases hmsx
        | some ms =>
          obtain ⟨msx, hmsx, hmin⟩ := hW.2.2.1 m aid hold
          rw [hmm] at hmsx
          cases hmsx
          obtain ⟨_, hrm, _, _⟩ := c7f _ hmm hmin
          rw [h] at hc2
          rw [hc2] at hrm
          cases hrm
      · exact h
    · rw [c5f]
      exact hk1
    · rw [c6f]
      exact hk2
    · rw [c2f]
      exact ham

theorem mems_nil_of_no_refs (s : AppState) (W : storeWF s) (aid : Nat)
    (h : ∀ c2, refOf s c2 ≠ some (some aid)) :
    ∀ ms, memsOf s aid = some ms → ms = [] := by
  intro ms hms
  cases ms with
  | nil => rfl
  | cons x xs => exact absurd (W.2.2.2.1 aid _ hms x (by simp)) (h x)

theorem removeAmarreOp_spec (s : AppState) (aid : Nat) (W : storeWF s) :
    storeWF (removeAmarreOp s aid) ∧
    (removeAmarreOp s aid).amarres = s.amarres.erase aid ∧
    (∀ a, a ≠ aid → memsOf (removeAmarreOp s aid) a = memsOf s a) ∧
    (∀ c2, refOf (removeAmarreOp s aid) c2 = refOf s c2 ∨
      refOf (removeAmarreOp s aid) c2 = some none) ∧
    (∀ c2, refOf (removeAmarreOp s aid) c2 ≠ some (some aid)) ∧
    (removeAmarreOp s aid).cardStore.map (·.cid) = s.cardStore.map (·.cid) ∧
    (removeAmarreOp s aid).amarreHeap.map (·.aid) = s.amarreHeap.map (·.aid) := by
  unfold removeAmarreOp
  dsimp only
  have hW1 : storeWF { s with amarres := s.amarres.erase aid } := by
    obtain ⟨w1, w2, w3, w4, w5, w6, w7⟩ := W
    exact ⟨w1, w2, w3, w4, w5, fun a ha => w6 a (List.mem_of_mem_erase ha), w7.erase aid⟩
  cases hg : getAmarre { s with amarres := s.amarres.erase aid } aid with
  | none =>
    dsimp only
    have hmn : memsOf s aid = none := by
      unfold memsOf
      rw [show getAmarre s aid = none from hg]
      rfl
    refine ⟨hW1, rfl, fun a _ => rfl, fun c2 => Or.inl rfl, ?_, rfl, rfl⟩
    intro c2 hc2
    obtain ⟨ms, hms, _⟩ := W.2.2.1 c2 aid hc2
    rw [hmn] at hms
    cases hms
  | some g =>
    dsimp only
    have hmg : memsOf s aid = some g.cards := by
      unfold memsOf
      rw [show getAmarre s aid = some g from hg]
      rfl
    exact removeAmarre_fold_spec s aid g.cards { s with amarres := s.amarres.erase aid }
      hW1 (fun c2 => Or.inl rfl) (fun a _ => rfl)
      (fun c2 hc2 => by
        obtain ⟨ms, hms, hc⟩ := W.2.2.1 c2 aid hc2
        rw [hmg] at hms
        cases hms
        exact hc)
      rfl rfl rfl

theorem amarreInv_removeAmarreOp (s : AppState) (aid : Nat) (h : amarreInv s) :
    amarreInv (removeAmarreOp s aid) := by
  obtain ⟨W, hS, hR⟩ := h
  obtain ⟨r1, r2, r3, r4, r5, r6, r7⟩ := removeAmarreOp_spec s aid W
  refine ⟨r1, ?_, ?_⟩
  · intro a ha ms hms
    rw [r2] at ha
    have hane : a ≠ aid := by
      intro he
      rw [he] at ha
      exact nodup_not_mem_erase s.amarres W.2.2.2.2.2.2 aid ha
    rw [r3 a hane] at hms
    exact hS a (List.mem_of_mem_erase ha) ms hms
  · intro c2 a hr
    have hane : a ≠ aid := by
      intro he
      rw [he] at hr
      exact r5 c2 hr
    have hold : refOf s c2 = some (some a) := by
      rcases r4 c2 with h2 | h2
      · rw [← h2]
        exact hr
      · rw [h2] at hr
        simp at hr
    rw [r2]
    exact (List.mem_erase_of_ne hane).mpr (hR c2 a hold)

theorem amarreInv_detachCardFromAmarre (s : AppState) (cid : Nat) (h : amarreInv s) :
    amarreInv (detachCardFromAmarre s cid) := by
  obtain ⟨W, hS, hR⟩ := h
  unfold detachCardFromAmarre
  cases hgc : getCard s cid with
  | none => exact ⟨W, hS, hR⟩
  | some c =>
    dsimp only
    cases hca : c.amarre with
    | none => exact ⟨W, hS, hR⟩
    | some aid =>
      dsimp only
      have href : refOf s cid = some (some aid) := by
        unfold refOf
        rw [hgc]
        simp only [Option.map_some']
        rw [hca]
      obtain ⟨ms, hms, hcm⟩ := W.2.2.1 cid aid href
      have haid_tr : aid ∈ s.amarres := hR cid aid href
      obtain ⟨r1, r2, r3, r4, r5, r6, r7, r8, r9⟩ := amarreRemoveCard_spec s aid cid W
      obtain ⟨q1, q2, q3, q4⟩ := r7 ms hms hcm
      cases hflag : (amarreRemoveCard s aid cid).2 with
      | false =>
        rw [if_neg Bool.false_ne_true]
        have hlen : ¬ (ms.erase cid).length ≤ 1 := fun hle =>
          absurd (hflag.symm.trans (q4.mpr hle)) Bool.false_ne_true
        refine ⟨r1, ?_, ?_⟩
        · intro a ha ms2 hms2
          rw [r2] at ha
          by_cases hae : a = aid
          · rw [hae] at hms2
            have heq := q1.symm.trans hms2
            simp only [Option.some.injEq] at heq
            rw [if_neg hlen] at heq
            rw [← heq]
            omega
          · rw [r3 a hae] at hms2
            exact hS a ha ms2 hms2
        · intro c2 a hr
          rw [r2]
          rcases r4 c2 with h2 | h2
          · rw [h2] at hr
            exact hR c2 a hr
          · rw [h2] at hr
            simp at hr
      | true =>
        rw [if_pos rfl]
        obtain ⟨p1, p2, p3, p4, p5, p6, p7⟩ :=
          removeAmarreOp_spec (amarreRemoveCard s aid cid).1 aid r1
        refine ⟨p1, ?_, ?_⟩
        · intro a ha ms2 hms2
          rw [p2, r2] at ha
          have hane : a ≠ aid := by
            intro he
            rw [he] at ha
            exact nodup_not_mem_erase s.amarres W.2.2.2.2.2.2 aid ha
          rw [p3 a hane, r3 a hane] at hms2
          exact hS a (List.mem_of_mem_erase ha) ms2 hms2
        · intro c2 a hr
          have hane : a ≠ aid := by
            intro he
            rw [he] at hr
            exact p5 c2 hr
          rw [p2, r2]
          refine (List.mem_erase_of_ne hane).mpr ?_
          rcases p4 c2 with h2 | h2
          · rw [h2] at hr
            rcases r4 c2 with h3 | h3
            · rw [h3] at hr
              exact hR c2 a hr
            · rw [h3] at hr
              simp at hr
          · rw [h2] at hr
            simp at hr

theorem getAmarre_of_memsOf (s : AppState) (aid : Nat) (ms : List Nat)
    (h : memsOf s aid = some ms) : ∃ g, getAmarre s aid = some g ∧ g.cards = ms := by
  unfold memsOf at h
  cases hg : getAmarre s aid with
  | none =>
    rw [hg] at h
    cases h
  | some g =>
    rw [hg] at h
    simp only [Option.map_some', Option.some.injEq] at h
    exact ⟨g, rfl, h⟩

theorem find?_append_one {α : Type} (l : List α) (x : α) (p : α → Bool) :
    (l ++ [x]).find? p = (l.find? p).or (if p x then some x else none) := by
  induction l with
  | nil =>
    rw [List.nil_append]
    cases hpx : p x
    · rw [List.find?_cons_of_neg _ (by simp [hpx]), List.find?_nil, if_neg (by simp)]
      rfl
    · rw [List.find?_cons_of_pos _ hpx, if_pos rfl]
      rfl
  | cons a t ih =>
    rw [List.cons_append]
    cases hpa : p a
    · rw [List.find?_cons_of_neg _ (by simp [hpa]), List.find?_cons_of_neg _ (by simp [hpa])]
      exact ih
    · rw [List.find?_cons_of_pos _ hpa, List.find?_cons_of_pos _ hpa]
      rfl

theorem refOf_none_iff_key (s : AppState) (cid : Nat) :
    refOf s cid = none ↔ cid ∉ s.cardStore.map (·.cid) := by
  unfold refOf getCard
  constructor
  · intro h hc
    obtain ⟨c, hcm, hcc⟩ := List.mem_map.mp hc
    cases hf : s.cardStore.find? (fun c2 => c2.cid == cid) with
    | none =>
      rw [List.find?_eq_none] at hf
      exact hf c hcm (by simp [hcc])
    | some c2 =>
      rw [hf] at h
      cases h
  · intro h
    cases hf : s.cardStore.find? (fun c2 => c2.cid == cid) with
    | none => rfl
    | some c2 =>
      exfalso
      have hm := List.mem_of_find?_eq_some hf
      have hp := List.find?_some hf
      simp only [beq_iff_eq] at hp
      exact h (hp ▸ List.mem_map_of_mem _ hm)

theorem le_foldr_max : ∀ (l : List Nat), ∀ x ∈ l, x ≤ l.foldr max 0
  | [] => by
    intro x hx
    cases hx
  | a :: t => by
    intro x hx
    rw [List.foldr_cons]
    rcases List.mem_cons.mp hx with h | h
    · subst h
      exact le_max_left _ _
    · exact le_trans (le_foldr_max t x h) (le_max_right _ _)

theorem freshAid_not_key (s : AppState) : freshAid s ∉ s.amarreHeap.map (·.aid) := by
  intro h
  have h2 := le_foldr_max (s.amarreHeap.map (·.aid)) _ h
  unfold freshAid at h2
  omega

theorem getAmarre_none_of_notkey (s : AppState) (a : Nat)
    (h : a ∉ s.amarreHeap.map (·.aid)) : getAmarre s a = none := by
  unfold getAmarre
  rw [List.find?_eq_none]
  intro g hg hbe
  simp only [beq_iff_eq] at hbe
  exact h (hbe ▸ List.mem_map_of_mem _ hg)

theorem memsOf_none_of_notkey (s : AppState) (a : Nat)
    (h : a ∉ s.amarreHeap.map (·.aid)) : memsOf s a = none := by
  unfold memsOf
  rw [getAmarre_none_of_notkey s a h]
  rfl

theorem getAmarre_heapAppend (s : AppState) (newg : AmarreObj) (a : Nat) :
    getAmarre { s with amarreHeap := s.amarreHeap ++ [newg] } a =
      (getAmarre s a).or (if newg.aid = a then some newg else none) := by
  unfold getAmarre
  dsimp only
  rw [find?_append_one]
  by_cases h : newg.aid = a
  · rw [if_pos (by simp [h]), if_pos h]
  · rw [if_neg (by simp [h]), if_neg h]

theorem memsOf_heapAppend (s : AppState) (newg : AmarreObj)
    (hfresh : newg.aid ∉ s.amarreHeap.map (·.aid)) (a : Nat) :
    memsOf { s with amarreHeap := s.amarreHeap ++ [newg] } a =
      if a = newg.aid then some newg.cards else memsOf s a := by
  unfold memsOf
  rw [getAmarre_heapAppend]
  by_cases ha : a = newg.aid
  · rw [if_pos ha, ha, getAmarre_none_of_notkey s newg.aid hfresh, if_pos rfl]
    rfl
  · rw [if_neg ha, if_neg (fun he => ha he.symm)]
    cases hg : getAmarre s a with
    | none => rfl
    | some g => rfl

theorem refOf_heapAppend (s : AppState) (newg : AmarreObj) (c2 : Nat) :
    refOf { s with amarreHeap := s.amarreHeap ++ [newg] } c2 = refOf s c2 := rfl

theorem memsOf_heapAppend_self (s : AppState) (newg : AmarreObj)
    (hfresh : newg.aid ∉ s.amarreHeap.map (·.aid)) :
    memsOf { s with amarreHeap := s.amarreHeap ++ [newg] } newg.aid = some newg.cards := by
  rw [memsOf_heapAppend s newg hfresh, if_pos rfl]

theorem notkey_not_tracked (s : AppState) (W : storeWF s) (a : Nat)
    (h : a ∉ s.amarreHeap.map (·.aid)) : a ∉ s.amarres := by
  intro ha
  exact W.2.2.2.2.2.1 a ha (memsOf_none_of_notkey s a h)

theorem storeWF_heapAppendFresh (s : AppState) (newg : AmarreObj) (W : storeWF s)
    (hfresh : newg.aid ∉ s.amarreHeap.map (·.aid)) (hempty : newg.cards = []) :
    storeWF { s with amarreHeap := s.amarreHeap ++ [newg] } := by
  obtain ⟨w1, w2, w3, w4, w5, w6, w7⟩ := W
  refine ⟨w1, ?_, ?_, ?_, ?_, ?_, w7⟩
  · rw [List.map_append, List.nodup_append]
    refine ⟨w2, List.nodup_singleton _, ?_⟩
    intro x hx hx2
    simp only [List.map_cons, List.map_nil, List.mem_singleton] at hx2
    subst hx2
    exact hfresh hx
  · intro cid a hr
    rw [refOf_heapAppend] at hr
    obtain ⟨ms, hms, hcm⟩ := w3 cid a hr
    refine ⟨ms, ?_, hcm⟩
    rw [memsOf_heapAppend s newg hfresh]
    by_cases haf : a = newg.aid
    · exfalso
      rw [haf, memsOf_none_of_notkey s newg.aid hfresh] at hms
      cases hms
    · rw [if_neg haf]
      exact hms
  · intro a ms hms cid hcm
    rw [memsOf_heapAppend s newg hfresh] at hms
    by_cases haf : a = newg.aid
    · rw [if_pos haf, hempty] at hms
      simp only [Option.some.injEq] at hms
      rw [← hms] at hcm
      cases hcm
    · rw [if_neg haf] at hms
      rw [refOf_heapAppend]
      exact w4 a ms hms cid hcm
  · intro a ms hms
    rw [memsOf_heapAppend s newg hfresh] at hms
    by_cases haf : a = newg.aid
    · rw [if_pos haf, hempty] at hms
      simp only [Option.some.injEq] at hms
      rw [← hms]
      exact List.nodup_nil
    · rw [if_neg haf] at hms
      exact w5 a ms hms
  · intro a ha
    rw [memsOf_heapAppend s newg hfresh]
    by_cases haf : a = newg.aid
    · rw [if_pos haf]
      simp
    · rw [if_neg haf]
      exact w6 a ha

theorem addChain_spec (u : AppState) (aid cid : Nat) (g2 : AmarreObj) :
    ∀ v, updateFromPrimaryOp (updateAmarre (updateCard (setCardScaleOp u cid g2.scale) cid (fun c3 => { c3 with rect := { c3.rect with x := g2.rect.x, y := g2.rect.y } })) aid (fun g3 => { g3 with cards := g3.cards ++ [cid] })) aid = v →
      (∀ c3, refOf v c3 = refOf u c3) ∧
      memsOf v aid = (memsOf u aid).map (fun ms => ms ++ [cid]) ∧
      (∀ a, a ≠ aid → memsOf v a = memsOf u a) ∧
      v.amarres = u.amarres ∧
      v.cardStore.map (·.cid) = u.cardStore.map (·.cid) ∧
      v.amarreHeap.map (·.aid) = u.amarreHeap.map (·.aid) := by
  intro v hv
  subst hv
  have hP1 : invProj (updateFromPrimaryOp (updateAmarre (updateCard (setCardScaleOp u cid g2.scale) cid (fun c3 => { c3 with rect := { c3.rect with x := g2.rect.x, y := g2.rect.y } })) aid (fun g3 => { g3 with cards := g3.cards ++ [cid] })) aid) = invProj (updateAmarre (updateCard (setCardScaleOp u cid g2.scale) cid (fun c3 => { c3 with rect := { c3.rect with x := g2.rect.x, y := g2.rect.y } })) aid (fun g3 => { g3 with cards := g3.cards ++ [cid] })) := invProj_updateFromPrimaryOp _ aid
  have hcp : cardPairs (updateCard (setCardScaleOp u cid g2.scale) cid (fun c3 => { c3 with rect := { c3.rect with x := g2.rect.x, y := g2.rect.y } })) = cardPairs u := by
    rw [cardPairs_updateCard]
    · exact congrArg (fun x => x.1) (invProj_setCardScaleOp u cid g2.scale)
    · intro c
      exact ⟨rfl, rfl⟩
  refine ⟨?_, ?_, ?_, ?_, ?_, ?_⟩
  · intro c3
    rw [refOf_congr _ _ (congrArg (fun x => x.1) hP1) c3, refOf_updateAmarre]
    exact refOf_congr _ _ hcp c3
  · rw [memsOf_congr _ _ (congrArg (fun x => x.2.1) hP1) aid, memsOf_updateAmarre]
    rw [if_pos rfl]
    show (getAmarre u aid).map (fun g3 => g3.cards ++ [cid]) = (memsOf u aid).map (fun ms => ms ++ [cid])
    unfold memsOf
    rw [Option.map_map]
    rfl
    intro g3
    rfl
  · intro a ha
    rw [memsOf_congr _ _ (congrArg (fun x => x.2.1) hP1) a, memsOf_updateAmarre]
    rw [if_neg ha]
    rfl
    intro g3
    rfl
  · exact congrArg (fun x => x.2.2) hP1
  · have h5 : cardPairs (updateFromPrimaryOp (updateAmarre (updateCard (setCardScaleOp u cid g2.scale) cid (fun c3 => { c3 with rect := { c3.rect with x := g2.rect.x, y := g2.rect.y } })) aid (fun g3 => { g3 with cards := g3.cards ++ [cid] })) aid) = cardPairs u := (congrArg (fun x => x.1) hP1).trans hcp
    rw [cidKeys_eq_pairs, cidKeys_eq_pairs, h5]
  · have h7 : heapPairs (updateFromPrimaryOp (updateAmarre (updateCard (setCardScaleOp u cid g2.scale) cid (fun c3 => { c3 with rect := { c3.rect with x := g2.rect.x, y := g2.rect.y } })) aid (fun g3 => { g3 with cards := g3.cards ++ [cid] })) aid) = heapPairs (updateAmarre (updateCard (setCardScaleOp u cid g2.scale) cid (fun c3 => { c3 with rect := { c3.rect with x := g2.rect.x, y := g2.rect.y } })) aid (fun g3 => { g3 with cards := g3.cards ++ [cid] })) := congrArg (fun x => x.2.1) hP1
    rw [aidKeys_eq_pairs, h7, ← aidKeys_eq_pairs]
    rw [aidKeys_updateAmarre]
    rfl
    intro g3
    rfl

theorem amarreAddCardTail_spec (t : AppState) (aid cid : Nat) (ms0 : List Nat)
    (W : storeWF t) (hms : memsOf t aid = some ms0) (hrc : refOf t cid = some none) :
    storeWF (amarreAddCardTail t aid cid) ∧
    (amarreAddCardTail t aid cid).amarres = t.amarres ∧
    memsOf (amarreAddCardTail t aid cid) aid = some (ms0 ++ [cid]) ∧
    refOf (amarreAddCardTail t aid cid) cid = some (some aid) ∧
    (∀ a, a ≠ aid → memsOf (amarreAddCardTail t aid cid) a = memsOf t a) ∧
    (∀ c2, c2 ≠ cid → refOf (amarreAddCardTail t aid cid) c2 = refOf t c2) ∧
    (amarreAddCardTail t aid cid).cardStore.map (·.cid) = t.cardStore.map (·.cid) ∧
    (amarreAddCardTail t aid cid).amarreHeap.map (·.aid) = t.amarreHeap.map (·.aid) := by
  obtain ⟨g, hg, hgc⟩ := getAmarre_of_memsOf t aid ms0 hms
  obtain ⟨c2, hc2, hc2a⟩ := getCard_isSome_of_refOf t cid none hrc
  unfold amarreAddCardTail
  rw [hg, hc2]
  dsimp only
  have hPIf : invProj (if g.cards.isEmpty then updateAmarre t aid fun g2 => { g2 with rect := c2.rect, scale := c2.scale } else t) = invProj t := by
    split
    · rw [invProj_updateAmarre]
      intro g2
      exact ⟨rfl, rfl⟩
    · rfl
  have hmemsU : ∀ a, memsOf (updateCard (if g.cards.isEmpty then updateAmarre t aid fun g2 => { g2 with rect := c2.rect, scale := c2.scale } else t) cid fun c3 => { c3 with amarre := some aid, inHand := false, handScreenRect := none }) a = memsOf t a := by
    intro a
    have h1 : heapPairs (updateCard (if g.cards.isEmpty then updateAmarre t aid fun g2 => { g2 with rect := c2.rect, scale := c2.scale } else t) cid fun c3 => { c3 with amarre := some aid, inHand := false, handScreenRect := none }) = heapPairs t := congrArg (fun x => x.2.1) hPIf
    exact memsOf_congr _ t h1 a
  have hmsU : memsOf (updateCard (if g.cards.isEmpty then updateAmarre t aid fun g2 => { g2 with rect := c2.rect, scale := c2.scale } else t) cid fun c3 => { c3 with amarre := some aid, inHand := false, handScreenRect := none }) aid = some ms0 := (hmemsU aid).trans hms
  obtain ⟨g2, hga2, hg2c⟩ := getAmarre_of_memsOf (updateCard (if g.cards.isEmpty then updateAmarre t aid fun g2 => { g2 with rect := c2.rect, scale := c2.scale } else t) cid fun c3 => { c3 with amarre := some aid, inHand := false, handScreenRect := none }) aid ms0 hmsU
  rw [hga2]
  dsimp only
  obtain ⟨a1, a2, a3, a4, a5, a6⟩ := addChain_spec (updateCard (if g.cards.isEmpty then updateAmarre t aid fun g2 => { g2 with rect := c2.rect, scale := c2.scale } else t) cid fun c3 => { c3 with amarre := some aid, inHand := false, handScreenRect := none }) aid cid g2 _ rfl
  have hcIf : getCard (if g.cards.isEmpty then updateAmarre t aid fun g2 => { g2 with rect := c2.rect, scale := c2.scale } else t) cid = some c2 := by
    split
    · exact hc2
    · exact hc2
  have hrefU : refOf (updateCard (if g.cards.isEmpty then updateAmarre t aid fun g2 => { g2 with rect := c2.rect, scale := c2.scale } else t) cid fun c3 => { c3 with amarre := some aid, inHand := false, handScreenRect := none }) cid = some (some aid) := by
    rw [refOf_updateCard]
    rw [if_pos rfl]
    rw [hcIf]
    rfl
    intro c
    rfl
  have hrefUo : ∀ c3, c3 ≠ cid → refOf (updateCard (if g.cards.isEmpty then updateAmarre t aid fun g2 => { g2 with rect := c2.rect, scale := c2.scale } else t) cid fun c3 => { c3 with amarre := some aid, inHand := false, handScreenRect := none }) c3 = refOf t c3 := by
    intro c3 hc3
    rw [refOf_updateCard]
    rw [if_neg hc3]
    exact refOf_congr _ t (congrArg (fun x => x.1) hPIf) c3
    intro c
    rfl
  have hamU : ((updateCard (if g.cards.isEmpty then updateAmarre t aid fun g2 => { g2 with rect := c2.rect, scale := c2.scale } else t) cid fun c3 => { c3 with amarre := some aid, inHand := false, handScreenRect := none })).amarres = t.amarres := congrArg (fun x => x.2.2) hPIf
  have hkeysCU : ((updateCard (if g.cards.isEmpty then updateAmarre t aid fun g2 => { g2 with rect := c2.rect, scale := c2.scale } else t) cid fun c3 => { c3 with amarre := some aid, inHand := false, handScreenRect := none })).cardStore.map (·.cid) = t.cardStore.map (·.cid) := by
    rw [cidKeys_updateCard]
    · have h1 : cardPairs (if g.cards.isEmpty then updateAmarre t aid fun g2 => { g2 with rect := c2.rect, scale := c2.scale } else t) = cardPairs t := congrArg (fun x => x.1) hPIf
      rw [cidKeys_eq_pairs, cidKeys_eq_pairs, h1]
    · intro c
      rfl
  have hkeysAU : ((updateCard (if g.cards.isEmpty then updateAmarre t aid fun g2 => { g2 with rect := c2.rect, scale := c2.scale } else t) cid fun c3 => { c3 with amarre := some aid, inHand := false, handScreenRect := none })).amarreHeap.map (·.aid) = t.amarreHeap.map (·.aid) := by
    have h1 : heapPairs (updateCard (if g.cards.isEmpty then updateAmarre t aid fun g2 => { g2 with rect := c2.rect, scale := c2.scale } else t) cid fun c3 => { c3 with amarre := some aid, inHand := false, handScreenRect := none }) = heapPairs t := congrArg (fun x => x.2.1) hPIf
    rw [aidKeys_eq_pairs, aidKeys_eq_pairs, h1]
  have hmem3 := a2.trans (by rw [hmsU])
  refine ⟨?_, a4.trans hamU, hmem3, (a1 cid).trans hrefU,
    fun a ha => (a3 a ha).trans (hmemsU a),
    fun c3 hc3 => (a1 c3).trans (hrefUo c3 hc3),
    a5.trans hkeysCU, a6.trans hkeysAU⟩
  exact storeWF_addMember t _ aid cid ms0 W hms hrc (a5.trans hkeysCU) (a6.trans hkeysAU)
    (a4.trans hamU) hmem3 (fun a ha => (a3 a ha).trans (hmemsU a)) ((a1 cid).trans hrefU)
    (fun c3 hc3 => (a1 c3).trans (hrefUo c3 hc3))

theorem amarreAddCard_noop (t : AppState) (aid cid : Nat) (c : CardObj)
    (hc : getCard t cid = some c) (hca : c.amarre = some aid) :
    amarreAddCard t aid cid = t := by
  unfold amarreAddCard
  rw [hc]
  dsimp only
  rw [hca, if_pos rfl]

theorem amarreAddCard_free_spec (t : AppState) (aid cid : Nat) (ms0 : List Nat)
    (W : storeWF t) (hms : memsOf t aid = some ms0) (hrc : refOf t cid = some none) :
    storeWF (amarreAddCard t aid cid) ∧
    (amarreAddCard t aid cid).amarres = t.amarres ∧
    memsOf (amarreAddCard t aid cid) aid = some (ms0 ++ [cid]) ∧
    refOf (amarreAddCard t aid cid) cid = some (some aid) ∧
    (∀ a, a ≠ aid → memsOf (amarreAddCard t aid cid) a = memsOf t a) ∧
    (∀ c2, c2 ≠ cid → refOf (amarreAddCard t aid cid) c2 = refOf t c2) ∧
    (amarreAddCard t aid cid).cardStore.map (·.cid) = t.cardStore.map (·.cid) ∧
    (amarreAddCard t aid cid).amarreHeap.map (·.aid) = t.amarreHeap.map (·.aid) := by
  obtain ⟨c, hc, hca⟩ := getCard_isSome_of_refOf t cid none hrc
  unfold amarreAddCard
  rw [hc]
  dsimp only
  rw [hca]
  rw [if_neg (by simp)]
  dsimp only
  exact amarreAddCardTail_spec t aid cid ms0 W hms hrc

theorem amarreAddCard_steal_eq (t : AppState) (aid cid pg : Nat) (c : CardObj)
    (hc : getCard t cid = some c) (hca : c.amarre = some pg) (hne : pg ≠ aid) :
    amarreAddCard t aid cid = amarreAddCardTail ((amarreRemoveCard t pg cid).1) aid cid := by
  unfold amarreAddCard
  rw [hc]
  dsimp only
  rw [hca]
  rw [if_neg (fun he => hne (Option.some.inj he))]

theorem amarreAddCard_steal_spec (t : AppState) (aid cid pg : Nat)
    (W : storeWF t) (hne : pg ≠ aid)
    (hrc : refOf t cid = some (some pg)) (mst : List Nat) (hmst : memsOf t aid = some mst) :
    storeWF (amarreAddCard t aid cid) ∧
    (amarreAddCard t aid cid).amarres = t.amarres ∧
    memsOf (amarreAddCard t aid cid) aid = some (mst ++ [cid]) ∧
    refOf (amarreAddCard t aid cid) cid = some (some aid) ∧
    (∀ a, a ≠ aid → a ≠ pg → memsOf (amarreAddCard t aid cid) a = memsOf t a) ∧
    (∀ c2, c2 ≠ cid → refOf (amarreAddCard t aid cid) c2 = refOf t c2 ∨ refOf (amarreAddCard t aid cid) c2 = some none) ∧
    (amarreAddCard t aid cid).cardStore.map (·.cid) = t.cardStore.map (·.cid) ∧
    (amarreAddCard t aid cid).amarreHeap.map (·.aid) = t.amarreHeap.map (·.aid) := by
  obtain ⟨c, hc, hca⟩ := getCard_isSome_of_refOf t cid (some pg) hrc
  rw [amarreAddCard_steal_eq t aid cid pg c hc hca hne]
  obtain ⟨ms, hms, hcm⟩ := W.2.2.1 cid pg hrc
  obtain ⟨r1, r2, r3, r4, r5, r6, r7, r8, r9⟩ := amarreRemoveCard_spec t pg cid W
  obtain ⟨q1, q2, q3, q4⟩ := r7 ms hms hcm
  have hmst1 : memsOf (amarreRemoveCard t pg cid).1 aid = some mst :=
    (r3 aid (fun he => hne he.symm)).trans hmst
  obtain ⟨b1, b2, b3, b4, b5, b6, b7, b8⟩ :=
    amarreAddCardTail_spec (amarreRemoveCard t pg cid).1 aid cid mst r1 hmst1 q2
  refine ⟨b1, b2.trans r2, b3, b4, ?_, ?_, b7.trans r5, b8.trans r6⟩
  · intro a ha hapg
    exact (b5 a ha).trans (r3 a hapg)
  · intro c2 hc2
    rcases r4 c2 with h | h
    · rw [(b6 c2 hc2), h]
      exact Or.inl rfl
    · rw [(b6 c2 hc2), h]
      exact Or.inr rfl

theorem refOf_of_getCard (s : AppState) (cid : Nat) (c : CardObj)
    (hc : getCard s cid = some c) : refOf s cid = some c.amarre := by
  unfold refOf
  rw [hc]
  rfl

theorem memsOf_some_of_tracked (s : AppState) (W : storeWF s) (a : Nat)
    (ha : a ∈ s.amarres) : ∃ ms, memsOf s a = some ms := by
  cases hm : memsOf s a with
  | none => exact absurd hm (W.2.2.2.2.2.1 a ha)
  | some ms => exact ⟨ms, rfl⟩

theorem find?_key_of_mem {α : Type} (key : α → Nat) :
    ∀ (l : List α), (l.map key).Nodup → ∀ c ∈ l, l.find? (fun x => key x == key c) = some c
  | [], _, c, hc => by cases hc
  | a :: t, hnd, c, hc => by
    rw [List.map_cons, List.nodup_cons] at hnd
    rcases List.mem_cons.mp hc with h | h
    · subst h
      rw [List.find?_cons_of_pos _ (by simp)]
    · rw [List.find?_cons_of_neg _ ?_]
      · exact find?_key_of_mem key t hnd.2 c h
      · simp only [beq_iff_eq]
        intro he
        exact hnd.1 (he ▸ List.mem_map_of_mem key h)

theorem sizeInv_of_F (s : AppState) (h : sizeInvF s) : amarreSizeInv s := by
  intro a ha g hg
  refine h a ha g.cards ?_
  unfold memsOf
  rw [hg]
  rfl

theorem refInv_of_F (s : AppState) (W : storeWF s) (h : refInvF s) : amarreRefInv s := by
  intro c hc a hca
  refine h c.cid a ?_
  have hgc : getCard s c.cid = some c := find?_key_of_mem (fun x : CardObj => x.cid) s.cardStore W.1 c hc
  rw [refOf_of_getCard s c.cid c hgc, hca]

theorem invProj_joinTail (s : AppState) (aid p : Nat) (h : aid ∈ s.amarres) :
    invProj (joinTail s aid p) = invProj s := by
  unfold joinTail
  rw [if_pos h]
  dsimp only
  rw [invProj_amarreBringToFront, invProj_amarreSetScale, invProj_amarreMoveTo]

theorem findCardCollisionPartner_ne (s : AppState) (cid p : Nat)
    (h : findCardCollisionPartner s cid = some p) : p ≠ cid := by
  unfold findCardCollisionPartner at h
  cases hgc : getCard s cid with
  | none =>
    rw [hgc] at h
    cases h
  | some c =>
    rw [hgc] at h
    dsimp only at h
    obtain ⟨o, _, ho⟩ := List.exists_of_findSome?_eq_some h
    cases o with
    | deck => cases ho
    | card cand =>
      dsimp only at ho
      by_cases hcnd : cand = cid
      · rw [if_pos hcnd] at ho
        cases ho
      · rw [if_neg hcnd] at ho
        cases hgcand : getCard s cand with
        | none =>
          rw [hgcand] at ho
          cases ho
        | some cc =>
          rw [hgcand] at ho
          dsimp only at ho
          by_cases hin : cc.inHand
          · rw [if_pos hin] at ho
            cases ho
          · rw [if_neg hin] at ho
            by_cases hcol : c.rect.colliderect cc.rect
            · rw [if_pos hcol] at ho
              have hpc := Option.some.inj ho
              subst hpc
              exact hcnd
            · rw [if_neg hcol] at ho
              cases ho

theorem unionStep (s : AppState) (tg pg : Nat) (mspg : List Nat) (t : AppState) (m : Nat)
    (hm : m ∈ mspg) (hpgne : pg ≠ tg) (htg : tg ∈ s.amarres)
    (hs9 : ∀ c2 ∈ mspg, refOf s c2 ≠ none)
    (h1 : storeWF t) (h2 : t.amarres = s.amarres)
    (h3 : t.cardStore.map (·.cid) = s.cardStore.map (·.cid))
    (h4 : t.amarreHeap.map (·.aid) = s.amarreHeap.map (·.aid))
    (h5 : sizeInvFExcept t pg) (h6 : refInvF t)
    (h7 : ∀ mst, memsOf t tg = some mst → 2 ≤ mst.length)
    (h7b : memsOf t tg ≠ none)
    (h8 : ∀ c2 ∈ mspg, ∀ a2, refOf t c2 = some (some a2) → a2 = tg ∨ a2 = pg) :
    storeWF (amarreAddCard t tg m) ∧
    (amarreAddCard t tg m).amarres = s.amarres ∧
    (amarreAddCard t tg m).cardStore.map (·.cid) = s.cardStore.map (·.cid) ∧
    (amarreAddCard t tg m).amarreHeap.map (·.aid) = s.amarreHeap.map (·.aid) ∧
    sizeInvFExcept (amarreAddCard t tg m) pg ∧
    refInvF (amarreAddCard t tg m) ∧
    (∀ mst, memsOf (amarreAddCard t tg m) tg = some mst → 2 ≤ mst.length) ∧
    memsOf (amarreAddCard t tg m) tg ≠ none ∧
    (∀ c2 ∈ mspg, ∀ a2, refOf (amarreAddCard t tg m) c2 = some (some a2) →
      a2 = tg ∨ a2 = pg) := by
  obtain ⟨mst, hmst⟩ : ∃ mst, memsOf t tg = some mst := by
    cases hmt : memsOf t tg with
    | none => exact absurd hmt h7b
    | some x => exact ⟨x, rfl⟩
  have hbound : 2 ≤ mst.length := h7 mst hmst
  have hm9 : refOf t m ≠ none := by
    intro hn
    refine hs9 m hm ?_
    rw [refOf_none_iff_key] at hn ⊢
    rw [← h3]
    exact hn
  cases hrm : refOf t m with
  | none => exact absurd hrm hm9
  | some v =>
    cases v with
    | none =>
      obtain ⟨b1, b2, b3, b4, b5, b6, b7, b8⟩ := amarreAddCard_free_spec t tg m mst h1 hmst hrm
      refine ⟨b1, b2.trans h2, b7.trans h3, b8.trans h4, ?_, ?_, ?_, ?_, ?_⟩
      · intro a ha hax ms hms
        rw [b2, h2] at ha
        by_cases hatg : a = tg
        · subst hatg
          rw [b3] at hms
          have hmse := Option.some.inj hms
          rw [← hmse, List.length_append]
          omega
        · rw [b5 a hatg] at hms
          refine h5 a ?_ hax ms hms
          rw [h2]
          exact ha
      · intro c2 a2 hr
        by_cases hc2m : c2 = m
        · subst hc2m
          rw [b4] at hr
          simp only [Option.some.injEq] at hr
          rw [← hr, b2, h2]
          exact htg
        · rw [b6 c2 hc2m] at hr
          rw [b2]
          exact h6 c2 a2 hr
      · intro ms hms
        rw [b3] at hms
        have hmse := Option.some.inj hms
        rw [← hmse, List.length_append]
        omega
      · rw [b3]
        simp
      · intro c2 hc2 a2 hr
        by_cases hc2m : c2 = m
        · subst hc2m
          rw [b4] at hr
          simp only [Option.some.injEq] at hr
          exact Or.inl hr.symm
        · rw [b6 c2 hc2m] at hr
          exact h8 c2 hc2 a2 hr
    | some a2 =>
      rcases h8 m hm a2 hrm with htg2 | hpg2
      · rw [htg2] at hrm
        obtain ⟨c, hc, hca⟩ := getCard_isSome_of_refOf t m (some tg) hrm
        rw [amarreAddCard_noop t tg m c hc hca]
        exact ⟨h1, h2, h3, h4, h5, h6, h7, h7b, h8⟩
      · rw [hpg2] at hrm
        obtain ⟨b1, b2, b3, b4, b5, b6, b7, b8⟩ :=
          amarreAddCard_steal_spec t tg m pg h1 hpgne hrm mst hmst
        refine ⟨b1, b2.trans h2, b7.trans h3, b8.trans h4, ?_, ?_, ?_, ?_, ?_⟩
        · intro a ha hax ms hms
          rw [b2, h2] at ha
          by_cases hatg : a = tg
          · subst hatg
            rw [b3] at hms
            have hmse := Option.some.inj hms
            rw [← hmse, List.length_append]
            omega
          · rw [b5 a hatg hax] at hms
            refine h5 a ?_ hax ms hms
            rw [h2]
            exact ha
        · intro c2 a2 hr
          by_cases hc2m : c2 = m
          · subst hc2m
            rw [b4] at hr
            simp only [Option.some.injEq] at hr
            rw [← hr, b2, h2]
            exact htg
          · rcases b6 c2 hc2m with hcase | hcase
            · rw [hcase] at hr
              rw [b2]
              exact h6 c2 a2 hr
            · rw [hcase] at hr
              simp at hr
        · intro ms hms
          rw [b3] at hms
          have hmse := Option.some.inj hms
          rw [← hmse, List.length_append]
          omega
        · rw [b3]
          simp
        · intro c2 hc2 a2 hr
          by_cases hc2m : c2 = m
          · subst hc2m
            rw [b4] at hr
            simp only [Option.some.injEq] at hr
            exact Or.inl hr.symm
          · rcases b6 c2 hc2m with hcase | hcase
            · rw [hcase] at hr
              exact h8 c2 hc2 a2 hr
            · rw [hcase] at hr
              simp at hr

theorem storeWF_track (t : AppState) (aid : Nat) (W : storeWF t)
    (hnotr : aid ∉ t.amarres) (hm : memsOf t aid ≠ none) :
    storeWF { t with amarres := t.amarres ++ [aid] } := by
  obtain ⟨w1, w2, w3, w4, w5, w6, w7⟩ := W
  refine ⟨w1, w2, w3, w4, w5, ?_, ?_⟩
  · intro a ha
    rcases List.mem_append.mp ha with h | h
    · exact w6 a h
    · rw [List.mem_singleton] at h
      subst h
      exact hm
  · rw [List.nodup_append]
    exact ⟨w7, List.nodup_singleton _,
      fun x hx hx2 => hnotr ((List.mem_singleton.mp hx2) ▸ hx)⟩

theorem joinBranchAbsorb (s : AppState) (tgt cid : Nat)
    (W : storeWF s) (hS : sizeInvF s) (hR : refInvF s)
    (htr : tgt ∈ s.amarres)
    (hrc : refOf s cid = some none) (p : Nat) :
    amarreInv (joinTail (amarreAddCard s tgt cid) tgt p) := by
  obtain ⟨ms, hms⟩ := memsOf_some_of_tracked s W tgt htr
  have hlen : 2 ≤ ms.length := hS tgt htr ms hms
  obtain ⟨b1, b2, b3, b4, b5, b6, b7, b8⟩ := amarreAddCard_free_spec s tgt cid ms W hms hrc
  refine amarreInv_congr _ _ (invProj_joinTail _ tgt p ?_).symm ?_
  · rw [b2]
    exact htr
  · refine ⟨b1, ?_, ?_⟩
    · intro a ha msa hmsa
      rw [b2] at ha
      by_cases hat : a = tgt
      · subst hat
        rw [b3] at hmsa
        have he := Option.some.inj hmsa
        rw [← he, List.length_append]
        omega
      · rw [b5 a hat] at hmsa
        exact hS a ha msa hmsa
    · intro c2 a2 hr
      rw [b2]
      by_cases hc2 : c2 = cid
      · subst hc2
        rw [b4] at hr
        simp only [Option.some.injEq] at hr
        rw [← hr]
        exact htr
      · rw [b6 c2 hc2] at hr
        exact hR c2 a2 hr

theorem joinBranch1 (s : AppState) (primary other : Nat) (hpo : primary ≠ other)
    (W : storeWF s) (hS : sizeInvF s) (hR : refInvF s)
    (newg : AmarreObj) (haid : newg.aid = freshAid s) (hcards : newg.cards = [])
    (hrefp : refOf s primary = some none) (hrefo : refOf s other = some none) :
    amarreInv (joinTail { amarreAddCard (amarreAddCard { s with amarreHeap := s.amarreHeap ++ [newg] } (freshAid s) other) (freshAid s) primary with amarres := (amarreAddCard (amarreAddCard { s with amarreHeap := s.amarreHeap ++ [newg] } (freshAid s) other) (freshAid s) primary).amarres ++ [freshAid s] }
      (freshAid s) primary) := by
  have hfr : newg.aid ∉ s.amarreHeap.map (·.aid) := by
    rw [haid]
    exact freshAid_not_key s
  have hW1 : storeWF { s with amarreHeap := s.amarreHeap ++ [newg] } := storeWF_heapAppendFresh s newg W hfr hcards
  have hms1 : memsOf { s with amarreHeap := s.amarreHeap ++ [newg] } (freshAid s) = some [] := by
    have h0 := memsOf_heapAppend_self s newg hfr
    rw [haid, hcards] at h0
    exact h0
  have hrefo1 : refOf { s with amarreHeap := s.amarreHeap ++ [newg] } other = some none := by
    rw [refOf_heapAppend]
    exact hrefo
  obtain ⟨b1, b2, b3, b4, b5, b6, b7, b8⟩ :=
    amarreAddCard_free_spec { s with amarreHeap := s.amarreHeap ++ [newg] } (freshAid s) other [] hW1 hms1 hrefo1
  have hrefp2 : refOf (amarreAddCard { s with amarreHeap := s.amarreHeap ++ [newg] } (freshAid s) other) primary = some none := by
    rw [b6 primary hpo, refOf_heapAppend]
    exact hrefp
  obtain ⟨c1, c2f, c3f, c4f, c5f, c6f, c7f, c8f⟩ :=
    amarreAddCard_free_spec (amarreAddCard { s with amarreHeap := s.amarreHeap ++ [newg] } (freshAid s) other) (freshAid s) primary ([] ++ [other]) b1 b3 hrefp2
  have ham3 : (amarreAddCard (amarreAddCard { s with amarreHeap := s.amarreHeap ++ [newg] } (freshAid s) other) (freshAid s) primary).amarres = s.amarres := by
    rw [c2f, b2]
  have hnotr : freshAid s ∉ s.amarres := notkey_not_tracked s W (freshAid s) (freshAid_not_key s)
  have hmems3 : ∀ a, a ≠ freshAid s → memsOf (amarreAddCard (amarreAddCard { s with amarreHeap := s.amarreHeap ++ [newg] } (freshAid s) other) (freshAid s) primary) a = memsOf s a := by
    intro a ha
    rw [c5f a ha, b5 a ha, memsOf_heapAppend s newg hfr, if_neg (fun he => ha (he.trans haid))]
  have hrefs3 : ∀ c2, c2 ≠ primary → c2 ≠ other → refOf (amarreAddCard (amarreAddCard { s with amarreHeap := s.amarreHeap ++ [newg] } (freshAid s) other) (freshAid s) primary) c2 = refOf s c2 := by
    intro c2 h1 h2
    rw [c6f c2 h1, b6 c2 h2, refOf_heapAppend]
  have hm3tg : memsOf (amarreAddCard (amarreAddCard { s with amarreHeap := s.amarreHeap ++ [newg] } (freshAid s) other) (freshAid s) primary) (freshAid s) = some (([] ++ [other]) ++ [primary]) := c3f
  have hW4 : storeWF { amarreAddCard (amarreAddCard { s with amarreHeap := s.amarreHeap ++ [newg] } (freshAid s) other) (freshAid s) primary with amarres := (amarreAddCard (amarreAddCard { s with amarreHeap := s.amarreHeap ++ [newg] } (freshAid s) other) (freshAid s) primary).amarres ++ [freshAid s] } := by
    refine storeWF_track _ (freshAid s) c1 ?_ ?_
    · rw [ham3]
      exact hnotr
    · rw [hm3tg]
      simp
  refine amarreInv_congr _ _ (invProj_joinTail _ (freshAid s) primary ?_).symm ?_
  · show freshAid s ∈ (amarreAddCard (amarreAddCard { s with amarreHeap := s.amarreHeap ++ [newg] } (freshAid s) other) (freshAid s) primary).amarres ++ [freshAid s]
    exact List.mem_append_right _ (List.mem_singleton_self _)
  · refine ⟨hW4, ?_, ?_⟩
    · intro a ha ms hms
      have ha2 : a ∈ (amarreAddCard (amarreAddCard { s with amarreHeap := s.amarreHeap ++ [newg] } (freshAid s) other) (freshAid s) primary).amarres ++ [freshAid s] := ha
      have hms2 : memsOf (amarreAddCard (amarreAddCard { s with amarreHeap := s.amarreHeap ++ [newg] } (freshAid s) other) (freshAid s) primary) a = some ms := hms
      rcases List.mem_append.mp ha2 with hcase | hcase
      · rw [ham3] at hcase
        have hane : a ≠ freshAid s := fun he => hnotr (he ▸ hcase)
        rw [hmems3 a hane] at hms2
        exact hS a hcase ms hms2
      · rw [List.mem_singleton] at hcase
        subst hcase
        rw [hm3tg] at hms2
        have he := Option.some.inj hms2
        rw [← he]
        simp
    · intro c2 a2 hr
      have hr2 : refOf (amarreAddCard (amarreAddCard { s with amarreHeap := s.amarreHeap ++ [newg] } (freshAid s) other) (freshAid s) primary) c2 = some (some a2) := hr
      show a2 ∈ (amarreAddCard (amarreAddCard { s with amarreHeap := s.amarreHeap ++ [newg] } (freshAid s) other) (freshAid s) primary).amarres ++ [freshAid s]
      by_cases h1 : c2 = primary
      · subst h1
        rw [c4f] at hr2
        simp only [Option.some.injEq] at hr2
        rw [← hr2]
        exact List.mem_append_right _ (List.mem_singleton_self _)
      · by_cases h2 : c2 = other
        · subst h2
          rw [c6f c2 h1, b4] at hr2
          simp only [Option.some.injEq] at hr2
          rw [← hr2]
          exact List.mem_append_right _ (List.mem_singleton_self _)
        · rw [hrefs3 c2 h1 h2] at hr2
          refine List.mem_append_left _ ?_
          rw [ham3]
          exact hR c2 a2 hr2

theorem joinBranchUnion (s : AppState) (tg pg primary : Nat)
    (W : storeWF s) (hS : sizeInvF s) (hR : refInvF s)
    (htg : tg ∈ s.amarres) (hpg : pg ∈ s.amarres) (hne : pg ≠ tg)
    (g : AmarreObj) (hg : getAmarre s pg = some g) :
    amarreInv (joinTail (removeAmarreOp
      (g.cards.foldl (fun t m => amarreAddCard t tg m) s) pg) tg primary) := by
  have hmspg : memsOf s pg = some g.cards := by
    unfold memsOf
    rw [hg]
    rfl
  obtain ⟨mst0, hmst0⟩ := memsOf_some_of_tracked s W tg htg
  have hs9 : ∀ c2 ∈ g.cards, refOf s c2 ≠ none := by
    intro c2 hc2 hn
    rw [W.2.2.2.1 pg g.cards hmspg c2 hc2] at hn
    cases hn
  have hfold := foldlInvariant (fun t =>
      storeWF t ∧ t.amarres = s.amarres ∧
      t.cardStore.map (·.cid) = s.cardStore.map (·.cid) ∧
      t.amarreHeap.map (·.aid) = s.amarreHeap.map (·.aid) ∧
      sizeInvFExcept t pg ∧ refInvF t ∧
      (∀ mst, memsOf t tg = some mst → 2 ≤ mst.length) ∧
      memsOf t tg ≠ none ∧
      (∀ c2 ∈ g.cards, ∀ a2, refOf t c2 = some (some a2) → a2 = tg ∨ a2 = pg))
    (fun t m => amarreAddCard t tg m) g.cards s
    ⟨W, rfl, rfl, rfl, fun a ha hax ms hms => hS a ha ms hms, hR,
      fun mst hmst => by
        rw [hmst0] at hmst
        exact (Option.some.inj hmst) ▸ hS tg htg mst0 hmst0,
      by rw [hmst0]; simp,
      fun c2 hc2 a2 hr => by
        rw [W.2.2.2.1 pg g.cards hmspg c2 hc2] at hr
        exact Or.inr (Option.some.inj (Option.some.inj hr)).symm⟩
    (fun t m hm ht => unionStep s tg pg g.cards t m hm hne htg hs9 ht.1 ht.2.1 ht.2.2.1
      ht.2.2.2.1 ht.2.2.2.2.1 ht.2.2.2.2.2.1 ht.2.2.2.2.2.2.1 ht.2.2.2.2.2.2.2.1
      ht.2.2.2.2.2.2.2.2)
  obtain ⟨u1, u2, u3, u4, u5, u6, u7, u8, u9⟩ := hfold
  obtain ⟨p1, p2, p3, p4, p5, p6, p7⟩ :=
    removeAmarreOp_spec (g.cards.foldl (fun t m => amarreAddCard t tg m) s) pg u1
  refine amarreInv_congr _ _ (invProj_joinTail _ tg primary ?_).symm ?_
  · rw [p2, u2]
    exact (List.mem_erase_of_ne (fun he => hne he.symm)).mpr htg
  · refine ⟨p1, ?_, ?_⟩
    · intro a ha ms hms
      rw [p2, u2] at ha
      have hane : a ≠ pg := fun he =>
        nodup_not_mem_erase s.amarres W.2.2.2.2.2.2 pg (he ▸ ha)
      rw [p3 a hane] at hms
      refine u5 a ?_ hane ms hms
      rw [u2]
      exact List.mem_of_mem_erase ha
    · intro c2 a2 hr
      have hane : a2 ≠ pg := fun he => p5 c2 (he ▸ hr)
      rcases p4 c2 with hc | hc
      · rw [hc] at hr
        have ha2 := u6 c2 a2 hr
        rw [u2] at ha2
        rw [p2, u2]
        exact (List.mem_erase_of_ne hane).mpr ha2
      · rw [hc] at hr
        simp at hr

theorem amarreInv_joinCardsIntoAmarre (s : AppState) (primary other : Nat)
    (hpo : primary ≠ other) (h : amarreInv s) :
    amarreInv (joinCardsIntoAmarre s primary other) := by
  obtain ⟨W, hS, hR⟩ := h
  unfold joinCardsIntoAmarre
  cases hgp : getCard s primary with
  | none => exact ⟨W, hS, hR⟩
  | some pc =>
    cases hgo : getCard s other with
    | none => exact ⟨W, hS, hR⟩
    | some oc =>
      dsimp only
      have hrefp : refOf s primary = some pc.amarre := refOf_of_getCard s primary pc hgp
      have hrefo : refOf s other = some oc.amarre := refOf_of_getCard s other oc hgo
      by_cases hin : (pc.inHand || oc.inHand) = true
      · rw [if_pos hin]
        exact ⟨W, hS, hR⟩
      · rw [if_neg hin]
        cases hoca : oc.amarre with
        | none =>
          rw [hoca] at hrefo
          cases hpca : pc.amarre with
          | none =>
            rw [hpca] at hrefp
            dsimp only
            exact joinBranch1 s primary other hpo W hS hR _ rfl rfl hrefp hrefo
          | some pg =>
            rw [hpca] at hrefp
            dsimp only
            exact joinBranchAbsorb s pg other W hS hR (hR primary pg hrefp) hrefo primary
        | some tg =>
          rw [hoca] at hrefo
          cases hpca : pc.amarre with
          | none =>
            rw [hpca] at hrefp
            dsimp only
            exact joinBranchAbsorb s tg primary W hS hR (hR other tg hrefo) hrefp primary
          | some pg =>
            rw [hpca] at hrefp
            dsimp only
            by_cases htp : tg = pg
            · rw [if_pos htp]
              cases hgt : getAmarre s tg with
              | none => exact ⟨W, hS, hR⟩
              | some g =>
                dsimp only
                exact amarreInv_congr _ _
                  (invProj_amarreMoveTo s tg (g.rect.x, g.rect.y)).symm ⟨W, hS, hR⟩
            · rw [if_neg htp]
              cases hgpg : getAmarre s pg with
              | none =>
                exfalso
                obtain ⟨ms, hms⟩ := memsOf_some_of_tracked s W pg (hR primary pg hrefp)
                unfold memsOf at hms
                rw [hgpg] at hms
                cases hms
              | some g =>
                dsimp only
                exact joinBranchUnion s tg pg primary W hS hR (hR other tg hrefo)
                  (hR primary pg hrefp) (fun he => htp he.symm) g hgpg

theorem amarreInv_evaluateAmarresAfterDrop (s : AppState) (cids : List Nat)
    (h : amarreInv s) : amarreInv (evaluateAmarresAfterDrop s cids) := by
  unfold evaluateAmarresAfterDrop
  dsimp only
  refine foldlInvariant amarreInv _ cids _ (foldlInvariant amarreInv _ cids s h ?_) ?_
  · intro t cid _ ht
    dsimp only
    by_cases hobj : ObjRef.card cid ∉ t.objects
    · rw [if_pos hobj]
      exact ht
    · rw [if_neg hobj]
      cases hgc : getCard t cid with
      | none => exact ht
      | some c =>
        dsimp only
        by_cases hin : c.inHand = true
        · rw [if_pos hin]
          exact ht
        · rw [if_neg hin]
          cases hfp : findCardCollisionPartner t cid with
          | none => exact ht
          | some partner =>
            dsimp only
            exact amarreInv_joinCardsIntoAmarre t cid partner
              (fun he => findCardCollisionPartner_ne t cid partner hfp he.symm) ht
  · intro t cid _ ht
    dsimp only
    cases hgc : getCard t cid with
    | none => exact ht
    | some c =>
      dsimp only
      cases hca : c.amarre with
      | none => exact ht
      | some aid =>
        dsimp only
        cases hga : getAmarre t aid with
        | none => exact ht
        | some g =>
          dsimp only
          by_cases hlen : g.cards.length < 2
          · rw [if_pos hlen]
            exact amarreInv_removeAmarreOp t aid ht
          · rw [if_neg hlen]
            exact ht

theorem amarreInv_applyAmOp (s : AppState) (op : AmOp) (h : amarreInv s) :
    amarreInv (applyAmOp s op) := by
  cases op with
  | merge cids => exact amarreInv_evaluateAmarresAfterDrop s cids h
  | detach cid => exact amarreInv_detachCardFromAmarre s cid h
  | dissolve aid => exact amarreInv_removeAmarreOp s aid h

/-- C1: after any sequence of merge (the collision pass run after a card
drop), detach (modifier-click pull-out) and dissolve operations applied to a
well-formed state — in particular the initial scene, which has no groups —
every amarre in the app's tracked `amarres` list has at least two member
cards, and every card whose `amarre` reference is non-empty refers to a
tracked amarre.  The well-formedness hypothesis `amarreInv` (store coherence
plus the two claimed clauses) is itself preserved by every operation. -/
theorem amarre_invariant_after_ops (s : AppState) (ops : List AmOp) (h : amarreInv s) :
    amarreInv (applyAmOps s ops) ∧ amarreSizeInv (applyAmOps s ops) ∧
      amarreRefInv (applyAmOps s ops) := by
  have hI : amarreInv (applyAmOps s ops) := by
    unfold applyAmOps
    exact foldlInvariant amarreInv applyAmOp ops s h
      (fun t op _ ht => amarreInv_applyAmOp t op ht)
  exact ⟨hI, sizeInv_of_F _ hI.2.1, refInv_of_F _ hI.1 hI.2.2⟩

theorem refOf_c1 (cid : Nat) : refOf c1State cid =
    if cid = 1 then some (some 7) else if cid = 2 then some (some 7) else none := by
  by_cases h1 : cid = 1
  · subst h1
    rw [if_pos rfl]
    with_unfolding_all decide
  · rw [if_neg h1]
    by_cases h2 : cid = 2
    · subst h2
      rw [if_pos rfl]
      with_unfolding_all decide
    · rw [if_neg h2]
      rw [refOf_none_iff_key]
      intro hmem
      have hkeys : c1State.cardStore.map (·.cid) = [1, 2] := by with_unfolding_all decide
      rw [hkeys] at hmem
      rcases List.mem_cons.mp hmem with h | h
      · exact h1 h
      · rcases List.mem_cons.mp h with h3 | h3
        · exact h2 h3
        · cases h3

theorem memsOf_c1 (a : Nat) : memsOf c1State a = if a = 7 then some [1, 2] else none := by
  by_cases h7 : a = 7
  · subst h7
    rw [if_pos rfl]
    with_unfolding_all decide
  · rw [if_neg h7]
    refine memsOf_none_of_notkey c1State a ?_
    intro hmem
    have hkeys : c1State.amarreHeap.map (·.aid) = [7] := by with_unfolding_all decide
    rw [hkeys] at hmem
    rcases List.mem_cons.mp hmem with h | h
    · exact h7 h
    · cases h

theorem amarreInv_c1State : amarreInv c1State := by
  have hkc : c1State.cardStore.map (·.cid) = [1, 2] := by with_unfolding_all decide
  have hka : c1State.amarreHeap.map (·.aid) = [7] := by with_unfolding_all decide
  have ham : c1State.amarres = [7] := by with_unfolding_all decide
  refine ⟨⟨?_, ?_, ?_, ?_, ?_, ?_, ?_⟩, ?_, ?_⟩
  · rw [hkc]
    decide
  · rw [hka]
    decide
  · intro cid a hr
    rw [refOf_c1] at hr
    by_cases h1 : cid = 1
    · rw [if_pos h1] at hr
      have ha := (Option.some.inj (Option.some.inj hr)).symm
      refine ⟨[1, 2], ?_, ?_⟩
      · rw [memsOf_c1, if_pos ha]
      · rw [h1]
        decide
    · rw [if_neg h1] at hr
      by_cases h2 : cid = 2
      · rw [if_pos h2] at hr
        have ha := (Option.some.inj (Option.some.inj hr)).symm
        refine ⟨[1, 2], ?_, ?_⟩
        · rw [memsOf_c1, if_pos ha]
        · rw [h2]
          decide
      · rw [if_neg h2] at hr
        cases hr
  · intro a ms hms cid hcm
    rw [memsOf_c1] at hms
    by_cases h7 : a = 7
    · rw [if_pos h7] at hms
      have he := Option.some.inj hms
      rw [← he] at hcm
      rw [refOf_c1]
      rcases List.mem_cons.mp hcm with h | h
      · rw [if_pos h, h7]
      · rcases List.mem_cons.mp h with h3 | h3
        · rw [h3, if_neg (by decide), if_pos rfl, h7]
        · cases h3
    · rw [if_neg h7] at hms
      cases hms
  · intro a ms hms
    rw [memsOf_c1] at hms
    by_cases h7 : a = 7
    · rw [if_pos h7] at hms
      have he := Option.some.inj hms
      rw [← he]
      decide
    · rw [if_neg h7] at hms
      cases hms
  · intro a ha
    rw [ham] at ha
    rcases List.mem_cons.mp ha with h | h
    · rw [memsOf_c1, if_pos h]
      simp
    · cases h
  · rw [ham]
    decide
  · intro a ha ms hms
    rw [ham] at ha
    rcases List.mem_cons.mp ha with h | h
    · rw [memsOf_c1, if_pos h] at hms
      have he := Option.some.inj hms
      rw [← he]
      decide
    · cases h
  · intro cid a hr
    rw [refOf_c1] at hr
    rw [ham]
    by_cases h1 : cid = 1
    · rw [if_pos h1] at hr
      have he := Option.some.inj (Option.some.inj hr)
      rw [← he]
      decide
    · rw [if_neg h1] at hr
      by_cases h2 : cid = 2
      · rw [if_pos h2] at hr
        have he := Option.some.inj (Option.some.inj hr)
        rw [← he]
        decide
      · rw [if_neg h2] at hr
        cases hr

theorem amarre_invariant_after_ops_witness :
    amarreInv (applyAmOps c1State c1Ops) ∧ amarreSizeInv (applyAmOps c1State c1Ops) ∧
      amarreRefInv (applyAmOps c1State c1Ops) :=
  amarre_invariant_after_ops c1State c1Ops amarreInv_c1State

theorem cardIdent_updateCard (s : AppState) (cid : Nat) (f : CardObj → CardObj)
    (hf : ∀ c, (f c).cid = c.cid ∧ (f c).label = c.label) :
    cardIdent (updateCard s cid f) = cardIdent s := by
  unfold cardIdent updateCard
  dsimp only
  rw [List.map_map]
  refine List.map_congr_left ?_
  intro c hc
  dsimp only [Function.comp]
  split
  · rw [(hf c).1, (hf c).2]
  · rfl

theorem detachFrame_updateCard (s : AppState) (cid : Nat) (f : CardObj → CardObj)
    (hf : ∀ c, (f c).cid = c.cid ∧ (f c).label = c.label) :
    detachFrame (updateCard s cid f) = detachFrame s := by
  unfold detachFrame
  rw [cardIdent_updateCard s cid f hf]
  rfl

theorem detachFrame_updateAmarre (s : AppState) (aid : Nat) (f : AmarreObj → AmarreObj) :
    detachFrame (updateAmarre s aid f) = detachFrame s := rfl

theorem detachFrame_setCardScaleOp (s : AppState) (cid : Nat) (q : ℚ) :
    detachFrame (setCardScaleOp s cid q) = detachFrame s := by
  unfold setCardScaleOp
  exact detachFrame_updateCard s cid _ (fun c => ⟨rfl, rfl⟩)

theorem detachFrame_updateFromPrimaryOp (s : AppState) (aid : Nat) :
    detachFrame (updateFromPrimaryOp s aid) = detachFrame s := by
  unfold updateFromPrimaryOp
  repeat' split
  all_goals try rfl
  refine foldlInvariant (fun t => detachFrame t = detachFrame s) _ _ _ ?_ ?_
  · exact detachFrame_updateAmarre _ _ _
  · intro t a _ ht
    rw [detachFrame_updateCard, ht]
    intro c
    exact ⟨rfl, rfl⟩

theorem detachFrame_amarreRemoveCard (s : AppState) (aid cid : Nat) :
    detachFrame (amarreRemoveCard s aid cid).1 = detachFrame s := by
  unfold amarreRemoveCard
  cases hg : getAmarre s aid with
  | none => rfl
  | some g =>
    dsimp only
    split
    · have main : ∀ s3 : AppState, detachFrame s3 = detachFrame s →
          detachFrame (match getAmarre s3 aid with
            | none => (s3, false)
            | some g2 =>
              match g2.cards with
              | [] => (s3, true)
              | [r] =>
                (updateAmarre (setCardScaleOp (updateCard s3 r fun c =>
                  { c with amarre := none }) r 1) aid fun g3 =>
                    { g3 with cards := [] }, true)
              | _ => (updateFromPrimaryOp s3 aid, false)).1 = detachFrame s := by
        intro s3 h3
        cases getAmarre s3 aid with
        | none => exact h3
        | some g2 =>
          dsimp only
          match g2.cards with
          | [] => exact h3
          | [r] =>
            dsimp only
            rw [detachFrame_updateAmarre, detachFrame_setCardScaleOp,
              detachFrame_updateCard, h3]
            intro c
            exact ⟨rfl, rfl⟩
          | a :: b :: t =>
            dsimp only
            rw [detachFrame_updateFromPrimaryOp, h3]
      apply main
      rw [detachFrame_setCardScaleOp, detachFrame_updateCard, detachFrame_updateAmarre]
      intro c
      exact ⟨rfl, rfl⟩
    · rfl

theorem detachFrame_removeAmarreOp (s : AppState) (aid : Nat) :
    detachFrame (removeAmarreOp s aid) = detachFrame s := by
  unfold removeAmarreOp
  dsimp only
  have hbase : detachFrame { s with amarres := s.amarres.erase aid } = detachFrame s := rfl
  cases hg : getAmarre { s with amarres := s.amarres.erase aid } aid with
  | none => exact hbase
  | some g =>
    dsimp only
    refine foldlInvariant (fun t => detachFrame t = detachFrame s) _ _ _ hbase ?_
    intro t a _ ht
    rw [detachFrame_amarreRemoveCard, ht]

theorem detachFrame_detachCardFromAmarre (s : AppState) (cid : Nat) :
    detachFrame (detachCardFromAmarre s cid) = detachFrame s := by
  unfold detachCardFromAmarre
  cases hc : getCard s cid with
  | none => rfl
  | some c =>
    dsimp only
    cases hca : c.amarre with
    | none => rfl
    | some aid =>
      dsimp only
      split
      · rw [detachFrame_removeAmarreOp, detachFrame_amarreRemoveCard]
      · rw [detachFrame_amarreRemoveCard]

theorem ident3_updateCard (s : AppState) (cid : Nat) (f : CardObj → CardObj)
    (hf : ∀ c, (f c).cid = c.cid ∧ (f c).label = c.label ∧ (f c).amarre = c.amarre) :
    (updateCard s cid f).cardStore.map (fun c => (c.cid, c.label, c.amarre)) =
      s.cardStore.map (fun c => (c.cid, c.label, c.amarre)) := by
  unfold updateCard
  dsimp only
  rw [List.map_map]
  refine List.map_congr_left ?_
  intro c hc
  dsimp only [Function.comp]
  split
  · rw [(hf c).1, (hf c).2.1, (hf c).2.2]
  · rfl

theorem layoutFrame_updateCard (s : AppState) (cid : Nat) (f : CardObj → CardObj)
    (hf : ∀ c, (f c).cid = c.cid ∧ (f c).label = c.label ∧ (f c).amarre = c.amarre) :
    layoutFrame (updateCard s cid f) = layoutFrame s := by
  unfold layoutFrame
  rw [ident3_updateCard s cid f hf]
  rfl

theorem layoutFrame_setCardScaleOp (s : AppState) (cid : Nat) (q : ℚ) :
    layoutFrame (setCardScaleOp s cid q) = layoutFrame s := by
  unfold setCardScaleOp
  exact layoutFrame_updateCard s cid _ (fun c => ⟨rfl, rfl, rfl⟩)

theorem layoutFrame_maybeRescale (s : AppState) (cid : Nat) (q : ℚ) :
    layoutFrame (maybeRescale s cid q) = layoutFrame s := by
  unfold maybeRescale
  split
  · split
    · exact layoutFrame_setCardScaleOp _ _ _
    · rfl
  · rfl

theorem layoutFrame_raiseObj (s : AppState) (r : ObjRef) :
    layoutFrame (raiseObj s r) = layoutFrame s := by
  unfold raiseObj
  split <;> rfl

theorem layoutFrame_handLayoutStep (count : Nat) (hovered : Option Nat) (t : AppState)
    (ic : Nat × Nat) : layoutFrame (handLayoutStep count hovered t ic) = layoutFrame t := by
  unfold handLayoutStep
  split
  · rfl
  · dsimp only
    repeat' split
    all_goals
      first
        | rw [layoutFrame_raiseObj, layoutFrame_updateCard, layoutFrame_maybeRescale,
            layoutFrame_updateCard]
        | rw [layoutFrame_updateCard, layoutFrame_maybeRescale, layoutFrame_updateCard]
    all_goals exact fun c => ⟨rfl, rfl, rfl⟩

theorem layoutFrame_handZoneUpdate (s : AppState) :
    layoutFrame (handZoneUpdate s) = layoutFrame s := by
  unfold handZoneUpdate
  split
  · rfl
  · refine foldlInvariant (fun t => layoutFrame t = layoutFrame s) _ _ _ rfl ?_
    intro t a _ ht
    rw [layoutFrame_handLayoutStep, ht]

theorem layoutFrame_handZoneRemoveCard (s : AppState) (cid : Nat) :
    layoutFrame (handZoneRemoveCard s cid) = layoutFrame s := by
  unfold handZoneRemoveCard
  split
  · dsimp only
    split
    · rw [layoutFrame_updateCard]
      rfl
      intro c
      exact ⟨rfl, rfl, rfl⟩
    · rw [layoutFrame_handZoneUpdate, layoutFrame_updateCard]
      rfl
      intro c
      exact ⟨rfl, rfl, rfl⟩
  · rfl

theorem handCards_updateCard (s : AppState) (cid : Nat) (f : CardObj → CardObj) :
    (updateCard s cid f).handCards = s.handCards := rfl

theorem handCards_maybeRescale (s : AppState) (cid : Nat) (q : ℚ) :
    (maybeRescale s cid q).handCards = s.handCards := by
  unfold maybeRescale
  split
  · split <;> rfl
  · rfl

theorem handCards_raiseObj (s : AppState) (r : ObjRef) :
    (raiseObj s r).handCards = s.handCards := by
  unfold raiseObj
  split <;> rfl

theorem handCards_handLayoutStep (count : Nat) (hovered : Option Nat) (t : AppState)
    (ic : Nat × Nat) : (handLayoutStep count hovered t ic).handCards = t.handCards := by
  unfold handLayoutStep
  split
  · rfl
  · dsimp only
    repeat' split
    all_goals
      first
        | rw [handCards_raiseObj, handCards_updateCard, handCards_maybeRescale,
            handCards_updateCard]
        | rw [handCards_updateCard, handCards_maybeRescale, handCards_updateCard]

theorem handCards_handZoneUpdate (s : AppState) :
    (handZoneUpdate s).handCards = s.handCards := by
  unfold handZoneUpdate
  split
  · rfl
  · refine foldlInvariant (fun t : AppState => t.handCards = s.handCards) _ _ _ rfl ?_
    intro t a _ ht
    rw [handCards_handLayoutStep, ht]

theorem handCards_handZoneRemoveCard (s : AppState) (cid : Nat) :
    (handZoneRemoveCard s cid).handCards = s.handCards.erase cid := by
  unfold handZoneRemoveCard
  by_cases hmem : cid ∈ s.handCards
  · rw [if_pos hmem]
    dsimp only
    split
    · rfl
    · rw [handCards_handZoneUpdate, handCards_updateCard]
  · rw [if_neg hmem, List.erase_of_not_mem hmem]

theorem raiseObj_objects_set (u : AppState) (r : ObjRef) :
    (∀ o, o ∈ (raiseObj u r).objects ↔ o ∈ u.objects) ∧
    (u.objects.Nodup → (raiseObj u r).objects.Nodup) := by
  unfold raiseObj
  by_cases hmem : r ∈ u.objects
  · rw [if_pos hmem]
    constructor
    · intro o
      dsimp only
      rw [List.mem_append, List.mem_singleton]
      constructor
      · intro h
        rcases h with h | h
        · exact List.mem_of_mem_erase h
        · rw [h]
          exact hmem
      · intro h
        by_cases ho : o = r
        · exact Or.inr ho
        · exact Or.inl ((List.mem_erase_of_ne ho).mpr h)
    · intro hnd
      dsimp only
      rw [List.nodup_append]
      exact ⟨hnd.erase r, List.nodup_singleton _,
        fun x hx hx2 => (nodup_not_mem_erase u.objects hnd r)
          ((List.mem_singleton.mp hx2) ▸ hx)⟩
  · rw [if_neg hmem]
    exact ⟨fun o => Iff.rfl, id⟩

theorem handLayoutStep_objects_set (count : Nat) (hovered : Option Nat) (t : AppState)
    (ic : Nat × Nat) :
    (∀ o, o ∈ (handLayoutStep count hovered t ic).objects ↔ o ∈ t.objects) ∧
    (t.objects.Nodup → (handLayoutStep count hovered t ic).objects.Nodup) := by
  unfold handLayoutStep
  split
  · exact ⟨fun o => Iff.rfl, id⟩
  · dsimp only
    repeat' split
    all_goals
      first
        | exact ⟨fun o => by
              rw [(raiseObj_objects_set _ _).1 o, objects_updateCard, objects_maybeRescale,
                objects_updateCard],
            fun hnd => (raiseObj_objects_set _ _).2 (by
              rw [objects_updateCard, objects_maybeRescale, objects_updateCard]
              exact hnd)⟩
        | exact ⟨fun o => by
              rw [objects_updateCard, objects_maybeRescale, objects_updateCard],
            fun hnd => by
              rw [objects_updateCard, objects_maybeRescale, objects_updateCard]
              exact hnd⟩

theorem handZoneUpdate_objects_set (u : AppState) :
    (∀ o, o ∈ (handZoneUpdate u).objects ↔ o ∈ u.objects) ∧
    (u.objects.Nodup → (handZoneUpdate u).objects.Nodup) := by
  unfold handZoneUpdate
  split
  · exact ⟨fun o => Iff.rfl, id⟩
  · refine foldlInvariant
      (fun t2 : AppState => (∀ o, o ∈ t2.objects ↔ o ∈ u.objects) ∧
        (u.objects.Nodup → t2.objects.Nodup)) _ _ _ ⟨fun o => Iff.rfl, id⟩ ?_
    intro t2 ic _ ht
    exact ⟨fun o => ((handLayoutStep_objects_set _ _ t2 ic).1 o).trans (ht.1 o),
      fun hnd => (handLayoutStep_objects_set _ _ t2 ic).2 (ht.2 hnd)⟩

theorem handZoneRemoveCard_objects_set (u : AppState) (cid : Nat) :
    (∀ o, o ∈ (handZoneRemoveCard u cid).objects ↔ o ∈ u.objects) ∧
    (u.objects.Nodup → (handZoneRemoveCard u cid).objects.Nodup) := by
  unfold handZoneRemoveCard
  split
  · dsimp only
    split
    · exact ⟨fun o => Iff.rfl, id⟩
    · exact handZoneUpdate_objects_set _
  · exact ⟨fun o => Iff.rfl, id⟩

theorem insertIdx_perm {α : Type} (a : α) : ∀ (n : Nat) (l : List α), n ≤ l.length →
    (l.insertIdx n a).Perm (a :: l)
  | 0, l, _ => by
    rw [List.insertIdx_zero]
  | n + 1, [], h => by
    rw [List.length_nil] at h
    exact absurd h (by omega)
  | n + 1, b :: t, h => by
    rw [List.insertIdx_succ_cons]
    exact ((insertIdx_perm a n t (by simpa using h)).cons b).trans (List.Perm.swap a b t)

theorem deckShuffleIn_perm (d : DeckObj) (label : String) (r : Nat) :
    (deckShuffleIn d label r).cards.Perm (label :: d.cards) := by
  unfold deckShuffleIn
  dsimp only
  by_cases he : d.cards.isEmpty
  · rw [if_pos he]
    exact List.perm_append_singleton _ _
  · rw [if_neg he]
    refine insertIdx_perm label _ _ ?_
    have h2 : r % (d.cards.length + 1) < d.cards.length + 1 := Nat.mod_lt r (by omega)
    omega

theorem getCard_of_store (u v : AppState) (h : u.cardStore = v.cardStore) (cid : Nat) :
    getCard u cid = getCard v cid := by
  unfold getCard
  rw [h]

theorem refOf_of_store (u v : AppState) (h : u.cardStore = v.cardStore) (c2 : Nat) :
    refOf u c2 = refOf v c2 := by
  unfold refOf
  rw [getCard_of_store u v h]

theorem labelPairs_getCard (s : AppState) (cid : Nat) :
    (getCard s cid).map (·.label) = ((cardIdent s).find? (fun x => x.1 == cid)).map (·.2) := by
  unfold getCard cardIdent
  rw [List.find?_map, Option.map_map]
  rfl

theorem labelOf_of_ident (u s : AppState) (h : cardIdent u = cardIdent s) (cid : Nat)
    (c : CardObj) (hc : getCard u cid = some c) : labelOf s cid = c.label := by
  unfold labelOf
  have e1 := labelPairs_getCard u cid
  have e2 := labelPairs_getCard s cid
  rw [h] at e1
  rw [e2, ← e1, hc]
  rfl

theorem cardPairs_eq_ident3 (s : AppState) :
    cardPairs s = (s.cardStore.map fun c => (c.cid, c.label, c.amarre)).map
      (fun x => (x.1, x.2.2)) := by
  unfold cardPairs
  rw [List.map_map]
  rfl

theorem cardIdent_eq_ident3 (s : AppState) :
    cardIdent s = (s.cardStore.map fun c => (c.cid, c.label, c.amarre)).map
      (fun x => (x.1, x.2.1)) := by
  unfold cardIdent
  rw [List.map_map]
  rfl

theorem invProj_of_layoutFrame (u v : AppState) (h : layoutFrame u = layoutFrame v) :
    invProj u = invProj v := by
  have h3 : u.cardStore.map (fun c => (c.cid, c.label, c.amarre)) =
      v.cardStore.map (fun c => (c.cid, c.label, c.amarre)) :=
    congrArg (fun x => x.2.2.1) h
  have h4 : heapPairs u = heapPairs v := congrArg (fun x => x.2.2.2.1) h
  have h5 : u.amarres = v.amarres := congrArg (fun x => x.2.2.2.2) h
  unfold invProj
  rw [cardPairs_eq_ident3, h3, ← cardPairs_eq_ident3, h4, h5]

theorem cardIdent_of_layoutFrame (u v : AppState) (h : layoutFrame u = layoutFrame v) :
    cardIdent u = cardIdent v := by
  have h3 : u.cardStore.map (fun c => (c.cid, c.label, c.amarre)) =
      v.cardStore.map (fun c => (c.cid, c.label, c.amarre)) :=
    congrArg (fun x => x.2.2.1) h
  rw [cardIdent_eq_ident3, h3, ← cardIdent_eq_ident3]

theorem invProj_clickIf (b : Prop) [Decidable b] (u : AppState) :
    invProj (if b then resetClickTracker u else u) = invProj u := by
  split <;> rfl

theorem cardIdent_clickIf (b : Prop) [Decidable b] (u : AppState) :
    cardIdent (if b then resetClickTracker u else u) = cardIdent u := by
  split <;> rfl

theorem detach_refs (u : AppState) (cid : Nat) (W : storeWF u) :
    (∀ c2, refOf (detachCardFromAmarre u cid) c2 = refOf u c2 ∨
      refOf (detachCardFromAmarre u cid) c2 = some none) ∧
    ((getCard u cid).isSome = true → refOf (detachCardFromAmarre u cid) cid = some none) := by
  unfold detachCardFromAmarre
  cases hc : getCard u cid with
  | none =>
    refine ⟨fun c2 => Or.inl rfl, ?_⟩
    intro hs
    simp at hs
  | some c =>
    dsimp only
    cases hca : c.amarre with
    | none =>
      refine ⟨fun c2 => Or.inl rfl, ?_⟩
      intro _
      rw [refOf_of_getCard u cid c hc, hca]
    | some aid =>
      dsimp only
      have href : refOf u cid = some (some aid) := by
        rw [refOf_of_getCard u cid c hc, hca]
      obtain ⟨ms, hms, hcm⟩ := W.2.2.1 cid aid href
      obtain ⟨r1, r2, r3, r4, r5, r6, r7, r8, r9⟩ := amarreRemoveCard_spec u aid cid W
      obtain ⟨q1, q2, q3, q4⟩ := r7 ms hms hcm
      by_cases hflag : (amarreRemoveCard u aid cid).2 = true
      · rw [if_pos hflag]
        obtain ⟨p1, p2, p3, p4, p5, p6, p7⟩ :=
          removeAmarreOp_spec (amarreRemoveCard u aid cid).1 aid r1
        refine ⟨?_, ?_⟩
        · intro c2
          rcases p4 c2 with h | h
          · rw [h]
            exact r4 c2
          · exact Or.inr h
        · intro _
          rcases p4 cid with h | h
          · rw [h]
            exact q2
          · exact h
      · rw [if_neg hflag]
        exact ⟨r4, fun _ => q2⟩

theorem deckDropStep_fires (t : AppState × List Nat) (cid : Nat) (c : CardObj)
    (hc : getCard t.1 cid = some c)
    (hcol : c.rect.colliderect t.1.deckObj.rect = true) :
    (handleDeckDropStep t (ObjRef.card cid)).2 = t.2 ++ [cid] := by
  unfold handleDeckDropStep
  dsimp only
  rw [hc]
  dsimp only
  rw [if_pos hcol]

theorem deckDropSweepCore (s t1 : AppState) (acc : List Nat) (cid : Nat)
    (c : CardObj) (hg : getCard t1 cid = some c)
    (ho : ObjRef.card cid ∈ s.objects)
    (i1 : amarreInv t1)
    (i2 : cardIdent t1 = cardIdent s)
    (i3 : t1.deckObj.rect = deckRefreshRect s.deckObj.rect t1.deckObj.cards.length)
    (i4 : t1.deckObj.cards.length = s.deckObj.cards.length + acc.length)
    (i5 : t1.deckObj.cards.Perm (s.deckObj.cards ++ acc.map (labelOf s)))
    (i6 : t1.objects.Nodup)
    (i7 : ∀ o, o ∈ t1.objects ↔ (o ∈ s.objects ∧ ∀ cid2 ∈ acc, o ≠ ObjRef.card cid2))
    (i8 : ∀ cid2 ∈ acc, ObjRef.card cid2 ∈ s.objects)
    (i9 : ∀ cid2 ∈ acc, cid2 ∉ t1.handCards ∧ refOf t1 cid2 = some none)
    (i10 : t1.handCards.Nodup)
    (s1 : AppState)
    (hstore : s1.cardStore = t1.cardStore)
    (hheap : s1.amarreHeap = t1.amarreHeap)
    (hamarres : s1.amarres = t1.amarres)
    (hobj : s1.objects = t1.objects)
    (hhand : s1.handCards = t1.handCards)
    (rr : Nat) (hdeck : s1.deckObj = deckShuffleIn t1.deckObj c.label rr) :
    deckDropInvG s ((if (handZoneRemoveCard { detachCardFromAmarre s1 cid with objects := (detachCardFromAmarre s1 cid).objects.erase (ObjRef.card cid) } cid).lastClickedObject = some (ObjRef.card cid) then resetClickTracker (handZoneRemoveCard { detachCardFromAmarre s1 cid with objects := (detachCardFromAmarre s1 cid).objects.erase (ObjRef.card cid) } cid) else handZoneRemoveCard { detachCardFromAmarre s1 cid with objects := (detachCardFromAmarre s1 cid).objects.erase (ObjRef.card cid) } cid), acc ++ [cid]) := by
  have hinv1 : invProj s1 = invProj t1 := by
    unfold invProj cardPairs heapPairs
    rw [hstore, hheap, hamarres]
  have hident1 : cardIdent s1 = cardIdent t1 := by
    unfold cardIdent
    rw [hstore]
  have hI1 : amarreInv s1 := amarreInv_congr t1 s1 hinv1.symm i1
  have hIB : amarreInv (detachCardFromAmarre s1 cid) := amarreInv_detachCardFromAmarre s1 cid hI1
  have hFB : detachFrame (detachCardFromAmarre s1 cid) = detachFrame s1 := detachFrame_detachCardFromAmarre s1 cid
  have hBdeck : (detachCardFromAmarre s1 cid).deckObj = s1.deckObj := congrArg (fun x => x.1) hFB
  have hBhand : (detachCardFromAmarre s1 cid).handCards = s1.handCards := congrArg (fun x => x.2.2.1) hFB
  have hBobj : (detachCardFromAmarre s1 cid).objects = s1.objects := congrArg (fun x => x.2.2.2.1) hFB
  have hBident : cardIdent (detachCardFromAmarre s1 cid) = cardIdent s1 := congrArg (fun x => x.2.2.2.2) hFB
  have hICc : amarreInv ({ detachCardFromAmarre s1 cid with objects := (detachCardFromAmarre s1 cid).objects.erase (ObjRef.card cid) }) := amarreInv_congr (detachCardFromAmarre s1 cid) ({ detachCardFromAmarre s1 cid with objects := (detachCardFromAmarre s1 cid).objects.erase (ObjRef.card cid) }) rfl hIB
  have hFD : layoutFrame (handZoneRemoveCard { detachCardFromAmarre s1 cid with objects := (detachCardFromAmarre s1 cid).objects.erase (ObjRef.card cid) } cid) = layoutFrame ({ detachCardFromAmarre s1 cid with objects := (detachCardFromAmarre s1 cid).objects.erase (ObjRef.card cid) }) := layoutFrame_handZoneRemoveCard ({ detachCardFromAmarre s1 cid with objects := (detachCardFromAmarre s1 cid).objects.erase (ObjRef.card cid) }) cid
  have hID : amarreInv (handZoneRemoveCard { detachCardFromAmarre s1 cid with objects := (detachCardFromAmarre s1 cid).objects.erase (ObjRef.card cid) } cid) :=
    amarreInv_congr ({ detachCardFromAmarre s1 cid with objects := (detachCardFromAmarre s1 cid).objects.erase (ObjRef.card cid) }) (handZoneRemoveCard { detachCardFromAmarre s1 cid with objects := (detachCardFromAmarre s1 cid).objects.erase (ObjRef.card cid) } cid) (invProj_of_layoutFrame (handZoneRemoveCard { detachCardFromAmarre s1 cid with objects := (detachCardFromAmarre s1 cid).objects.erase (ObjRef.card cid) } cid) ({ detachCardFromAmarre s1 cid with objects := (detachCardFromAmarre s1 cid).objects.erase (ObjRef.card cid) }) hFD).symm hICc
  have hIdD : cardIdent (handZoneRemoveCard { detachCardFromAmarre s1 cid with objects := (detachCardFromAmarre s1 cid).objects.erase (ObjRef.card cid) } cid) = cardIdent ({ detachCardFromAmarre s1 cid with objects := (detachCardFromAmarre s1 cid).objects.erase (ObjRef.card cid) }) := cardIdent_of_layoutFrame (handZoneRemoveCard { detachCardFromAmarre s1 cid with objects := (detachCardFromAmarre s1 cid).objects.erase (ObjRef.card cid) } cid) ({ detachCardFromAmarre s1 cid with objects := (detachCardFromAmarre s1 cid).objects.erase (ObjRef.card cid) }) hFD
  have hDdeck : (handZoneRemoveCard { detachCardFromAmarre s1 cid with objects := (detachCardFromAmarre s1 cid).objects.erase (ObjRef.card cid) } cid).deckObj = ({ detachCardFromAmarre s1 cid with objects := (detachCardFromAmarre s1 cid).objects.erase (ObjRef.card cid) }).deckObj := congrArg (fun x => x.1) hFD
  have hDhand : (handZoneRemoveCard { detachCardFromAmarre s1 cid with objects := (detachCardFromAmarre s1 cid).objects.erase (ObjRef.card cid) } cid).handCards = ({ detachCardFromAmarre s1 cid with objects := (detachCardFromAmarre s1 cid).objects.erase (ObjRef.card cid) }).handCards.erase cid :=
    handCards_handZoneRemoveCard ({ detachCardFromAmarre s1 cid with objects := (detachCardFromAmarre s1 cid).objects.erase (ObjRef.card cid) }) cid
  have hDrefs : ∀ c2, refOf (handZoneRemoveCard { detachCardFromAmarre s1 cid with objects := (detachCardFromAmarre s1 cid).objects.erase (ObjRef.card cid) } cid) c2 = refOf ({ detachCardFromAmarre s1 cid with objects := (detachCardFromAmarre s1 cid).objects.erase (ObjRef.card cid) }) c2 := by
    intro c2
    refine refOf_congr (handZoneRemoveCard { detachCardFromAmarre s1 cid with objects := (detachCardFromAmarre s1 cid).objects.erase (ObjRef.card cid) } cid) ({ detachCardFromAmarre s1 cid with objects := (detachCardFromAmarre s1 cid).objects.erase (ObjRef.card cid) }) ?_ c2
    have h3 : (handZoneRemoveCard { detachCardFromAmarre s1 cid with objects := (detachCardFromAmarre s1 cid).objects.erase (ObjRef.card cid) } cid).cardStore.map (fun c4 : CardObj => (c4.cid, c4.label, c4.amarre)) =
        ({ detachCardFromAmarre s1 cid with objects := (detachCardFromAmarre s1 cid).objects.erase (ObjRef.card cid) }).cardStore.map (fun c4 : CardObj => (c4.cid, c4.label, c4.amarre)) :=
      congrArg (fun x => x.2.2.1) hFD
    rw [cardPairs_eq_ident3, h3, ← cardPairs_eq_ident3]
  have hIE : amarreInv (if (handZoneRemoveCard { detachCardFromAmarre s1 cid with objects := (detachCardFromAmarre s1 cid).objects.erase (ObjRef.card cid) } cid).lastClickedObject = some (ObjRef.card cid) then resetClickTracker (handZoneRemoveCard { detachCardFromAmarre s1 cid with objects := (detachCardFromAmarre s1 cid).objects.erase (ObjRef.card cid) } cid) else handZoneRemoveCard { detachCardFromAmarre s1 cid with objects := (detachCardFromAmarre s1 cid).objects.erase (ObjRef.card cid) } cid) := amarreInv_congr (handZoneRemoveCard { detachCardFromAmarre s1 cid with objects := (detachCardFromAmarre s1 cid).objects.erase (ObjRef.card cid) } cid) (if (handZoneRemoveCard { detachCardFromAmarre s1 cid with objects := (detachCardFromAmarre s1 cid).objects.erase (ObjRef.card cid) } cid).lastClickedObject = some (ObjRef.card cid) then resetClickTracker (handZoneRemoveCard { detachCardFromAmarre s1 cid with objects := (detachCardFromAmarre s1 cid).objects.erase (ObjRef.card cid) } cid) else handZoneRemoveCard { detachCardFromAmarre s1 cid with objects := (detachCardFromAmarre s1 cid).objects.erase (ObjRef.card cid) } cid) (invProj_clickIf _ (handZoneRemoveCard { detachCardFromAmarre s1 cid with objects := (detachCardFromAmarre s1 cid).objects.erase (ObjRef.card cid) } cid)).symm hID
  have hIdE : cardIdent (if (handZoneRemoveCard { detachCardFromAmarre s1 cid with objects := (detachCardFromAmarre s1 cid).objects.erase (ObjRef.card cid) } cid).lastClickedObject = some (ObjRef.card cid) then resetClickTracker (handZoneRemoveCard { detachCardFromAmarre s1 cid with objects := (detachCardFromAmarre s1 cid).objects.erase (ObjRef.card cid) } cid) else handZoneRemoveCard { detachCardFromAmarre s1 cid with objects := (detachCardFromAmarre s1 cid).objects.erase (ObjRef.card cid) } cid) = cardIdent (handZoneRemoveCard { detachCardFromAmarre s1 cid with objects := (detachCardFromAmarre s1 cid).objects.erase (ObjRef.card cid) } cid) := cardIdent_clickIf _ (handZoneRemoveCard { detachCardFromAmarre s1 cid with objects := (detachCardFromAmarre s1 cid).objects.erase (ObjRef.card cid) } cid)
  have hEdeck : ((if (handZoneRemoveCard { detachCardFromAmarre s1 cid with objects := (detachCardFromAmarre s1 cid).objects.erase (ObjRef.card cid) } cid).lastClickedObject = some (ObjRef.card cid) then resetClickTracker (handZoneRemoveCard { detachCardFromAmarre s1 cid with objects := (detachCardFromAmarre s1 cid).objects.erase (ObjRef.card cid) } cid) else handZoneRemoveCard { detachCardFromAmarre s1 cid with objects := (detachCardFromAmarre s1 cid).objects.erase (ObjRef.card cid) } cid)).deckObj = (handZoneRemoveCard { detachCardFromAmarre s1 cid with objects := (detachCardFromAmarre s1 cid).objects.erase (ObjRef.card cid) } cid).deckObj := deckObj_clickIf _ (handZoneRemoveCard { detachCardFromAmarre s1 cid with objects := (detachCardFromAmarre s1 cid).objects.erase (ObjRef.card cid) } cid)
  have hEhand : ((if (handZoneRemoveCard { detachCardFromAmarre s1 cid with objects := (detachCardFromAmarre s1 cid).objects.erase (ObjRef.card cid) } cid).lastClickedObject = some (ObjRef.card cid) then resetClickTracker (handZoneRemoveCard { detachCardFromAmarre s1 cid with objects := (detachCardFromAmarre s1 cid).objects.erase (ObjRef.card cid) } cid) else handZoneRemoveCard { detachCardFromAmarre s1 cid with objects := (detachCardFromAmarre s1 cid).objects.erase (ObjRef.card cid) } cid)).handCards = (handZoneRemoveCard { detachCardFromAmarre s1 cid with objects := (detachCardFromAmarre s1 cid).objects.erase (ObjRef.card cid) } cid).handCards := handCards_clickIf _ (handZoneRemoveCard { detachCardFromAmarre s1 cid with objects := (detachCardFromAmarre s1 cid).objects.erase (ObjRef.card cid) } cid)
  have hEobj : ((if (handZoneRemoveCard { detachCardFromAmarre s1 cid with objects := (detachCardFromAmarre s1 cid).objects.erase (ObjRef.card cid) } cid).lastClickedObject = some (ObjRef.card cid) then resetClickTracker (handZoneRemoveCard { detachCardFromAmarre s1 cid with objects := (detachCardFromAmarre s1 cid).objects.erase (ObjRef.card cid) } cid) else handZoneRemoveCard { detachCardFromAmarre s1 cid with objects := (detachCardFromAmarre s1 cid).objects.erase (ObjRef.card cid) } cid)).objects = (handZoneRemoveCard { detachCardFromAmarre s1 cid with objects := (detachCardFromAmarre s1 cid).objects.erase (ObjRef.card cid) } cid).objects := objects_clickIf _ (handZoneRemoveCard { detachCardFromAmarre s1 cid with objects := (detachCardFromAmarre s1 cid).objects.erase (ObjRef.card cid) } cid)
  have hErefs : ∀ c2, refOf (if (handZoneRemoveCard { detachCardFromAmarre s1 cid with objects := (detachCardFromAmarre s1 cid).objects.erase (ObjRef.card cid) } cid).lastClickedObject = some (ObjRef.card cid) then resetClickTracker (handZoneRemoveCard { detachCardFromAmarre s1 cid with objects := (detachCardFromAmarre s1 cid).objects.erase (ObjRef.card cid) } cid) else handZoneRemoveCard { detachCardFromAmarre s1 cid with objects := (detachCardFromAmarre s1 cid).objects.erase (ObjRef.card cid) } cid) c2 = refOf (handZoneRemoveCard { detachCardFromAmarre s1 cid with objects := (detachCardFromAmarre s1 cid).objects.erase (ObjRef.card cid) } cid) c2 :=
    refOf_of_store (if (handZoneRemoveCard { detachCardFromAmarre s1 cid with objects := (detachCardFromAmarre s1 cid).objects.erase (ObjRef.card cid) } cid).lastClickedObject = some (ObjRef.card cid) then resetClickTracker (handZoneRemoveCard { detachCardFromAmarre s1 cid with objects := (detachCardFromAmarre s1 cid).objects.erase (ObjRef.card cid) } cid) else handZoneRemoveCard { detachCardFromAmarre s1 cid with objects := (detachCardFromAmarre s1 cid).objects.erase (ObjRef.card cid) } cid) (handZoneRemoveCard { detachCardFromAmarre s1 cid with objects := (detachCardFromAmarre s1 cid).objects.erase (ObjRef.card cid) } cid) (cardStore_clickIf _ (handZoneRemoveCard { detachCardFromAmarre s1 cid with objects := (detachCardFromAmarre s1 cid).objects.erase (ObjRef.card cid) } cid))
  have hdeckE : ((if (handZoneRemoveCard { detachCardFromAmarre s1 cid with objects := (detachCardFromAmarre s1 cid).objects.erase (ObjRef.card cid) } cid).lastClickedObject = some (ObjRef.card cid) then resetClickTracker (handZoneRemoveCard { detachCardFromAmarre s1 cid with objects := (detachCardFromAmarre s1 cid).objects.erase (ObjRef.card cid) } cid) else handZoneRemoveCard { detachCardFromAmarre s1 cid with objects := (detachCardFromAmarre s1 cid).objects.erase (ObjRef.card cid) } cid)).deckObj = deckShuffleIn t1.deckObj c.label rr := by
    rw [hEdeck, hDdeck]
    show (detachCardFromAmarre s1 cid).deckObj = _
    rw [hBdeck, hdeck]
  have hhandE : ((if (handZoneRemoveCard { detachCardFromAmarre s1 cid with objects := (detachCardFromAmarre s1 cid).objects.erase (ObjRef.card cid) } cid).lastClickedObject = some (ObjRef.card cid) then resetClickTracker (handZoneRemoveCard { detachCardFromAmarre s1 cid with objects := (detachCardFromAmarre s1 cid).objects.erase (ObjRef.card cid) } cid) else handZoneRemoveCard { detachCardFromAmarre s1 cid with objects := (detachCardFromAmarre s1 cid).objects.erase (ObjRef.card cid) } cid)).handCards = t1.handCards.erase cid := by
    rw [hEhand, hDhand]
    show (detachCardFromAmarre s1 cid).handCards.erase cid = t1.handCards.erase cid
    rw [hBhand, hhand]
  have hrefsEB : ∀ c2, refOf (if (handZoneRemoveCard { detachCardFromAmarre s1 cid with objects := (detachCardFromAmarre s1 cid).objects.erase (ObjRef.card cid) } cid).lastClickedObject = some (ObjRef.card cid) then resetClickTracker (handZoneRemoveCard { detachCardFromAmarre s1 cid with objects := (detachCardFromAmarre s1 cid).objects.erase (ObjRef.card cid) } cid) else handZoneRemoveCard { detachCardFromAmarre s1 cid with objects := (detachCardFromAmarre s1 cid).objects.erase (ObjRef.card cid) } cid) c2 = refOf (detachCardFromAmarre s1 cid) c2 := by
    intro c2
    rw [hErefs c2, hDrefs c2]
    exact refOf_of_store ({ detachCardFromAmarre s1 cid with objects := (detachCardFromAmarre s1 cid).objects.erase (ObjRef.card cid) }) (detachCardFromAmarre s1 cid) rfl c2
  have hWs1 : storeWF s1 := hI1.1
  obtain ⟨hdr1, hdr2⟩ := detach_refs s1 cid hWs1
  have hrefs1 : ∀ c2, refOf s1 c2 = refOf t1 c2 := refOf_of_store s1 t1 hstore
  have hlen1 : ((if (handZoneRemoveCard { detachCardFromAmarre s1 cid with objects := (detachCardFromAmarre s1 cid).objects.erase (ObjRef.card cid) } cid).lastClickedObject = some (ObjRef.card cid) then resetClickTracker (handZoneRemoveCard { detachCardFromAmarre s1 cid with objects := (detachCardFromAmarre s1 cid).objects.erase (ObjRef.card cid) } cid) else handZoneRemoveCard { detachCardFromAmarre s1 cid with objects := (detachCardFromAmarre s1 cid).objects.erase (ObjRef.card cid) } cid)).deckObj.cards.length = t1.deckObj.cards.length + 1 := by
    rw [hdeckE, deckShuffleIn_length]
  unfold deckDropInvG
  dsimp only
  refine ⟨hIE, ?_, ?_, ?_, ?_, ?_, ?_, ?_, ?_, ?_⟩
  · rw [hIdE, hIdD]
    show cardIdent (detachCardFromAmarre s1 cid) = cardIdent s
    rw [hBident, hident1, i2]
  · rw [hdeckE, deckShuffleIn_rect, deckShuffleIn_length, i3, deckRefreshRect_comp]
  · rw [hlen1, i4, List.length_append, List.length_singleton]
    omega
  · rw [hdeckE]
    have hlab : labelOf s cid = c.label := labelOf_of_ident t1 s i2 cid c hg
    refine (deckShuffleIn_perm t1.deckObj c.label rr).trans ?_
    refine (i5.cons c.label).trans ?_
    rw [List.map_append, List.map_cons, List.map_nil, hlab, ← List.append_assoc]
    exact (List.perm_append_singleton _ _).symm
  · rw [hEobj]
    refine (handZoneRemoveCard_objects_set ({ detachCardFromAmarre s1 cid with objects := (detachCardFromAmarre s1 cid).objects.erase (ObjRef.card cid) }) cid).2 ?_
    show ((detachCardFromAmarre s1 cid).objects.erase (ObjRef.card cid)).Nodup
    rw [hBobj, hobj]
    exact i6.erase _
  · intro o
    rw [hEobj]
    rw [(handZoneRemoveCard_objects_set ({ detachCardFromAmarre s1 cid with objects := (detachCardFromAmarre s1 cid).objects.erase (ObjRef.card cid) }) cid).1 o]
    show o ∈ (detachCardFromAmarre s1 cid).objects.erase (ObjRef.card cid) ↔ _
    rw [hBobj, hobj]
    rw [List.Nodup.mem_erase_iff i6, i7 o]
    constructor
    · rintro ⟨h1, h2, h3⟩
      refine ⟨h2, ?_⟩
      intro cid2 hc2
      rcases List.mem_append.mp hc2 with h | h
      · exact h3 cid2 h
      · rw [List.mem_singleton] at h
        subst h
        exact h1
    · rintro ⟨h2, h3⟩
      exact ⟨h3 cid (List.mem_append_right _ (List.mem_singleton_self _)), h2,
        fun cid2 hc2 => h3 cid2 (List.mem_append_left _ hc2)⟩
  · intro cid2 hc2
    rcases List.mem_append.mp hc2 with h | h
    · exact i8 cid2 h
    · rw [List.mem_singleton] at h
      subst h
      exact ho
  · intro cid2 hc2
    rcases List.mem_append.mp hc2 with h | h
    · obtain ⟨ha, hb⟩ := i9 cid2 h
      constructor
      · rw [hhandE]
        intro hmem
        exact ha (List.erase_subset _ _ hmem)
      · rw [hrefsEB cid2]
        rcases hdr1 cid2 with hcase | hcase
        · rw [hcase, hrefs1 cid2]
          exact hb
        · exact hcase
    · rw [List.mem_singleton] at h
      subst h
      constructor
      · rw [hhandE]
        exact nodup_not_mem_erase t1.handCards i10 cid2
      · rw [hrefsEB cid2]
        refine hdr2 ?_
        rw [getCard_of_store s1 t1 hstore, hg]
        rfl
  · rw [hhandE]
    exact i10.erase _

theorem deckDropStepG_inv (s : AppState) (t : AppState × List Nat) (o : ObjRef)
    (ho : o ∈ s.objects) (hI : deckDropInvG s t) :
    deckDropInvG s (handleDeckDropStep t o) := by
  obtain ⟨i1, i2, i3, i4, i5, i6, i7, i8, i9, i10⟩ := hI
  unfold handleDeckDropStep
  cases o with
  | deck => exact ⟨i1, i2, i3, i4, i5, i6, i7, i8, i9, i10⟩
  | card cid =>
    dsimp only
    cases hg : getCard t.1 cid with
    | none => exact ⟨i1, i2, i3, i4, i5, i6, i7, i8, i9, i10⟩
    | some c =>
      dsimp only
      by_cases hcol : c.rect.colliderect t.1.deckObj.rect = true
      · rw [if_pos hcol]
        by_cases hemp : t.1.deckObj.cards.isEmpty = true
        · rw [if_pos hemp]
          exact deckDropSweepCore s t.1 t.2 cid c hg ho i1 i2 i3 i4 i5 i6 i7 i8 i9 i10
            _ rfl rfl rfl rfl rfl 0 rfl
        · rw [if_neg hemp]
          exact deckDropSweepCore s t.1 t.2 cid c hg ho i1 i2 i3 i4 i5 i6 i7 i8 i9 i10
            _ rfl rfl rfl rfl rfl (t.1.randQueue.headD 0) rfl
      · rw [if_neg hcol]
        exact ⟨i1, i2, i3, i4, i5, i6, i7, i8, i9, i10⟩

theorem deckDropFoldG_inv (s : AppState) (hI : amarreInv s) (hnd : s.objects.Nodup)
    (hhd : s.handCards.Nodup)
    (hrect : s.deckObj.rect = deckRefreshRect s.deckObj.rect s.deckObj.cards.length)
    (l : List ObjRef) (hsub : ∀ o ∈ l, o ∈ s.objects) :
    deckDropInvG s (l.foldl handleDeckDropStep (s, [])) := by
  refine foldlInvariant (deckDropInvG s) handleDeckDropStep l (s, []) ?_ ?_
  · refine ⟨hI, rfl, hrect, by simp, ?_, hnd, ?_, ?_, ?_, hhd⟩
    · rw [List.map_nil, List.append_nil]
    · intro o
      simp
    · intro cid2 hc2
      cases hc2
    · intro cid2 hc2
      cases hc2
  · intro t o hol ht
    exact deckDropStepG_inv s t o (hsub o hol) ht

theorem handleDeckDrop_handCards (s : AppState) :
    (handleDeckDrop s).handCards = (handleDeckDropAux s).1.handCards := by
  unfold handleDeckDrop
  dsimp only
  split <;> rfl

/-- C10 (amended): when a dragged deck is dropped on a well-formed scene, the
sweep runs over a snapshot of the scene objects and re-reads the deck's rect
at each step; each shuffle-in refreshes the deck image, whose height grows
with the card count, so the deck rect grows during the sweep.  Every card
whose rect overlaps the deck's rect at the moment it is visited is swept: its
label is inserted into the deck's card sequence at the oracle-chosen index
(so the final deck holds the original cards plus exactly the swept cards'
labels, one per swept sprite), and the sprite leaves the scene's object list
and the hand and is detached from any group.  Unswept scene cards stay in the
scene and keep their identity and label (though group re-anchoring or hand
re-layout may move or rescale them), and a card that does not overlap the
deck at drop time can still be swept once the rect has grown. -/
theorem deck_drop_characterization (s : AppState)
    (hI : amarreInv s) (hnd : s.objects.Nodup) (hhd : s.handCards.Nodup)
    (hrect : s.deckObj.rect = deckRefreshRect s.deckObj.rect s.deckObj.cards.length) :
    (handleDeckDropAux s).1.deckObj.cards.length =
      s.deckObj.cards.length + (handleDeckDropAux s).2.length ∧
    (handleDeckDropAux s).1.deckObj.cards.Perm
      (s.deckObj.cards ++ (handleDeckDropAux s).2.map (labelOf s)) ∧
    (∀ cid ∈ (handleDeckDropAux s).2,
      ObjRef.card cid ∉ (handleDeckDrop s).objects ∧
      cid ∉ (handleDeckDrop s).handCards ∧
      refOf (handleDeckDrop s) cid = some none) ∧
    (∀ cid, ObjRef.card cid ∈ s.objects → cid ∉ (handleDeckDropAux s).2 →
      ObjRef.card cid ∈ (handleDeckDrop s).objects) ∧
    (∀ cid, (getCard (handleDeckDrop s) cid).map (·.label) =
      (getCard s cid).map (·.label)) ∧
    (∀ l1 l2 cid c, s.objects = l1 ++ ObjRef.card cid :: l2 →
      getCard (l1.foldl handleDeckDropStep (s, [])).1 cid = some c →
      c.rect.colliderect (l1.foldl handleDeckDropStep (s, [])).1.deckObj.rect = true →
      cid ∈ (handleDeckDropAux s).2) := by
  have G := deckDropFoldG_inv s hI hnd hhd hrect s.objects (fun o h => h)
  have G2 : deckDropInvG s (handleDeckDropAux s) := G
  obtain ⟨g1, g2, g3, g4, g5, g6, g7, g8, g9, g10⟩ := G2
  refine ⟨g4, g5, ?_, ?_, ?_, ?_⟩
  · intro cid hcm
    obtain ⟨h9a, h9b⟩ := g9 cid hcm
    refine ⟨?_, ?_, ?_⟩
    · rw [handleDeckDrop_objects]
      intro hmem
      rcases (g7 _).mp hmem with ⟨_, hall⟩
      exact hall cid hcm rfl
    · rw [handleDeckDrop_handCards]
      exact h9a
    · rw [refOf_of_store (handleDeckDrop s) (handleDeckDropAux s).1
        (handleDeckDrop_cardStore s) cid]
      exact h9b
  · intro cid hos hns
    rw [handleDeckDrop_objects]
    refine (g7 _).mpr ⟨hos, ?_⟩
    intro cid2 hc2 he
    have h3 := ObjRef.card.inj he
    subst h3
    exact hns hc2
  · intro cid
    rw [getCard_of_store (handleDeckDrop s) (handleDeckDropAux s).1
      (handleDeckDrop_cardStore s) cid]
    rw [labelPairs_getCard, labelPairs_getCard, g2]
  · intro l1 l2 cid c hsplit hc hcol
    show cid ∈ (handleDeckDropAux s).2
    unfold handleDeckDropAux
    rw [hsplit, List.foldl_append, List.foldl_cons]
    obtain ⟨u, hu⟩ := deckDropFold_snd_mono l2
      (handleDeckDropStep (l1.foldl handleDeckDropStep (s, [])) (ObjRef.card cid))
    rw [hu, deckDropStep_fires _ cid c hc hcol]
    exact List.mem_append_left _ (List.mem_append_right _ (by simp))

theorem refOf_c10 (cid : Nat) : refOf c10State cid =
    if cid = 1 then some none else if cid = 2 then some none else none := by
  by_cases h1 : cid = 1
  · subst h1
    rw [if_pos rfl]
    with_unfolding_all decide
  · rw [if_neg h1]
    by_cases h2 : cid = 2
    · subst h2
      rw [if_pos rfl]
      with_unfolding_all decide
    · rw [if_neg h2]
      rw [refOf_none_iff_key]
      intro hmem
      have hkeys : c10State.cardStore.map (·.cid) = [1, 2] := by with_unfolding_all decide
      rw [hkeys] at hmem
      rcases List.mem_cons.mp hmem with h | h
      · exact h1 h
      · rcases List.mem_cons.mp h with h3 | h3
        · exact h2 h3
        · cases h3

theorem memsOf_c10 (a : Nat) : memsOf c10State a = none := by
  refine memsOf_none_of_notkey c10State a ?_
  have hk : c10State.amarreHeap.map (·.aid) = [] := by with_unfolding_all decide
  rw [hk]
  simp

theorem amarreInv_c10State : amarreInv c10State := by
  have hkc : c10State.cardStore.map (·.cid) = [1, 2] := by with_unfolding_all decide
  have hka : c10State.amarreHeap.map (·.aid) = [] := by with_unfolding_all decide
  have ham : c10State.amarres = [] := by with_unfolding_all decide
  refine ⟨⟨?_, ?_, ?_, ?_, ?_, ?_, ?_⟩, ?_, ?_⟩
  · rw [hkc]
    decide
  · rw [hka]
    exact List.nodup_nil
  · intro cid a hr
    rw [refOf_c10] at hr
    split_ifs at hr <;> simp at hr
  · intro a ms hms cid hcm
    rw [memsOf_c10] at hms
    cases hms
  · intro a ms hms
    rw [memsOf_c10] at hms
    cases hms
  · intro a ha
    rw [ham] at ha
    cases ha
  · rw [ham]
    exact List.nodup_nil
  · intro a ha ms hms
    rw [ham] at ha
    cases ha
  · intro cid a hr
    rw [refOf_c10] at hr
    split_ifs at hr <;> simp at hr

theorem deck_drop_characterization_witness :
    1 ∈ (handleDeckDropAux c10State).2 ∧
    (handleDeckDropAux c10State).1.deckObj.cards.length =
      c10State.deckObj.cards.length + (handleDeckDropAux c10State).2.length := by
  have h := deck_drop_characterization c10State amarreInv_c10State
    (by with_unfolding_all decide) (by with_unfolding_all decide)
    (by with_unfolding_all decide)
  exact ⟨h.2.2.2.2.2 [ObjRef.deck] [ObjRef.card 2] 1 (c10Card 1 0)
    (by with_unfolding_all decide) (by with_unfolding_all decide)
    (by with_unfolding_all decide), h.1⟩
